import Mathlib

/-!
# Seat Management System: scheduler, registration and booking routes

A shallow embedding of `server/utils/scheduler.js`, `server/routes/auth.js`
(register, login) and `server/routes/bookings.js` (status, release,
book-floater, claim-back, my-schedule), with the `date-fns` helpers they call,
of the status computation of the `Seat` component of
`client/src/pages/Dashboard.jsx`, and the invariant that sequential executions
of the routes maintain.

Time model.  A JavaScript `Date` is represented by its local wall-clock
reading in milliseconds counted from 1970-01-01T00:00:00.000 local time, an
`Int`.  The local time line is taken to be uniform (a zone without clock
changes), so that one calendar day is always `86400000` ms.  Only valid dates
are represented: a `Date` is valid when its time value lies within the bound
of `TimeClip` (`ValidDate`), and a computation in which a helper would produce
an Invalid Date is outside the model.  The rotation theorems therefore take
the validity of the dates that `getBatchForDate` constructs as hypotheses.
-/

namespace SeatManagement

/-! ## Dates -/

/-- A `Date` value: local wall-clock milliseconds since 1970-01-01T00:00 local. -/
abbrev JsDate := Int

def msPerHour : Int := 3600000

def msPerMinute : Int := 60000

def msPerDay : Int := 86400000

/-- Calendar day number of a date (days since 1970-01-01, floor). -/
def dayIndex (d : JsDate) : Int := d / msPerDay

/-- Milliseconds elapsed since local midnight of the date's own day. -/
def msOfDay (d : JsDate) : Int := d % msPerDay

/-- Days from 1970-01-01 to the proleptic Gregorian date `y`-`m`-`d`
(`m` in 1..12), the civil-calendar arithmetic behind the `Date` constructor. -/
def daysFromCivil (y m d : Int) : Int :=
  let y1 := if m ≤ 2 then y - 1 else y
  let era := y1 / 400
  let yoe := y1 - era * 400
  let mp := (m + 9) % 12
  let doy := (153 * mp + 2) / 5 + d - 1
  let doe := yoe * 365 + yoe / 4 - yoe / 100 + doy
  era * 146097 + doe - 719468

/-- The constructor `new Date(year, monthIndex, day)`: local midnight of the
given civil date; `monthIndex` is zero-based and overflows into the year, `day`
overflows into the following days, and years 0..99 mean 1900..1999. -/
def newDate (year monthIndex day : Int) : JsDate :=
  let y0 := if 0 ≤ year ∧ year ≤ 99 then 1900 + year else year
  let y := y0 + monthIndex / 12
  let m := monthIndex % 12
  (daysFromCivil y (m + 1) 1 + (day - 1)) * msPerDay

/-- The date-fns `getDay`: 0 = Sunday, 1 = Monday, ..., 6 = Saturday
(1970-01-01 was a Thursday). -/
def getDay (d : JsDate) : Int := (dayIndex d + 4) % 7

/-- The date-fns `startOfWeek(date, { weekStartsOn })`: go back to the first day
of the week and reset the time to 00:00:00.000.  The result is that of the
code when it is a valid `Date`; below the bound of `TimeClip` the code yields
an Invalid Date, which the model does not represent. -/
def startOfWeek (d : JsDate) (weekStartsOn : Int) : JsDate :=
  let day := getDay d
  let diff := (if day < weekStartsOn then 7 else 0) + day - weekStartsOn
  (dayIndex d - diff) * msPerDay

/-- The date-fns internal `compareLocalAsc`: sign of `l - r`. -/
def compareLocalAsc (l r : JsDate) : Int :=
  if l - r < 0 then -1 else if l - r > 0 then 1 else 0

/-- The date-fns `differenceInCalendarDays`. -/
def differenceInCalendarDays (l r : JsDate) : Int := dayIndex l - dayIndex r

/-- The `Math.abs` of an integer. -/
def Math_abs (x : Int) : Int := if x < 0 then -x else x

/-- The date-fns `differenceInDays`: number of full days between two dates. -/
def differenceInDays (l r : JsDate) : Int :=
  let sign := compareLocalAsc l r
  let difference := Math_abs (differenceInCalendarDays l r)
  let l1 := l - sign * difference * msPerDay
  let isLastDayNotFull : Int := if compareLocalAsc l1 r = -sign then 1 else 0
  sign * (difference - isLastDayNotFull)

/-- The date-fns `differenceInWeeks`: full weeks, rounded towards zero. -/
def differenceInWeeks (l r : JsDate) : Int := Int.tdiv (differenceInDays l r) 7

/-- The date-fns `subDays`. -/
def subDays (d : JsDate) (amount : Int) : JsDate := d - amount * msPerDay

/-- The date-fns `setHours`: replace the hour, keep minutes, seconds, ms. -/
def setHours (d : JsDate) (hours : Int) : JsDate :=
  dayIndex d * msPerDay + hours * msPerHour + msOfDay d % msPerHour

/-- The date-fns `setMinutes`: replace the minutes, keep hour, seconds, ms. -/
def setMinutes (d : JsDate) (minutes : Int) : JsDate :=
  (d / msPerHour) * msPerHour + minutes * msPerMinute + d % msPerMinute

/-- The date-fns `isBefore`. -/
def isBefore (d dateToCompare : JsDate) : Bool := decide (d < dateToCompare)

/-- The bound of the ECMAScript operation `TimeClip`: a `Date` is valid when
the magnitude of its time value, in ms from the epoch in UTC, is at most
8.64e15 (one hundred million days); beyond it the `Date` is an Invalid Date. -/
def maxTimeValue : Int := 8640000000000000

/-- Validity of the `Date` whose local reading is `d`, in the zone whose local
time is UTC plus `offset` ms: its time value is `d - offset`. -/
def ValidDate (offset : Int) (d : JsDate) : Prop :=
  -maxTimeValue ≤ d - offset ∧ d - offset ≤ maxTimeValue

instance instDecidableValidDate (offset : Int) (d : JsDate) : Decidable (ValidDate offset d) := by
  unfold ValidDate
  infer_instance

/-! ## scheduler.js -/

/-- The constant `REFERENCE_DATE = new Date(2026, 1, 23)`. -/
def REFERENCE_DATE : JsDate := newDate 2026 1 23

/-- The function `getBatchForDate`; `none` is JavaScript `null`.  It models the
code for a valid `date` whose week start is a valid `Date`; for an Invalid
Date week start the code computes with `NaN` and takes the Week-2 branch. -/
def getBatchForDate (date : JsDate) : Option Int :=
  let dayOfWeek := getDay date
  if dayOfWeek = 0 ∨ dayOfWeek = 6 then none
  else
    let weeksDiff :=
      Math_abs (differenceInWeeks (startOfWeek date 1) (startOfWeek REFERENCE_DATE 1))
    let isWeek1 := weeksDiff % 2 = 0
    if isWeek1 then
      if dayOfWeek ≥ 1 ∧ dayOfWeek ≤ 3 then some 1
      else if dayOfWeek ≥ 4 ∧ dayOfWeek ≤ 5 then some 2
      else none
    else
      if dayOfWeek ≥ 1 ∧ dayOfWeek ≤ 3 then some 2
      else if dayOfWeek ≥ 4 ∧ dayOfWeek ≤ 5 then some 1
      else none

/-- The function `canReleaseSeat(date, now)`. -/
def canReleaseSeat (date now : JsDate) : Bool :=
  let deadline := setMinutes (setHours (subDays date 1) 20) 0
  isBefore now deadline

/-- The function `canBookFloater(date, now)`. -/
def canBookFloater (date now : JsDate) : Bool :=
  let startTime := setMinutes (setHours (subDays date 1) 15) 0
  !isBefore now startTime

/-! ## Calendar vocabulary used to state the rotation -/

/-- Day number of the reference Monday, 23 Feb 2026. -/
def referenceDay : Int := 20507

/-- Position of a date in its Monday-based week: 0 = Monday, ..., 6 = Sunday. -/
def weekdayFromMonday (d : JsDate) : Int := (dayIndex d - referenceDay) % 7

/-- Signed number of weeks from the reference week to the week of the date. -/
def weekOffset (d : JsDate) : Int := (dayIndex d - referenceDay) / 7

/-- Local midnight of the day with the given day number. -/
def midnight (day : Int) : JsDate := day * msPerDay

/-- The instant `h:m` (hours, minutes) on the day with the given day number. -/
def atTime (day h m : Int) : JsDate := day * msPerDay + h * msPerHour + m * msPerMinute

/-! ## Persisted records -/

/-- Modelled from the spec: the User record of `models/User.js`, which is not
among the sources (unique identifier, name, unique lowercase-normalized email,
stored password, squadId, batch, seatNumber). -/
structure User where
  id : Nat
  name : String
  email : String
  password : String
  squadId : Int
  batch : Int
  seatNumber : Int
deriving DecidableEq, Repr

/-- Modelled from the spec: what the absent User schema of `models/User.js`
contributes to the routes: the setter applied to the `email` path (on saved
documents and on query filters alike) and the validators run by `save()`. -/
structure UserSchema where
  normEmail : String → String
  valid : User → Bool

/-- Modelled from the spec: the User schema as the spec describes it, email
lowercased, squadId an integer 1..10 and batch 1 or 2. -/
def specSchema : UserSchema where
  normEmail := fun e => String.mk (e.data.map Char.toLower)
  valid := fun u => decide (1 ≤ u.squadId ∧ u.squadId ≤ 10 ∧ (u.batch = 1 ∨ u.batch = 2))

/-- The `status` enum of the Booking schema. -/
inductive BookingStatus where
  | booked
  | released
deriving DecidableEq, Repr

/-- The `type` enum of the Booking schema. -/
inductive BookingType where
  | fixed
  | floater
deriving DecidableEq, Repr

/-- The Booking record of `models/Booking.js` (timestamps left out);
`seatNumber` is optional in the schema. -/
structure Booking where
  userId : Nat
  date : JsDate
  status : BookingStatus
  type : BookingType
  seatNumber : Option Int
deriving DecidableEq, Repr

/-- Modelled from the spec: the OTP record of `models/OTP.js`, which is not
among the sources (email, code, creation time). -/
structure OTP where
  email : String
  otp : String
  createdAt : Int
deriving DecidableEq, Repr

/-- The three collections, each in natural (insertion) order. -/
structure Db where
  users : List User
  bookings : List Booking
  otps : List OTP
deriving DecidableEq, Repr

/-- A Booking of the status snapshot, its `userId` populated with the fields
`name squadId batch seatNumber` of the holder (`none` when no such user exists). -/
structure PopulatedBooking where
  userId : Option (Nat × String × Int × Int × Int)
  date : JsDate
  status : BookingStatus
  type : BookingType
  seatNumber : Option Int
deriving DecidableEq, Repr

/-- A user of the roster `assignedUsers`, projected on `name seatNumber`. -/
structure AssignedUser where
  id : Nat
  name : String
  seatNumber : Int
deriving DecidableEq, Repr

/-- The `status` label of a schedule entry: the status of the Booking, or one
of the default labels `assigned` and `none`. -/
inductive DayStatus where
  | assigned
  | none
  | booked
  | released
deriving DecidableEq, Repr

/-- One entry of the list answered by `GET /my-schedule`. -/
structure ScheduleEntry where
  date : JsDate
  isAssigned : Bool
  status : DayStatus
  type : Option BookingType
  canRelease : Bool
deriving DecidableEq, Repr

/-- What a route answers. -/
inductive Response where
  /-- Status 200 with `{ token, user }`, from register -/
  | registered (id : Nat) (name email : String) (squadId batch seatNumber : Int)
  /-- Status 400: "User already exists" -/
  | alreadyExists
  /-- Status 400: "Squad s already has 4 members in Batch b. ..." -/
  | squadFull (squadId batch : Int)
  /-- Status 200: "Seat released successfully" with the booking -/
  | released (booking : Booking)
  /-- Status 400: "You are not assigned to office on this day" -/
  | notAssignedToday
  /-- Status 400: "Release deadline (8 PM previous day) has passed" -/
  | deadlinePassed
  /-- Status 400: "You have already released/booked a seat for this day" (error code 11000) -/
  | alreadyActedToday
  /-- Status 200: "Floater seat booked successfully" with the seat number -/
  | floaterBooked (seatNumber : Int)
  /-- Status 400: "Floater booking starts after 3 PM from a day before" -/
  | tooEarly
  /-- Status 400: "You already have a fixed seat for this day" -/
  | alreadyHaveFixedSeat
  /-- Status 400: "No floater seats available" -/
  | noFloatersAvailable
  /-- Status 400: "No seats available" -/
  | noSeatsAvailable
  /-- Status 500: with the message of the exception caught -/
  | serverError
  /-- Status 200: "Seat reclaimed successfully" -/
  | reclaimed
  /-- Status 400: "This was not your allotted seat" -/
  | notYourSeat
  /-- Status 400: "Your seat has already been booked by someone else" -/
  | seatTaken
  /-- Status 404: "No release record found for this seat" -/
  | noReleaseFound
  /-- Status 200 with the seat-map snapshot of `GET /status` -/
  | statusSnapshot (assignedBatch : Option Int) (bookings : List PopulatedBooking)
      (availableFloaters : Int) (assignedUsers : List AssignedUser) (currentTime : JsDate)
  /-- Status 200 with the list of `GET /my-schedule` -/
  | schedule (entries : List ScheduleEntry)
  /-- Status 200 with `{ token, user }`, from login -/
  | loggedIn (id : Nat) (name email : String) (squadId batch seatNumber : Int)
  /-- Status 400 with the given message as the whole body -/
  | badRequest (message : String)
deriving DecidableEq, Repr

/-- HTTP status code of a response. -/
def Response.status : Response → Nat
  | .registered .. => 200
  | .released _ => 200
  | .floaterBooked _ => 200
  | .serverError => 500
  | .reclaimed => 200
  | .noReleaseFound => 404
  | .statusSnapshot .. => 200
  | .schedule _ => 200
  | .loggedIn .. => 200
  | _ => 400

/-! ## Store operations -/

/-- The query `User.findById(id)`. -/
def findById (users : List User) (id : Nat) : Option User :=
  users.find? (fun u => decide (u.id = id))

/-- A fresh identifier for a new document. -/
def freshId (users : List User) : Nat :=
  (users.map (fun u => u.id)).foldr max 0 + 1

/-- Filter `{ userId, date }` of the unique index of the Booking collection. -/
def sameKey (userId : Nat) (date : JsDate) (b : Booking) : Bool :=
  decide (b.userId = userId) && decide (b.date = date)

/-- Saving a new Booking document: the unique index on `(userId, date)` rejects
a second document with the same key (error code 11000, here `none`). -/
def insertBooking (bookings : List Booking) (b : Booking) : Option (List Booking) :=
  if bookings.any (sameKey b.userId b.date) then none else some (bookings ++ [b])

/-- Saving a modified document found by a query with filter `p`: the first
document matching `p` is replaced by its image under `f`. -/
def updateFirst (p : Booking → Bool) (f : Booking → Booking) : List Booking → List Booking
  | [] => []
  | b :: bs => if p b then f b :: bs else b :: updateFirst p f bs

/-! ## routes/auth.js: register -/

/-- The documents counted by `User.countDocuments({ squadId, batch })`. -/
def squadUsers (users : List User) (squadId batch : Int) : List User :=
  users.filter (fun u => decide (u.squadId = squadId) && decide (u.batch = batch))

/-- The handler of `POST /register`.  The welcome email and the token are not
part of the state and are left out. -/
def register (schema : UserSchema) (db : Db) (name email password : String)
    (squadId batch : Int) : Db × Response :=
  match db.users.find? (fun u => decide (u.email = schema.normEmail email)) with
  | some _ => (db, .alreadyExists)
  | none =>
    let squadUsersInBatch : Int := (squadUsers db.users squadId batch).length
    if squadUsersInBatch ≥ 4 then (db, .squadFull squadId batch)
    else
      let seatNumber := (squadId - 1) * 4 + squadUsersInBatch + 1
      let user : User :=
        { id := freshId db.users, name := name, email := schema.normEmail email,
          password := password, squadId := squadId, batch := batch, seatNumber := seatNumber }
      if schema.valid user then
        ({ db with users := db.users ++ [user],
                   otps := db.otps.eraseP (fun o => decide (o.email = email)) },
         .registered user.id name email squadId batch seatNumber)
      else (db, .serverError)

/-! ## routes/bookings.js: release and book-floater -/

/-- The handler of `POST /release` for the parsed `targetDate`, run at `now`.
The confirmation email is left out. -/
def release (db : Db) (userId : Nat) (targetDate now : JsDate) : Db × Response :=
  match findById db.users userId with
  | none => (db, .serverError)
  | some user =>
    let assignedBatch := getBatchForDate targetDate
    if some user.batch ≠ assignedBatch then (db, .notAssignedToday)
    else if !canReleaseSeat targetDate now then (db, .deadlinePassed)
    else
      match db.bookings.find? (sameKey userId targetDate) with
      | some booking =>
        let booking1 := { booking with status := BookingStatus.released }
        let saved := updateFirst (sameKey userId targetDate) (fun _ => booking1) db.bookings
        ({ db with bookings := saved }, .released booking1)
      | none =>
        let booking : Booking :=
          { userId := userId, date := targetDate, status := .released, type := .fixed,
            seatNumber := none }
        match insertBooking db.bookings booking with
        | none => (db, .alreadyActedToday)
        | some bs => ({ db with bookings := bs }, .released booking)

/-- Bookings of a date: `Booking.find({ date })`. -/
def bookingsOn (bookings : List Booking) (date : JsDate) : List Booking :=
  bookings.filter (fun b => decide (b.date = date))

/-- The count `releasedCount` / `releasedSeats` of the routes. -/
def releasedCount (bookings : List Booking) (date : JsDate) : Nat :=
  ((bookingsOn bookings date).filter (fun b => decide (b.status = .released))).length

/-- The count `floaterCount` / `floaterBookings` of the routes. -/
def floaterCount (bookings : List Booking) (date : JsDate) : Nat :=
  ((bookingsOn bookings date).filter
    (fun b => decide (b.type = .floater) && decide (b.status = .booked))).length

/-- The list `occupiedSeats`: seat numbers of the `booked` Bookings of the date. -/
def occupiedSeats (bookings : List Booking) (date : JsDate) : List (Option Int) :=
  (bookings.filter (fun b => decide (b.date = date) && decide (b.status = .booked))).map
    (fun b => b.seatNumber)

/-- The values of `i` visited by `for (let i = 41; i <= 50; i++)`, in order. -/
def dedicatedDesks : List Int := [41, 42, 43, 44, 45, 46, 47, 48, 49, 50]

/-- Priority 1: the loop `for (let i = 41; i <= 50; i++)`. -/
def firstFreeDedicated (occupied : List (Option Int)) : Option Int :=
  dedicatedDesks.find? (fun i => !occupied.contains (some i))

/-- Priority 2: the loop over the released fixed records, each populated with
its holder; `none` is the exception raised when a holder does not exist. -/
def scanReleased (users : List User) (occupied : List (Option Int)) :
    List Booking → Option (Option Int)
  | [] => some none
  | record :: rest =>
    match findById users record.userId with
    | none => none
    | some holder =>
      if !occupied.contains (some holder.seatNumber) then some (some holder.seatNumber)
      else scanReleased users occupied rest

/-- The handler of `POST /book-floater` for the parsed `targetDate`, run at
`now`.  The confirmation email is left out. -/
def bookFloater (db : Db) (userId : Nat) (targetDate now : JsDate) : Db × Response :=
  if !canBookFloater targetDate now then (db, .tooEarly)
  else
    match findById db.users userId with
    | none => (db, .serverError)
    | some user =>
      let assignedBatch := getBatchForDate targetDate
      if some user.batch = assignedBatch then (db, .alreadyHaveFixedSeat)
      else if (10 : Int) + releasedCount db.bookings targetDate
                - floaterCount db.bookings targetDate ≤ 0 then (db, .noFloatersAvailable)
      else
        let occupied := occupiedSeats db.bookings targetDate
        let priority1 := firstFreeDedicated occupied
        let priority2 : Option (Option Int) :=
          match priority1 with
          | some i => some (some i)
          | none =>
            scanReleased db.users occupied
              (db.bookings.filter (fun b => decide (b.date = targetDate)
                && decide (b.status = .released) && decide (b.type = .fixed)))
        match priority2 with
        | none => (db, .serverError)
        | some none => (db, .noSeatsAvailable)
        | some (some assignedFloaterSeat) =>
          if assignedFloaterSeat = 0 then (db, .noSeatsAvailable)
          else
            let booking : Booking :=
              { userId := userId, date := targetDate, status := .booked, type := .floater,
                seatNumber := some assignedFloaterSeat }
            match insertBooking db.bookings booking with
            | none => (db, .alreadyActedToday)
            | some bs => ({ db with bookings := bs }, .floaterBooked assignedFloaterSeat)

/-! ## Reachable states -/

/-- States reached from an empty user collection by register calls alone. -/
inductive RegReachable (schema : UserSchema) : Db → Prop where
  | init (db : Db) : db.users = [] → RegReachable schema db
  | step (db : Db) (name email password : String) (squadId batch : Int) :
      RegReachable schema db →
      RegReachable schema (register schema db name email password squadId batch).1

/-- The seats `(s-1)*4+1, ..., (s-1)*4+n` of squad `s`, in ascending order. -/
def squadSeats (s : Int) (n : Nat) : List Int :=
  (List.range n).map (fun i : Nat => (s - 1) * 4 + (i : Int) + 1)

/-! ## Vocabulary of the booking claims -/

/-- The unique index `{ userId: 1, date: 1 }`: no two Bookings share a key. -/
def UniqueKey (bookings : List Booking) : Prop :=
  (bookings.map (fun b => (b.userId, b.date))).Nodup

/-- Seat `i` is the seatNumber of a `booked` Booking of the date. -/
def SeatBooked (bookings : List Booking) (date : JsDate) (i : Int) : Prop :=
  ∃ b ∈ bookings, b.date = date ∧ b.status = .booked ∧ b.seatNumber = some i

/-- Seat `i` is the seatNumber of a `booked` floater Booking of the date. -/
def FloaterOn (bookings : List Booking) (date : JsDate) (i : Int) : Prop :=
  ∃ b ∈ bookings, b.date = date ∧ b.status = .booked ∧ b.type = .floater ∧
    b.seatNumber = some i

/-- A release response (HTTP 200 of `POST /release`). -/
def Response.isReleased : Response → Bool
  | .released _ => true
  | _ => false

instance (bookings : List Booking) (date : JsDate) (i : Int) :
    Decidable (SeatBooked bookings date i) := by
  unfold SeatBooked
  infer_instance

instance (bookings : List Booking) (date : JsDate) (i : Int) :
    Decidable (FloaterOn bookings date i) := by
  unfold FloaterOn
  infer_instance

/-! ## Sample data -/

/-- The database with three empty collections. -/
def emptyDb : Db := { users := [], bookings := [], otps := [] }

/-- One more member registered into Squad 3, Batch 1. -/
def joinSquad3 (db : Db) (email : String) : Db :=
  (register specSchema db "member" email "pw" 3 1).1

/-- Four registrations into Squad 3, Batch 1, starting from the empty database. -/
def squad3Db : Db :=
  joinSquad3 (joinSquad3 (joinSquad3 (joinSquad3 emptyDb "a@x.io") "b@x.io") "c@x.io") "d@x.io"

/-- A Batch-1 member (id 1, seat 9) and a Batch-2 member (id 2, seat 1); no Bookings. -/
def officeDb : Db :=
  (register specSchema (joinSquad3 emptyDb "a@x.io") "visitor" "z@x.io" "pw" 1 2).1

/-- The Batch-1 member of `officeDb`. -/
def memberA : User :=
  { id := 1, name := "member", email := "a@x.io", password := "pw", squadId := 3, batch := 1,
    seatNumber := 9 }

/-- The Batch-2 member of `officeDb`. -/
def visitorZ : User :=
  { id := 2, name := "visitor", email := "z@x.io", password := "pw", squadId := 1, batch := 2,
    seatNumber := 1 }

/-- Monday 23 Feb 2026, a day of Batch 1. -/
def sampleMonday : JsDate := newDate 2026 1 23

/-- Sunday 22 Feb 2026 at 16:00, inside both the release and the floater window
of `sampleMonday`. -/
def sundayAfternoon : JsDate := atTime (referenceDay - 1) 16 0

/-- A floater Booking of `sampleMonday` at the given desk. -/
def floaterAt (userId : Nat) (seat : Int) : Booking :=
  { userId := userId, date := sampleMonday, status := .booked, type := .floater,
    seatNumber := some seat }

/-- The office with desks 41 and 42 taken on `sampleMonday`. -/
def busyDb : Db := { officeDb with bookings := [floaterAt 101 41, floaterAt 102 42] }

/-- The office with all ten dedicated desks taken on `sampleMonday` and nothing released. -/
def fullDb : Db :=
  { officeDb with bookings :=
      [floaterAt 101 41, floaterAt 102 42, floaterAt 103 43, floaterAt 104 44, floaterAt 105 45,
       floaterAt 106 46, floaterAt 107 47, floaterAt 108 48, floaterAt 109 49, floaterAt 110 50] }

/-! ## routes/bookings.js: claim-back, status, my-schedule -/

/-- Filter `{ date, type: 'floater', status: 'booked', seatNumber }` of claim-back. -/
def floaterAtSeat (date : JsDate) (seatNumber : Int) (b : Booking) : Bool :=
  decide (b.date = date) && decide (b.type = .floater) && decide (b.status = .booked)
    && decide (b.seatNumber = some seatNumber)

/-- Filter `{ userId, date, status: 'released', type: 'fixed' }` of claim-back. -/
def ownRelease (userId : Nat) (date : JsDate) (b : Booking) : Bool :=
  decide (b.userId = userId) && decide (b.date = date) && decide (b.status = .released)
    && decide (b.type = .fixed)

/-- The handler of `POST /claim-back` for the parsed `targetDate`. -/
def claimBack (db : Db) (userId : Nat) (targetDate : JsDate) : Db × Response :=
  match findById db.users userId with
  | none => (db, .serverError)
  | some user =>
    let assignedBatch := getBatchForDate targetDate
    if some user.batch ≠ assignedBatch then (db, .notYourSeat)
    else
      match db.bookings.find? (floaterAtSeat targetDate user.seatNumber) with
      | some _ => (db, .seatTaken)
      | none =>
        match db.bookings.find? (ownRelease userId targetDate) with
        | none => (db, .noReleaseFound)
        | some _ =>
          ({ db with bookings := db.bookings.eraseP (ownRelease userId targetDate) },
           .reclaimed)

/-- The effect of `.populate('userId', 'name squadId batch seatNumber')`. -/
def populate (users : List User) (b : Booking) : PopulatedBooking :=
  { userId := (findById users b.userId).map
      (fun u => (u.id, u.name, u.squadId, u.batch, u.seatNumber)),
    date := b.date, status := b.status, type := b.type, seatNumber := b.seatNumber }

/-- The handler of `GET /status` for the parsed `targetDate`, run at `now`. -/
def getStatus (db : Db) (targetDate now : JsDate) : Db × Response :=
  let assignedBatch := getBatchForDate targetDate
  let bookings := bookingsOn db.bookings targetDate
  let releasedSeats := (bookings.filter (fun b => decide (b.status = .released))).length
  let floaterBookings :=
    (bookings.filter (fun b => decide (b.type = .floater) && decide (b.status = .booked))).length
  let availableFloaters : Int := 10 + releasedSeats - floaterBookings
  let assignedUsers := db.users.filter (fun u => decide (some u.batch = assignedBatch))
  (db, .statusSnapshot assignedBatch (bookings.map (populate db.users)) availableFloaters
    (assignedUsers.map (fun u => { id := u.id, name := u.name, seatNumber := u.seatNumber }))
    now)

/-- The date-fns `addDays`. -/
def addDays (d : JsDate) (amount : Int) : JsDate := d + amount * msPerDay

/-- The method call `date.setHours(0, 0, 0, 0)`: local midnight of the same day. -/
def startOfDay (d : JsDate) : JsDate := dayIndex d * msPerDay

/-- The label of a Booking status in a schedule entry. -/
def DayStatus.ofBooking : BookingStatus → DayStatus
  | .booked => .booked
  | .released => .released

/-- The body of the loop of `GET /my-schedule` for the index `i`. -/
def scheduleEntry (user : User) (bookings : List Booking) (now : JsDate) (i : Nat) :
    ScheduleEntry :=
  let date := startOfDay (addDays now i)
  let assignedBatch := getBatchForDate date
  let isAssigned : Bool := decide (some user.batch = assignedBatch)
  let booking := bookings.find? (fun b => decide (b.date = date))
  { date := date,
    isAssigned := isAssigned,
    status :=
      match booking with
      | some b => DayStatus.ofBooking b.status
      | none => if isAssigned then .assigned else .none,
    type :=
      match booking with
      | some b => some b.type
      | none => if isAssigned then some .fixed else Option.none,
    canRelease :=
      isAssigned && canReleaseSeat date now &&
        (match booking with
         | some b => decide (b.status ≠ .released)
         | none => true) }

/-- The handler of `GET /my-schedule`, run at `now` (the one clock reading
taken for the whole request). -/
def mySchedule (db : Db) (userId : Nat) (now : JsDate) : Db × Response :=
  match findById db.users userId with
  | none => (db, .serverError)
  | some user =>
    let bookings := db.bookings.filter (fun b => decide (b.userId = userId))
    (db, .schedule ((List.range 14).map (scheduleEntry user bookings now)))

/-! ## routes/auth.js: login -/

/-- The handler of `POST /login`.  The method `comparePassword` of the User
model, which is not among the sources, is a parameter; the token is left out. -/
def login (schema : UserSchema) (comparePassword : User → String → Bool) (db : Db)
    (email password : String) : Db × Response :=
  match db.users.find? (fun u => decide (u.email = schema.normEmail email)) with
  | none => (db, .badRequest "Invalid credentials")
  | some user =>
    let isMatch := comparePassword user password
    if !isMatch then (db, .badRequest "Invalid credentials")
    else (db, .loggedIn user.id user.name user.email user.squadId user.batch user.seatNumber)

/-- A reclaim response (HTTP 200 of `POST /claim-back`). -/
def Response.isReclaimed : Response → Bool
  | .reclaimed => true
  | _ => false

/-- The caller holds a `fixed` Booking with status `released` for the date. -/
def HasOwnRelease (bookings : List Booking) (userId : Nat) (date : JsDate) : Prop :=
  ∃ b ∈ bookings, b.userId = userId ∧ b.date = date ∧ b.type = .fixed ∧ b.status = .released

/-- A released fixed Booking of `sampleMonday`. -/
def releaseOf (userId : Nat) : Booking :=
  { userId := userId, date := sampleMonday, status := .released, type := .fixed,
    seatNumber := none }

/-- The office with two released fixed seats and three active floater Bookings
on `sampleMonday`. -/
def statusDb : Db :=
  { officeDb with bookings :=
      [releaseOf 1, releaseOf 3, floaterAt 101 41, floaterAt 102 42, floaterAt 103 43] }

/-- The office after the Batch-1 member released `sampleMonday` and a floater
took the released seat 9. -/
def takenDb : Db := { officeDb with bookings := [releaseOf 1, floaterAt 2 9] }

/-- Monday 2 Mar 2026, the first day of a week in which Batch 2 attends Mon-Wed. -/
def swappedMonday : JsDate := newDate 2026 2 2

/-- The entries of a schedule response (none for any other response). -/
def Response.entries : Response → List ScheduleEntry
  | .schedule es => es
  | _ => []

/-- Sunday 1 Mar 2026 at 10:00, the day before `swappedMonday`. -/
def sundayMorning : JsDate := atTime (referenceDay + 6) 10 0

instance (bookings : List Booking) (userId : Nat) (date : JsDate) :
    Decidable (HasOwnRelease bookings userId date) := by
  unfold HasOwnRelease
  infer_instance

/-! ## Sequential executions -/

/-- The validators of the User schema keep `squadId` within 1..10, as the spec
describes the field. -/
def SquadRange (schema : UserSchema) : Prop :=
  ∀ u : User, schema.valid u = true → 1 ≤ u.squadId ∧ u.squadId ≤ 10

/-- States reached from `db0` by a sequence of register, release, claim-back and
book-floater calls, one after the other. -/
inductive ReachableFrom (schema : UserSchema) (db0 : Db) : Db → Prop where
  | start : ReachableFrom schema db0 db0
  | byRegister (db : Db) (name email password : String) (squadId batch : Int) :
      ReachableFrom schema db0 db →
      ReachableFrom schema db0 (register schema db name email password squadId batch).1
  | byRelease (db : Db) (userId : Nat) (targetDate now : JsDate) :
      ReachableFrom schema db0 db →
      ReachableFrom schema db0 (release db userId targetDate now).1
  | byClaimBack (db : Db) (userId : Nat) (targetDate : JsDate) :
      ReachableFrom schema db0 db →
      ReachableFrom schema db0 (claimBack db userId targetDate).1
  | byBookFloater (db : Db) (userId : Nat) (targetDate now : JsDate) :
      ReachableFrom schema db0 db →
      ReachableFrom schema db0 (bookFloater db userId targetDate now).1

/-- States reached from empty user and Booking collections. -/
def Reachable (schema : UserSchema) (db : Db) : Prop :=
  ∃ db0 : Db, db0.users = [] ∧ db0.bookings = [] ∧ ReachableFrom schema db0 db

/-- The user collection is as registration builds it: squads within 1..10 and
the members of each (squadId, batch) seated contiguously, at most four. -/
def UsersOk (users : List User) : Prop :=
  (∀ u ∈ users, 1 ≤ u.squadId ∧ u.squadId ≤ 10) ∧
  (∀ s b : Int, (squadUsers users s b).length ≤ 4 ∧
    (squadUsers users s b).map (fun u => u.seatNumber)
      = squadSeats s (squadUsers users s b).length)

/-- The Booking collection is as the routes build it. -/
structure BookingsOk (db : Db) : Prop where
  unique : UniqueKey db.bookings
  shape : ∀ b ∈ db.bookings,
    (b.type = .fixed ∧ b.status = .released) ∨
    (b.type = .floater ∧ b.status = .booked ∧ ∃ s : Int, b.seatNumber = some s)
  releasedHolder : ∀ r ∈ db.bookings, r.status = .released →
    ∃ h : User, findById db.users r.userId = some h ∧ some h.batch = getBatchForDate r.date
  bookedHolder : ∀ b ∈ db.bookings, b.status = .booked →
    ∃ c : User, findById db.users b.userId = some c ∧ some c.batch ≠ getBatchForDate b.date
  bookedSeat : ∀ b ∈ db.bookings, b.status = .booked → ∀ s : Int, b.seatNumber = some s →
    (41 ≤ s ∧ s ≤ 50) ∨
    ∃ r ∈ db.bookings, r.date = b.date ∧ r.status = .released ∧
      ∃ h : User, findById db.users r.userId = some h ∧ h.seatNumber = s
  distinctSeats : ∀ d : JsDate, (occupiedSeats db.bookings d).Nodup

/-- The invariant of sequential executions. -/
def Inv (db : Db) : Prop := UsersOk db.users ∧ BookingsOk db

/-- The fixed seat of the holder of a Booking, resolved as `populate` does. -/
def holderSeat (users : List User) (r : Booking) : Option Int :=
  (findById users r.userId).map (fun u => u.seatNumber)

/-- The records scanned by priority 2 of book-floater:
`Booking.find({ date, status: 'released', type: 'fixed' })`. -/
def releasedFixed (bookings : List Booking) (date : JsDate) : List Booking :=
  bookings.filter (fun b => decide (b.date = date) && decide (b.status = .released)
    && decide (b.type = .fixed))

/-- One more member registered into Batch 2. -/
def joinBatch2 (db : Db) (email : String) (squadId : Int) : Db :=
  (register specSchema db "visitor" email "pw" squadId 2).1

/-- The Batch-1 member of Squad 3 (id 1, seat 9) and eleven Batch-2 members
(ids 2..12), registered one after the other. -/
def crowdDb : Db :=
  joinBatch2 (joinBatch2 (joinBatch2 (joinBatch2 (joinBatch2 (joinBatch2 (joinBatch2
    (joinBatch2 (joinBatch2 (joinBatch2 (joinBatch2 (joinSquad3 emptyDb "a@x.io")
      "v02@x.io" 1) "v03@x.io" 1) "v04@x.io" 1) "v05@x.io" 1) "v06@x.io" 2) "v07@x.io" 2)
      "v08@x.io" 2) "v09@x.io" 2) "v10@x.io" 4) "v11@x.io" 4) "v12@x.io" 4

/-- A floater booked for `sampleMonday` on the Sunday before at 16:00. -/
def bookMonday (db : Db) (userId : Nat) : Db :=
  (bookFloater db userId sampleMonday sundayAfternoon).1

/-- The crowd after the Batch-1 member released `sampleMonday`. -/
def crowdReleasedDb : Db := (release crowdDb 1 sampleMonday sundayAfternoon).1

/-- The crowd after the release and ten floater bookings, by the members 2..11. -/
def crowdFullDb : Db :=
  bookMonday (bookMonday (bookMonday (bookMonday (bookMonday (bookMonday (bookMonday
    (bookMonday (bookMonday (bookMonday crowdReleasedDb 2) 3) 4) 5) 6) 7) 8) 9) 10) 11

/-- The office after the Batch-2 member booked a floater for `sampleMonday`. -/
def bookedDb : Db := bookMonday officeDb 2

/-- The field `assignedBatch` of a status snapshot (none for any other response). -/
def Response.assignedBatch? : Response → Option (Option Int)
  | .statusSnapshot a _ _ _ _ => some a
  | _ => none

/-- The field `availableFloaters` of a status snapshot (none for any other response). -/
def Response.availableFloaters? : Response → Option Int
  | .statusSnapshot _ _ v _ _ => some v
  | _ => none

/-- Saturday 28 Feb 2026. -/
def sampleSaturday : JsDate := newDate 2026 1 28

/-- Friday 27 Feb 2026 at 16:00, inside the floater window of `sampleSaturday`. -/
def fridayAfternoon : JsDate := atTime (referenceDay + 4) 16 0

/-! ## The register request -/

/-- The body of a `POST /register` request as the registration form sends it. -/
structure RegisterRequest where
  name : String
  email : String
  password : String
  squadId : Int
  batch : Int
  otp : String
deriving DecidableEq, Repr

/-- The route `POST /register` on a request body: the handler reads
`{ name, email, password, squadId, batch }` and nothing else. -/
def registerRoute (schema : UserSchema) (db : Db) (req : RegisterRequest) : Db × Response :=
  register schema db req.name req.email req.password req.squadId req.batch

/-- A registration response (HTTP 200 of `POST /register`). -/
def Response.isRegistered : Response → Bool
  | .registered .. => true
  | _ => false

/-- The office with a pending OTP record for a new email. -/
def pendingDb : Db :=
  { officeDb with otps := [{ email := "n@x.io", otp := "123456", createdAt := 0 }] }

/-! ## client/src/pages/Dashboard.jsx: the Seat component -/

/-- The session user held by the client: the `user` object of the login and
register responses. -/
structure SessionUser where
  id : Nat
  name : String
  email : String
  squadId : Int
  batch : Int
  seatNumber : Int
deriving DecidableEq, Repr

/-- The body of a `GET /status` response as the client holds it in `data`. -/
structure StatusData where
  assignedBatch : Option Int
  bookings : List PopulatedBooking
  availableFloaters : Int
  assignedUsers : List AssignedUser
  currentTime : JsDate
deriving DecidableEq, Repr

/-- The body of a status snapshot (none for any other response). -/
def Response.data? : Response → Option StatusData
  | .statusSnapshot a bs v us t =>
    some { assignedBatch := a, bookings := bs, availableFloaters := v, assignedUsers := us,
           currentTime := t }
  | _ => none

/-- The value of `status` in the Seat component. -/
inductive SeatStatus where
  | available
  | yours
  | released
  | booked
deriving DecidableEq, Repr

/-- JavaScript truthiness of a batch value that may be `null`. -/
def batchTruthy : Option Int → Bool
  | some b => decide (b ≠ 0)
  | none => false

/-- The predicate of `data?.bookings?.find(...)` that selects `seatRecord`. -/
def seatRecordMatch (assignedBatch : Option Int) (seatNum : Int) (b : PopulatedBooking) : Bool :=
  if b.type = .fixed then
    match b.userId with
    | some (_, _, _, batch, seatNumber) =>
      decide (seatNumber = seatNum) && decide (some batch = assignedBatch)
    | none => false
  else decide (b.type = .floater) && decide (b.seatNumber = some seatNum)

/-- The constant `seatRecord`. -/
def seatRecord (seatNum : Int) (data : Option StatusData) : Option PopulatedBooking :=
  match data with
  | none => none
  | some d => d.bookings.find? (seatRecordMatch d.assignedBatch seatNum)

/-- The constant `yourRecord`: the first Booking of the snapshot held by the user. -/
def yourRecord (data : Option StatusData) (user : SessionUser) : Option PopulatedBooking :=
  match data with
  | none => none
  | some d =>
    d.bookings.find? (fun b =>
      match b.userId with
      | some (id, _, _, _, _) => decide (id = user.id)
      | none => false)

/-- The constant `isReleased`, as a truth value. -/
def isReleased (seatNum : Int) (data : Option StatusData) : Bool :=
  match seatRecord seatNum data with
  | some r => decide (r.status = .released)
  | none => false

/-- The constant `isYours`, as a truth value. -/
def isYours (seatNum : Int) (data : Option StatusData) (user : SessionUser) : Bool :=
  let assignedBatch : Option Int := data.bind (fun d => d.assignedBatch)
  let isYourAllottedSeat : Bool :=
    decide (user.seatNumber = seatNum) && decide (assignedBatch = some user.batch)
  (isYourAllottedSeat &&
    (match yourRecord data user with
     | none => true
     | some y => decide (y.status ≠ .released))) ||
  (match yourRecord data user with
   | some y =>
     decide (y.type = .floater) && decide (y.seatNumber = some seatNum)
       && decide (y.status = .booked)
   | none => false)

/-- The variable `isBooked`, as a truth value. -/
def isBooked (seatNum : Int) (data : Option StatusData) : Bool :=
  if seatNum ≤ 40 then
    batchTruthy (data.bind (fun d => d.assignedBatch)) && !isReleased seatNum data
  else
    match seatRecord seatNum data with
    | some r => decide (r.status = .booked)
    | none => false

/-- The first assignment of `status`, starting from `available`. -/
def provisionalStatus (seatNum : Int) (data : Option StatusData) (user : SessionUser) :
    SeatStatus :=
  let status := SeatStatus.available
  if isYours seatNum data user then .yours
  else if status = .available ∧ seatNum ≤ 40 ∧ isReleased seatNum data = true then .released
  else if isBooked seatNum data then .booked
  else if seatNum ≤ 40 ∧ batchTruthy (data.bind (fun d => d.assignedBatch)) = false then
    .available
  else status

/-- The block "Refine status logic": the second assignment of `status`, which
starts from the provisional value. -/
def refineStatus (seatNum : Int) (data : Option StatusData) (user : SessionUser)
    (_status : SeatStatus) : SeatStatus :=
  if isYours seatNum data user then .yours
  else if isReleased seatNum data then .released
  else if isBooked seatNum data then .booked
  else .available

/-- The `status` of the Seat component for `seatNum`, `data` and `user`. -/
def seatStatus (seatNum : Int) (data : Option StatusData) (user : SessionUser) : SeatStatus :=
  refineStatus seatNum data user (provisionalStatus seatNum data user)

/-- The Batch-1 member of `officeDb` as a session user. -/
def sessionA : SessionUser :=
  { id := 1, name := "member", email := "a@x.io", squadId := 3, batch := 1, seatNumber := 9 }

/-- The Batch-2 member of `officeDb` as a session user. -/
def sessionZ : SessionUser :=
  { id := 2, name := "visitor", email := "z@x.io", squadId := 1, batch := 2, seatNumber := 1 }

/-- The crowd after the twelfth member booked the released seat 9. -/
def crowdTakenDb : Db := bookMonday crowdFullDb 12

/-- A User schema without validators. -/
def openSchema : UserSchema where
  normEmail := specSchema.normEmail
  valid := fun _ => true

/-- One more member registered under `openSchema`. -/
def joinOpen (db : Db) (email : String) (squadId batch : Int) : Db :=
  (register openSchema db "member" email "pw" squadId batch).1

/-- A Batch-1 member of squad 11, whose seat is 41, and eleven Batch-2 members. -/
def squad11Db : Db :=
  joinOpen (joinOpen (joinOpen (joinOpen (joinOpen (joinOpen (joinOpen (joinOpen (joinOpen
    (joinOpen (joinOpen (joinOpen emptyDb "a@x.io" 11 1) "v02@x.io" 1 2) "v03@x.io" 1 2)
      "v04@x.io" 1 2) "v05@x.io" 1 2) "v06@x.io" 2 2) "v07@x.io" 2 2) "v08@x.io" 2 2)
      "v09@x.io" 2 2) "v10@x.io" 4 2) "v11@x.io" 4 2) "v12@x.io" 4 2

/-- The state `squad11Db` after the member of squad 11 released `sampleMonday` and
the members 2..11 booked the ten desks. -/
def squad11FullDb : Db :=
  bookMonday (bookMonday (bookMonday (bookMonday (bookMonday (bookMonday (bookMonday
    (bookMonday (bookMonday (bookMonday
      (release squad11Db 1 sampleMonday sundayAfternoon).1 2) 3) 4) 5) 6) 7) 8) 9) 10) 11

/-! ## Scheduler theorems -/

theorem startOfWeek_monday (d : JsDate) :
    startOfWeek d 1 = (referenceDay + 7 * weekOffset d) * msPerDay := by
  unfold startOfWeek getDay weekOffset dayIndex referenceDay msPerDay
  simp only []
  split <;> congr 1 <;> omega

theorem differenceInDays_midnight (a b : Int) :
    differenceInDays (a * msPerDay) (b * msPerDay) = a - b := by
  unfold differenceInDays compareLocalAsc differenceInCalendarDays Math_abs dayIndex msPerDay
  simp only []
  have h1 : a * 86400000 / 86400000 = a := by omega
  have h2 : b * 86400000 / 86400000 = b := by omega
  rw [h1, h2]
  rcases lt_trichotomy a b with h | h | h
  · have c1 : a * 86400000 - b * 86400000 < 0 := by omega
    have c2 : a - b < 0 := by omega
    simp only [c1, c2, if_true]
    have c3 : ¬ (a * 86400000 - -1 * -(a - b) * 86400000 - b * 86400000 < 0) := by omega
    have c4 : ¬ (a * 86400000 - -1 * -(a - b) * 86400000 - b * 86400000 > 0) := by omega
    simp only [c3, c4, if_false]
    norm_num
  · subst h
    simp
  · have c1 : ¬ (a * 86400000 - b * 86400000 < 0) := by omega
    have c1b : a * 86400000 - b * 86400000 > 0 := by omega
    have c2 : ¬ (a - b < 0) := by omega
    simp only [c1, c1b, c2, if_true, if_false]
    have c3 : ¬ (a * 86400000 - 1 * (a - b) * 86400000 - b * 86400000 < 0) := by omega
    have c4 : ¬ (a * 86400000 - 1 * (a - b) * 86400000 - b * 86400000 > 0) := by omega
    simp only [c3, c4, if_false]
    norm_num

theorem weeksDiff_eq (d : JsDate) :
    differenceInWeeks (startOfWeek d 1) (startOfWeek REFERENCE_DATE 1) = weekOffset d := by
  have hr : REFERENCE_DATE = referenceDay * msPerDay := by decide
  have h0 : startOfWeek REFERENCE_DATE 1 = referenceDay * msPerDay := by decide
  rw [h0, startOfWeek_monday, differenceInWeeks, differenceInDays_midnight]
  have : referenceDay + 7 * weekOffset d - referenceDay = 7 * weekOffset d := by omega
  rw [this]
  exact Int.mul_tdiv_cancel_left _ (by decide)


theorem getBatchForDate_eq (d : JsDate) :
    getBatchForDate d =
      if weekdayFromMonday d ≥ 5 then none
      else if weekOffset d % 2 = 0 then
        (if weekdayFromMonday d ≤ 2 then some 1 else some 2)
      else
        (if weekdayFromMonday d ≤ 2 then some 2 else some 1) := by
  unfold getBatchForDate
  simp only [weeksDiff_eq]
  unfold getDay weekdayFromMonday Math_abs referenceDay
  generalize weekOffset d = k
  generalize dayIndex d = n
  split_ifs <;> first | rfl | omega

theorem getDay_eq_weekday (d : JsDate) : getDay d = (weekdayFromMonday d + 1) % 7 := by
  unfold getDay weekdayFromMonday referenceDay
  omega

theorem releaseDeadline_eq (day : Int) :
    setMinutes (setHours (subDays (midnight day) 1) 20) 0 = atTime (day - 1) 20 0 := by
  unfold setMinutes setHours subDays midnight atTime dayIndex msOfDay msPerDay msPerHour
    msPerMinute
  show @Eq Int _ _
  omega

theorem floaterStart_eq (day : Int) :
    setMinutes (setHours (subDays (midnight day) 1) 15) 0 = atTime (day - 1) 15 0 := by
  unfold setMinutes setHours subDays midnight atTime dayIndex msOfDay msPerDay msPerHour
    msPerMinute
  show @Eq Int _ _
  omega

theorem canReleaseSeat_iff (day : Int) (now : JsDate) :
    canReleaseSeat (midnight day) now = true ↔ now < atTime (day - 1) 20 0 := by
  simp [canReleaseSeat, isBefore, releaseDeadline_eq]

theorem canBookFloater_iff (day : Int) (now : JsDate) :
    canBookFloater (midnight day) now = true ↔ atTime (day - 1) 15 0 ≤ now := by
  simp [canBookFloater, isBefore, floaterStart_eq]

/-- C1: for every date `d` such that `d`, the Monday that starts its week and
the reference date are valid `Date` values (in a zone at `offset` ms from
UTC), `getBatchForDate` is absent on Saturday and Sunday; on a weekday, with
`k = weekOffset d` the signed number of weeks from the reference week (Monday
23 Feb 2026) to the week of `d`, it is Batch 1 on Mon-Wed and Batch 2 on Thu-Fri
when `k` is even, and the other way round when `k` is odd.  The weekday counted
from Monday agrees with `getDay`, and the dates 23 Feb - 8 Mar 2026 give
1 1 1 2 2 - - 2 2 2 1 1 - -. -/
theorem C1_getBatchForDate_rotation :
    (∀ (offset : Int) (d : JsDate), ValidDate offset REFERENCE_DATE → ValidDate offset d →
      ValidDate offset (startOfWeek d 1) →
      getDay d = (weekdayFromMonday d + 1) % 7 ∧
      getBatchForDate d =
        if weekdayFromMonday d ≥ 5 then none
        else if weekOffset d % 2 = 0 then
          (if weekdayFromMonday d ≤ 2 then some 1 else some 2)
        else
          (if weekdayFromMonday d ≤ 2 then some 2 else some 1)) ∧
    REFERENCE_DATE = midnight referenceDay ∧
    [23, 24, 25, 26, 27, 28].map (fun day => getBatchForDate (newDate 2026 1 day))
      = [some 1, some 1, some 1, some 2, some 2, none] ∧
    [1, 2, 3, 4, 5, 6, 7, 8].map (fun day => getBatchForDate (newDate 2026 2 day))
      = [none, some 2, some 2, some 2, some 1, some 1, none, none] ∧
    getBatchForDate (newDate 2026 1 16) = some 2 ∧
    getBatchForDate (newDate 2026 1 19) = some 1 := by
  refine ⟨fun _ d _ _ _ => ⟨getDay_eq_weekday d, getBatchForDate_eq d⟩, ?_, ?_, ?_, ?_, ?_⟩
    <;> decide

/-- C2: for a local-midnight date `D = midnight day`, `canReleaseSeat D now` is
true exactly when `now` is strictly before 20:00:00 on the preceding day: true
at 19:59 and false at 20:00 of that day. -/
theorem C2_canReleaseSeat_deadline (day : Int) (now : JsDate) :
    (canReleaseSeat (midnight day) now = true ↔ now < atTime (day - 1) 20 0) ∧
    canReleaseSeat (midnight day) (atTime (day - 1) 19 59) = true ∧
    canReleaseSeat (midnight day) (atTime (day - 1) 20 0) = false := by
  refine ⟨canReleaseSeat_iff day now, (canReleaseSeat_iff day _).2 ?_, ?_⟩
  · unfold atTime msPerDay msPerHour msPerMinute
    show @LT.lt Int _ _ _
    omega
  · rw [← Bool.not_eq_true, canReleaseSeat_iff]
    exact lt_irrefl _

/-- C3: for a local-midnight date `D = midnight day`, `canBookFloater D now` is
true exactly when `now` is at or after 15:00:00 on the preceding day: false at
14:59, true at 15:00 of that day and at every later instant. -/
theorem C3_canBookFloater_opening (day : Int) (now : JsDate) :
    (canBookFloater (midnight day) now = true ↔ atTime (day - 1) 15 0 ≤ now) ∧
    canBookFloater (midnight day) (atTime (day - 1) 14 59) = false ∧
    canBookFloater (midnight day) (atTime (day - 1) 15 0) = true ∧
    (∀ later : JsDate, canBookFloater (midnight day) now = true → now ≤ later →
      canBookFloater (midnight day) later = true) := by
  refine ⟨canBookFloater_iff day now, ?_, (canBookFloater_iff day _).2 (le_refl _), ?_⟩
  · rw [← Bool.not_eq_true, canBookFloater_iff]
    unfold atTime msPerDay msPerHour msPerMinute
    show ¬ @LE.le Int _ _ _
    omega
  · intro later h hle
    rw [canBookFloater_iff] at h ⊢
    exact le_trans h hle

/-! ## Registration theorems -/

theorem register_cases (schema : UserSchema) (db : Db) (name email password : String)
    (squadId batch : Int) :
    (register schema db name email password squadId batch).1.users = db.users ∨
    ((squadUsers db.users squadId batch).length < 4 ∧
      ∃ u : User, u.squadId = squadId ∧ u.batch = batch ∧
        u.seatNumber = (squadId - 1) * 4 + ((squadUsers db.users squadId batch).length : Int) + 1 ∧
        (register schema db name email password squadId batch).1.users = db.users ++ [u]) := by
  unfold register
  split
  · exact Or.inl rfl
  · dsimp only
    split_ifs with h1 h2
    · exact Or.inl rfl
    · refine Or.inr ⟨by omega, _, rfl, rfl, rfl, rfl⟩
    · exact Or.inl rfl

theorem squadUsers_append (users : List User) (u : User) (s b : Int) :
    squadUsers (users ++ [u]) s b =
      if u.squadId = s ∧ u.batch = b then squadUsers users s b ++ [u] else squadUsers users s b := by
  unfold squadUsers
  rw [List.filter_append]
  by_cases h : u.squadId = s ∧ u.batch = b
  · simp [h, List.filter_cons]
  · rw [if_neg h]
    have : (decide (u.squadId = s) && decide (u.batch = b)) = false := by
      simpa using h
    simp [List.filter_cons, this]

theorem squadSeats_succ (s : Int) (n : Nat) :
    squadSeats s (n + 1) = squadSeats s n ++ [(s - 1) * 4 + (n : Int) + 1] := by
  simp [squadSeats, List.range_succ]

theorem regReachable_seats (schema : UserSchema) (db : Db) (h : RegReachable schema db)
    (s b : Int) :
    (squadUsers db.users s b).length ≤ 4 ∧
    (squadUsers db.users s b).map (fun u => u.seatNumber)
      = squadSeats s (squadUsers db.users s b).length := by
  induction h with
  | init db h0 => simp [h0, squadUsers, squadSeats]
  | step db name email password squadId batch _ ih =>
    rcases register_cases schema db name email password squadId batch with h1 | ⟨hlt, u, hs, hb, hseat, h1⟩
    · rw [h1]; exact ih
    · rw [h1, squadUsers_append]
      by_cases hk : u.squadId = s ∧ u.batch = b
      · rw [if_pos hk]
        obtain ⟨hs1, hb1⟩ := hk
        have e1 : squadId = s := by rw [← hs, hs1]
        have e2 : batch = b := by rw [← hb, hb1]
        subst e1 e2
        refine ⟨by simp; omega, ?_⟩
        rw [List.map_append, ih.2, List.length_append, List.length_singleton, squadSeats_succ]
        simp [hseat]
      · rw [if_neg hk]; exact ih

theorem mem_squadSeats (s : Int) (n : Nat) (x : Int) (hx : x ∈ squadSeats s n) :
    (s - 1) * 4 + 1 ≤ x ∧ x ≤ (s - 1) * 4 + n := by
  unfold squadSeats at hx
  rw [List.mem_map] at hx
  obtain ⟨i, hi, rfl⟩ := hx
  rw [List.mem_range] at hi
  omega

/-- C4: register on an email already registered answers AlreadyExists and
changes nothing.  On a new email, with `c` the number of users of the same
(squadId, batch): if `c ≥ 4` it answers SquadFull (HTTP 400) and changes
nothing; if `c < 4` and the new document passes the schema validators, exactly
one user is appended, with seatNumber `(squadId - 1) * 4 + c + 1`. -/
theorem C4_register_seat (schema : UserSchema) (db : Db) (name email password : String)
    (squadId batch : Int) :
    ((∃ u ∈ db.users, u.email = schema.normEmail email) →
      register schema db name email password squadId batch = (db, .alreadyExists)) ∧
    ((∀ u ∈ db.users, u.email ≠ schema.normEmail email) →
      (4 ≤ (squadUsers db.users squadId batch).length →
        register schema db name email password squadId batch = (db, .squadFull squadId batch) ∧
        (Response.squadFull squadId batch).status = 400) ∧
      ((squadUsers db.users squadId batch).length < 4 →
        ∀ u : User,
          u = { id := freshId db.users, name := name, email := schema.normEmail email,
                password := password, squadId := squadId, batch := batch,
                seatNumber := (squadId - 1) * 4 + ((squadUsers db.users squadId batch).length : Int) + 1 } →
          schema.valid u = true →
          (register schema db name email password squadId batch).1.users = db.users ++ [u] ∧
          (register schema db name email password squadId batch).1.bookings = db.bookings ∧
          (register schema db name email password squadId batch).2
            = .registered u.id name email squadId batch
                ((squadId - 1) * 4 + ((squadUsers db.users squadId batch).length : Int) + 1))) := by
  refine ⟨?_, ?_⟩
  · rintro ⟨u, hu, he⟩
    unfold register
    split
    · rfl
    · rename_i hnone
      rw [List.find?_eq_none] at hnone
      exact absurd (by simpa using he) (hnone u hu)
  · intro hnew
    have hnone : db.users.find? (fun u => decide (u.email = schema.normEmail email)) = none := by
      rw [List.find?_eq_none]
      intro u hu
      simpa using hnew u hu
    refine ⟨?_, ?_⟩
    · intro hc
      refine ⟨?_, rfl⟩
      unfold register
      rw [hnone]
      dsimp only
      rw [if_pos (by omega)]
    · intro hc u hu hv
      subst hu
      unfold register
      rw [hnone]
      dsimp only
      rw [if_neg (by omega), if_pos hv]
      exact ⟨rfl, rfl, rfl⟩

/-- C5: in every state reached from an empty user collection by register calls,
for every squad `s` in 1..10 and batch `b` the users of `(s, b)` number at most
4 and hold, in registration order, the seats `(s-1)*4+1, (s-1)*4+2, ...`
without a gap, each of them in 1..40. -/
theorem C5_register_contiguous (schema : UserSchema) (db : Db) (h : RegReachable schema db)
    (s b : Int) (hs1 : 1 ≤ s) (hs2 : s ≤ 10) :
    (squadUsers db.users s b).length ≤ 4 ∧
    (squadUsers db.users s b).map (fun u => u.seatNumber)
      = (List.range (squadUsers db.users s b).length).map (fun i : Nat => (s - 1) * 4 + (i : Int) + 1) ∧
    (∀ u ∈ squadUsers db.users s b, 1 ≤ u.seatNumber ∧ u.seatNumber ≤ 40) := by
  obtain ⟨hlen, hmap⟩ := regReachable_seats schema db h s b
  refine ⟨hlen, hmap, ?_⟩
  intro u hu
  have hx : u.seatNumber ∈ squadSeats s (squadUsers db.users s b).length := by
    rw [← hmap]
    exact List.mem_map_of_mem (fun u => u.seatNumber) hu
  have := mem_squadSeats s _ _ hx
  omega

/-! ## Store lemmas -/

theorem find?_sameKey_none (bookings : List Booking) (userId : Nat) (date : JsDate)
    (h : bookings.find? (sameKey userId date) = none) :
    bookings.any (sameKey userId date) = false ∧ bookings.filter (sameKey userId date) = [] := by
  rw [List.find?_eq_none] at h
  constructor
  · rw [List.any_eq_false]
    intro b hb
    exact h b hb
  · rw [List.filter_eq_nil_iff]
    intro b hb
    exact h b hb

theorem updateFirst_filter_not (p : Booking → Bool) (b1 : Booking) (hb1 : p b1 = true)
    (l : List Booking) :
    (updateFirst p (fun _ => b1) l).filter (fun b => !p b) = l.filter (fun b => !p b) := by
  induction l with
  | nil => rfl
  | cons a t ih =>
    unfold updateFirst
    by_cases ha : p a = true
    · simp [ha, hb1, List.filter_cons]
    · simp [ha, List.filter_cons, ih]

theorem updateFirst_filter (p : Booking → Bool) (b1 : Booking) (hb1 : p b1 = true)
    (l : List Booking) :
    (updateFirst p (fun _ => b1) l).filter p =
      match l.filter p with
      | [] => []
      | _ :: t => b1 :: t := by
  induction l with
  | nil => rfl
  | cons a t ih =>
    unfold updateFirst
    by_cases ha : p a = true
    · simp [ha, hb1, List.filter_cons]
    · simp [ha, List.filter_cons, ih]

theorem updateFirst_keys (p : Booking → Bool) (b1 : Booking) (l : List Booking)
    (hkey : ∀ a ∈ l, p a = true → (a.userId, a.date) = (b1.userId, b1.date)) :
    (updateFirst p (fun _ => b1) l).map (fun b => (b.userId, b.date))
      = l.map (fun b => (b.userId, b.date)) := by
  induction l with
  | nil => rfl
  | cons a t ih =>
    unfold updateFirst
    by_cases ha : p a = true
    · have := hkey a (List.mem_cons_self _ _) ha
      simp [ha, this]
    · have ih1 := ih (fun x hx => hkey x (List.mem_cons_of_mem _ hx))
      simp [ha, ih1]

theorem updateFirst_self (p : Booking → Bool) (l : List Booking) (b1 : Booking)
    (h : l.find? p = some b1) : updateFirst p (fun _ => b1) l = l := by
  induction l with
  | nil => rfl
  | cons a t ih =>
    unfold updateFirst
    by_cases ha : p a = true
    · rw [List.find?_cons_of_pos _ ha] at h
      have e := Option.some.inj h
      subst e
      rw [if_pos ha]
    · rw [List.find?_cons_of_neg _ ha] at h
      rw [if_neg ha, ih h]

theorem find?_updateFirst (p : Booking → Bool) (b1 : Booking) (hb1 : p b1 = true)
    (l : List Booking) (h : (l.find? p).isSome = true) :
    (updateFirst p (fun _ => b1) l).find? p = some b1 := by
  induction l with
  | nil => simp at h
  | cons a t ih =>
    unfold updateFirst
    by_cases ha : p a = true
    · simp [ha, hb1]
    · rw [List.find?_cons_of_neg _ ha] at h
      simp [ha, ih h]

theorem find?_append_new (p : Booking → Bool) (b1 : Booking) (hb1 : p b1 = true)
    (l : List Booking) (h : l.find? p = none) : (l ++ [b1]).find? p = some b1 := by
  rw [List.find?_append, h]
  simp [hb1]

theorem uniqueKey_filter_le (bookings : List Booking) (h : UniqueKey bookings)
    (userId : Nat) (date : JsDate) :
    (bookings.filter (sameKey userId date)).length ≤ 1 := by
  induction bookings with
  | nil => simp
  | cons a t ih =>
    unfold UniqueKey at h
    rw [List.map_cons, List.nodup_cons] at h
    have iht := ih h.2
    by_cases ha : sameKey userId date a = true
    · have ht : t.filter (sameKey userId date) = [] := by
        rw [List.filter_eq_nil_iff]
        intro b hb hkb
        apply h.1
        rw [List.mem_map]
        refine ⟨b, hb, ?_⟩
        simp only [sameKey, Bool.and_eq_true, decide_eq_true_eq] at ha hkb
        rw [ha.1, ha.2, hkb.1, hkb.2]
      simp [List.filter_cons, ha, ht]
    · simp [List.filter_cons, ha, iht]

theorem find?_eq_head_filter (p : Booking → Bool) (l : List Booking) :
    l.find? p = (l.filter p).head? := by
  induction l with
  | nil => rfl
  | cons a t ih =>
    by_cases ha : p a = true
    · rw [List.find?_cons_of_pos _ ha, List.filter_cons_of_pos ha, List.head?_cons]
    · rw [List.find?_cons_of_neg _ ha, List.filter_cons_of_neg ha, ih]

/-! ## Release theorems -/

theorem sameKey_iff (userId : Nat) (date : JsDate) (b : Booking) :
    sameKey userId date b = true ↔ b.userId = userId ∧ b.date = date := by
  simp [sameKey]

theorem release_notAssigned (db : Db) (userId : Nat) (user : User) (targetDate now : JsDate)
    (hu : findById db.users userId = some user)
    (hb : some user.batch ≠ getBatchForDate targetDate) :
    release db userId targetDate now = (db, .notAssignedToday) := by
  unfold release
  rw [hu]
  dsimp only
  rw [if_pos hb]

theorem release_deadline (db : Db) (userId : Nat) (user : User) (targetDate now : JsDate)
    (hu : findById db.users userId = some user)
    (hb : some user.batch = getBatchForDate targetDate)
    (hc : canReleaseSeat targetDate now = false) :
    release db userId targetDate now = (db, .deadlinePassed) := by
  unfold release
  rw [hu]
  dsimp only
  rw [if_neg (by simpa using hb), hc]
  rfl

theorem release_found (db : Db) (userId : Nat) (user : User) (targetDate now : JsDate)
    (hu : findById db.users userId = some user)
    (hb : some user.batch = getBatchForDate targetDate)
    (hc : canReleaseSeat targetDate now = true)
    (booking : Booking) (hf : db.bookings.find? (sameKey userId targetDate) = some booking) :
    release db userId targetDate now =
      ({ db with bookings := (updateFirst (sameKey userId targetDate)
          (fun _ => { booking with status := BookingStatus.released }) db.bookings) },
       .released { booking with status := BookingStatus.released }) := by
  unfold release
  rw [hu]
  dsimp only
  rw [if_neg (by simpa using hb), hc, hf]
  rfl

theorem release_fresh (db : Db) (userId : Nat) (user : User) (targetDate now : JsDate)
    (hu : findById db.users userId = some user)
    (hb : some user.batch = getBatchForDate targetDate)
    (hc : canReleaseSeat targetDate now = true)
    (hf : db.bookings.find? (sameKey userId targetDate) = none) :
    release db userId targetDate now =
      ({ db with bookings := (db.bookings ++
          [{ userId := userId, date := targetDate, status := .released, type := .fixed,
             seatNumber := none }]) },
       .released { userId := userId, date := targetDate, status := .released, type := .fixed,
                   seatNumber := none }) := by
  unfold release
  rw [hu]
  dsimp only
  rw [if_neg (by simpa using hb), hc, hf]
  have h := (find?_sameKey_none _ _ _ hf).1
  simp only [insertBooking, h]
  rfl

theorem release_isReleased_iff (db : Db) (userId : Nat) (user : User) (targetDate now : JsDate)
    (hu : findById db.users userId = some user) :
    (release db userId targetDate now).2.isReleased = true ↔
      (some user.batch = getBatchForDate targetDate ∧ canReleaseSeat targetDate now = true) := by
  by_cases hb : some user.batch = getBatchForDate targetDate
  · cases hc : canReleaseSeat targetDate now
    · rw [release_deadline db userId user targetDate now hu hb hc]
      simp [Response.isReleased]
    · cases hf : db.bookings.find? (sameKey userId targetDate) with
      | none =>
        rw [release_fresh db userId user targetDate now hu hb hc hf]
        simp [Response.isReleased, hb]
      | some booking =>
        rw [release_found db userId user targetDate now hu hb hc booking hf]
        simp [Response.isReleased, hb]
  · rw [release_notAssigned db userId user targetDate now hu hb]
    simp [Response.isReleased, hb]

theorem release_effect (db : Db) (userId : Nat) (user : User) (targetDate now : JsDate)
    (hu : findById db.users userId = some user)
    (hb : some user.batch = getBatchForDate targetDate)
    (hc : canReleaseSeat targetDate now = true) :
    (release db userId targetDate now).1.users = db.users ∧
    (release db userId targetDate now).1.otps = db.otps ∧
    (release db userId targetDate now).1.bookings.filter (fun b => !sameKey userId targetDate b)
      = db.bookings.filter (fun b => !sameKey userId targetDate b) ∧
    (UniqueKey db.bookings →
      ∃ b : Booking,
        (release db userId targetDate now).1.bookings.filter (sameKey userId targetDate) = [b] ∧
        (release db userId targetDate now).2 = .released b ∧
        b.userId = userId ∧ b.date = targetDate ∧ b.status = .released ∧
        (db.bookings.filter (sameKey userId targetDate) = [] →
          b.type = .fixed ∧ b.seatNumber = none) ∧
        UniqueKey (release db userId targetDate now).1.bookings) := by
  cases hf : db.bookings.find? (sameKey userId targetDate) with
  | none =>
    rw [release_fresh db userId user targetDate now hu hb hc hf]
    obtain ⟨hany, hnil⟩ := find?_sameKey_none _ _ _ hf
    refine ⟨rfl, rfl, ?_, ?_⟩
    · simp [List.filter_append, sameKey]
    · intro huniq
      refine ⟨_, ?_, rfl, rfl, rfl, rfl, fun _ => ⟨rfl, rfl⟩, ?_⟩
      · simp [List.filter_append, hnil, sameKey]
      · unfold UniqueKey at huniq ⊢
        simp only [List.map_append, List.map_cons, List.map_nil]
        rw [List.nodup_append]
        refine ⟨huniq, List.nodup_singleton _, ?_⟩
        intro k hk hk2
        rw [List.mem_singleton] at hk2
        rw [List.mem_map] at hk
        obtain ⟨b, hbm, hbk⟩ := hk
        rw [List.any_eq_false] at hany
        apply hany b hbm
        rw [sameKey_iff]
        rw [hk2] at hbk
        exact ⟨congrArg Prod.fst hbk, congrArg Prod.snd hbk⟩
  | some booking =>
    rw [release_found db userId user targetDate now hu hb hc booking hf]
    have hk : sameKey userId targetDate booking = true := List.find?_some hf
    have hk1 : sameKey userId targetDate { booking with status := BookingStatus.released } = true := hk
    have hk2 := (sameKey_iff _ _ _).1 hk
    refine ⟨rfl, rfl, updateFirst_filter_not _ _ hk1 _, ?_⟩
    intro huniq
    have hle := uniqueKey_filter_le db.bookings huniq userId targetDate
    have hhead := find?_eq_head_filter (sameKey userId targetDate) db.bookings
    rw [hf] at hhead
    refine ⟨_, ?_, rfl, hk2.1, hk2.2, rfl, ?_, ?_⟩
    · dsimp only
      rw [updateFirst_filter _ _ hk1]
      cases hl : db.bookings.filter (sameKey userId targetDate) with
      | nil => rw [hl] at hhead; simp at hhead
      | cons a t =>
        rw [hl] at hle
        have : t = [] := by
          cases t with
          | nil => rfl
          | cons _ _ => simp at hle
        rw [this]
    · intro hnil
      rw [hnil] at hhead
      simp at hhead
    · unfold UniqueKey at huniq ⊢
      dsimp only
      rw [updateFirst_keys]
      · exact huniq
      · intro a _ hka
        have := (sameKey_iff _ _ _).1 hka
        show (a.userId, a.date) = (booking.userId, booking.date)
        rw [this.1, this.2, hk2.1, hk2.2]

theorem release_again (db1 : Db) (userId : Nat) (user : User) (targetDate now : JsDate)
    (hu : findById db1.users userId = some user)
    (hb : some user.batch = getBatchForDate targetDate)
    (hc : canReleaseSeat targetDate now = true)
    (b1 : Booking) (hf : db1.bookings.find? (sameKey userId targetDate) = some b1)
    (hs : b1.status = .released) :
    release db1 userId targetDate now = (db1, .released b1) := by
  rw [release_found db1 userId user targetDate now hu hb hc b1 hf]
  have e : ({ b1 with status := BookingStatus.released } : Booking) = b1 := by
    cases b1
    simp only at hs
    subst hs
    rfl
  rw [e, updateFirst_self _ _ _ hf]

theorem release_twice (db : Db) (userId : Nat) (user : User) (targetDate now1 now2 : JsDate)
    (hu : findById db.users userId = some user)
    (hb : some user.batch = getBatchForDate targetDate)
    (hc1 : canReleaseSeat targetDate now1 = true)
    (hc2 : canReleaseSeat targetDate now2 = true) :
    release (release db userId targetDate now1).1 userId targetDate now2
      = release db userId targetDate now1 := by
  cases hf : db.bookings.find? (sameKey userId targetDate) with
  | none =>
    rw [release_fresh db userId user targetDate now1 hu hb hc1 hf]
    have hnew : sameKey userId targetDate
        { userId := userId, date := targetDate, status := .released, type := .fixed,
          seatNumber := none } = true := by simp [sameKey]
    have h2 := find?_append_new _ _ hnew _ hf
    exact release_again ⟨db.users, db.bookings ++ [_], db.otps⟩ userId user targetDate now2
      hu hb hc2 _ h2 rfl
  | some booking =>
    rw [release_found db userId user targetDate now1 hu hb hc1 booking hf]
    have hk : sameKey userId targetDate booking = true := List.find?_some hf
    have hk1 : sameKey userId targetDate { booking with status := BookingStatus.released } = true := hk
    have h2 := find?_updateFirst _ _ hk1 db.bookings (by rw [hf]; rfl)
    exact release_again ⟨db.users, updateFirst _ _ db.bookings, db.otps⟩ userId user targetDate
      now2 hu hb hc2 _ h2 rfl

/-! ## Book-floater lemmas -/

theorem occupied_contains_iff (bookings : List Booking) (date : JsDate) (i : Int) :
    (occupiedSeats bookings date).contains (some i) = true ↔ SeatBooked bookings date i := by
  unfold occupiedSeats SeatBooked
  rw [List.contains_iff_exists_mem_beq]
  constructor
  · rintro ⟨x, hx, hxi⟩
    rw [List.mem_map] at hx
    obtain ⟨b, hb, rfl⟩ := hx
    rw [List.mem_filter] at hb
    simp only [Bool.and_eq_true, decide_eq_true_eq] at hb
    refine ⟨b, hb.1, hb.2.1, hb.2.2, ?_⟩
    have : some i = b.seatNumber := by simpa using hxi
    exact this.symm
  · rintro ⟨b, hb, hd, hs, hn⟩
    refine ⟨b.seatNumber, ?_, by simp [hn]⟩
    rw [List.mem_map]
    refine ⟨b, ?_, rfl⟩
    rw [List.mem_filter]
    simp [hb, hd, hs]

theorem mem_dedicatedDesks (j : Int) : j ∈ dedicatedDesks ↔ 41 ≤ j ∧ j ≤ 50 := by
  unfold dedicatedDesks
  simp only [List.mem_cons, List.mem_singleton, List.not_mem_nil, or_false]
  omega

theorem dedicatedDesks_sorted : dedicatedDesks.Pairwise (fun a b => a < b) := by
  unfold dedicatedDesks
  decide

theorem firstFreeDedicated_some (occ : List (Option Int)) (m : Int)
    (h : firstFreeDedicated occ = some m) :
    41 ≤ m ∧ m ≤ 50 ∧ occ.contains (some m) = false ∧
      ∀ j : Int, 41 ≤ j → j < m → occ.contains (some j) = true := by
  unfold firstFreeDedicated at h
  have hm := (mem_dedicatedDesks m).1 (List.mem_of_find?_eq_some h)
  rw [List.find?_eq_some] at h
  obtain ⟨hp, as, bs, hsplit, has⟩ := h
  refine ⟨hm.1, hm.2, by simpa using hp, ?_⟩
  intro j h1 h2
  have hj : j ∈ dedicatedDesks := (mem_dedicatedDesks j).2 ⟨h1, by omega⟩
  have hs := dedicatedDesks_sorted
  rw [hsplit] at hj hs
  rw [List.pairwise_append] at hs
  rw [List.mem_append, List.mem_cons] at hj
  rcases hj with hj | hj | hj
  · simpa using has j hj
  · omega
  · have := (List.pairwise_cons.1 hs.2.1).1 j hj
    omega

theorem firstFreeDedicated_none (occ : List (Option Int))
    (h : firstFreeDedicated occ = none) (j : Int) (h1 : 41 ≤ j) (h2 : j ≤ 50) :
    occ.contains (some j) = true := by
  unfold firstFreeDedicated at h
  rw [List.find?_eq_none] at h
  simpa using h j ((mem_dedicatedDesks j).2 ⟨h1, h2⟩)

theorem firstFreeDedicated_exists (occ : List (Option Int)) (i : Int) (h1 : 41 ≤ i)
    (h2 : i ≤ 50) (hfree : occ.contains (some i) = false) :
    ∃ m, firstFreeDedicated occ = some m ∧ m ≤ i := by
  cases hf : firstFreeDedicated occ with
  | none =>
    rw [firstFreeDedicated_none occ hf i h1 h2] at hfree
    exact absurd hfree (by simp)
  | some m =>
    refine ⟨m, rfl, ?_⟩
    by_contra hlt
    have := (firstFreeDedicated_some occ m hf).2.2.2 i h1 (by omega)
    rw [this] at hfree
    exact absurd hfree (by simp)

theorem scanReleased_some (users : List User) (occ : List (Option Int)) (records : List Booking)
    (n : Int) (h : scanReleased users occ records = some (some n)) :
    occ.contains (some n) = false ∧
      ∃ r ∈ records, ∃ holder, findById users r.userId = some holder ∧ holder.seatNumber = n := by
  induction records with
  | nil => simp [scanReleased] at h
  | cons r rest ih =>
    unfold scanReleased at h
    cases hh : findById users r.userId with
    | none => rw [hh] at h; simp at h
    | some holder =>
      rw [hh] at h
      dsimp only at h
      split at h
      · rename_i hfree
        injection h with h
        injection h with h
        subst h
        exact ⟨by simpa using hfree, r, List.mem_cons_self _ _, holder, hh, rfl⟩
      · obtain ⟨h1, r1, hr1, rest1⟩ := ih h
        exact ⟨h1, r1, List.mem_cons_of_mem _ hr1, rest1⟩

theorem releasedCount_eq (bookings : List Booking) (date : JsDate) :
    releasedCount bookings date
      = bookings.countP (fun b => decide (b.date = date ∧ b.status = .released)) := by
  unfold releasedCount bookingsOn
  rw [List.filter_filter, List.countP_eq_length_filter]
  congr 2
  funext b
  rw [Bool.decide_and, Bool.and_comm]

theorem floaterCount_eq (bookings : List Booking) (date : JsDate) :
    floaterCount bookings date
      = bookings.countP
          (fun b => decide (b.date = date ∧ b.type = .floater ∧ b.status = .booked)) := by
  unfold floaterCount bookingsOn
  rw [List.filter_filter, List.countP_eq_length_filter]
  congr 2
  funext b
  simp only [Bool.decide_and]
  cases decide (b.date = date) <;> simp

theorem floaterCount_ge_ten (bookings : List Booking) (date : JsDate)
    (h : ∀ i : Int, 41 ≤ i → i ≤ 50 → FloaterOn bookings date i) :
    10 ≤ floaterCount bookings date := by
  have hsub : dedicatedDesks.map some ⊆
      ((bookingsOn bookings date).filter
        (fun b => decide (b.type = .floater) && decide (b.status = .booked))).map
          (fun b => b.seatNumber) := by
    intro x hx
    rw [List.mem_map] at hx
    obtain ⟨i, hi, rfl⟩ := hx
    obtain ⟨h1, h2⟩ := (mem_dedicatedDesks i).1 hi
    obtain ⟨b, hb, hd, hs, ht, hn⟩ := h i h1 h2
    rw [List.mem_map]
    refine ⟨b, ?_, hn⟩
    simp [bookingsOn, List.mem_filter, hb, hd, hs, ht]
  have hnd : (dedicatedDesks.map some).Nodup := by
    unfold dedicatedDesks
    decide
  have := (List.subperm_of_subset hnd hsub).length_le
  simpa [floaterCount, dedicatedDesks] using this

/-! ## Book-floater: the handler -/

/-- The records scanned by priority 2: `Booking.find({ date, status: 'released', type: 'fixed' })`. -/
theorem mem_releasedFixed (bookings : List Booking) (date : JsDate) (r : Booking) :
    r ∈ bookings.filter (fun b => decide (b.date = date) && decide (b.status = .released)
        && decide (b.type = .fixed)) ↔
      r ∈ bookings ∧ r.date = date ∧ r.status = .released ∧ r.type = .fixed := by
  rw [List.mem_filter]
  simp [and_assoc]

theorem insertBooking_new (bookings : List Booking) (b : Booking)
    (h : ∀ x ∈ bookings, ¬ (x.userId = b.userId ∧ x.date = b.date)) :
    insertBooking bookings b = some (bookings ++ [b]) := by
  unfold insertBooking
  have : bookings.any (sameKey b.userId b.date) = false := by
    rw [List.any_eq_false]
    intro x hx hk
    exact h x hx ((sameKey_iff _ _ _).1 hk)
  rw [this]
  rfl

theorem insertBooking_dup (bookings : List Booking) (b : Booking)
    (h : ∃ x ∈ bookings, x.userId = b.userId ∧ x.date = b.date) :
    insertBooking bookings b = none := by
  unfold insertBooking
  have : bookings.any (sameKey b.userId b.date) = true := by
    rw [List.any_eq_true]
    obtain ⟨x, hx, hk⟩ := h
    exact ⟨x, hx, (sameKey_iff _ _ _).2 hk⟩
  rw [this]
  rfl

theorem insertBooking_some (bookings : List Booking) (b : Booking) (bs : List Booking)
    (h : insertBooking bookings b = some bs) : bs = bookings ++ [b] := by
  unfold insertBooking at h
  split at h
  · exact absurd h (by simp)
  · exact (Option.some.inj h).symm

theorem bookFloater_tooEarly (db : Db) (userId : Nat) (targetDate now : JsDate)
    (hw : canBookFloater targetDate now = false) :
    bookFloater db userId targetDate now = (db, .tooEarly) := by
  unfold bookFloater
  rw [hw]
  rfl

theorem bookFloater_noUser (db : Db) (userId : Nat) (targetDate now : JsDate)
    (hw : canBookFloater targetDate now = true) (hu : findById db.users userId = none) :
    bookFloater db userId targetDate now = (db, .serverError) := by
  unfold bookFloater
  rw [hw, hu]
  rfl

theorem bookFloater_fixed (db : Db) (userId : Nat) (user : User) (targetDate now : JsDate)
    (hw : canBookFloater targetDate now = true) (hu : findById db.users userId = some user)
    (hb : some user.batch = getBatchForDate targetDate) :
    bookFloater db userId targetDate now = (db, .alreadyHaveFixedSeat) := by
  unfold bookFloater
  rw [hw, hu]
  dsimp only
  rw [if_neg (by simp), if_pos hb]

theorem bookFloater_gate (db : Db) (userId : Nat) (user : User) (targetDate now : JsDate)
    (hw : canBookFloater targetDate now = true) (hu : findById db.users userId = some user)
    (hb : some user.batch ≠ getBatchForDate targetDate)
    (hg : (10 : Int) + releasedCount db.bookings targetDate
            - floaterCount db.bookings targetDate ≤ 0) :
    bookFloater db userId targetDate now = (db, .noFloatersAvailable) := by
  unfold bookFloater
  rw [hw, hu]
  dsimp only
  rw [if_neg (by simp), if_neg hb, if_pos hg]

theorem bookFloater_dedicated (db : Db) (userId : Nat) (user : User) (targetDate now : JsDate)
    (hw : canBookFloater targetDate now = true) (hu : findById db.users userId = some user)
    (hb : some user.batch ≠ getBatchForDate targetDate)
    (hg : ¬ (10 : Int) + releasedCount db.bookings targetDate
            - floaterCount db.bookings targetDate ≤ 0)
    (m : Int) (hm : firstFreeDedicated (occupiedSeats db.bookings targetDate) = some m) :
    bookFloater db userId targetDate now =
      match insertBooking db.bookings
          { userId := userId, date := targetDate, status := .booked, type := .floater,
            seatNumber := some m } with
      | none => (db, .alreadyActedToday)
      | some bs => ({ db with bookings := bs }, .floaterBooked m) := by
  have hm0 : m ≠ 0 := by
    have := (firstFreeDedicated_some _ m hm).1
    omega
  unfold bookFloater
  rw [hw, hu]
  dsimp only
  rw [if_neg (by simp), if_neg hb, if_neg hg, hm]
  dsimp only
  rw [if_neg hm0]

theorem bookFloater_fallback (db : Db) (userId : Nat) (user : User) (targetDate now : JsDate)
    (hw : canBookFloater targetDate now = true) (hu : findById db.users userId = some user)
    (hb : some user.batch ≠ getBatchForDate targetDate)
    (hg : ¬ (10 : Int) + releasedCount db.bookings targetDate
            - floaterCount db.bookings targetDate ≤ 0)
    (hm : firstFreeDedicated (occupiedSeats db.bookings targetDate) = none) :
    bookFloater db userId targetDate now =
      match scanReleased db.users (occupiedSeats db.bookings targetDate)
          (db.bookings.filter (fun b => decide (b.date = targetDate)
            && decide (b.status = .released) && decide (b.type = .fixed))) with
      | none => (db, .serverError)
      | some none => (db, .noSeatsAvailable)
      | some (some s) =>
        if s = 0 then (db, .noSeatsAvailable)
        else
          match insertBooking db.bookings
              { userId := userId, date := targetDate, status := .booked, type := .floater,
                seatNumber := some s } with
          | none => (db, .alreadyActedToday)
          | some bs => ({ db with bookings := bs }, .floaterBooked s) := by
  unfold bookFloater
  rw [hw, hu]
  dsimp only
  rw [if_neg (by simp), if_neg hb, if_neg hg, hm]

theorem bookFloater_success (db : Db) (userId : Nat) (targetDate now : JsDate) (n : Int)
    (h : (bookFloater db userId targetDate now).2 = .floaterBooked n) :
    (bookFloater db userId targetDate now).1 =
      { db with bookings := (db.bookings ++
        [{ userId := userId, date := targetDate, status := .booked, type := .floater,
           seatNumber := some n }]) } ∧
    ((41 ≤ n ∧ n ≤ 50 ∧ ¬ SeatBooked db.bookings targetDate n ∧
        ∀ j : Int, 41 ≤ j → j < n → SeatBooked db.bookings targetDate j) ∨
     ((∀ j : Int, 41 ≤ j → j ≤ 50 → SeatBooked db.bookings targetDate j) ∧
        ¬ SeatBooked db.bookings targetDate n ∧
        ∃ r ∈ db.bookings, r.date = targetDate ∧ r.status = .released ∧ r.type = .fixed ∧
          ∃ holder, findById db.users r.userId = some holder ∧ holder.seatNumber = n)) := by
  cases hw : canBookFloater targetDate now with
  | false => rw [bookFloater_tooEarly db userId targetDate now hw] at h; cases h
  | true =>
    cases hu : findById db.users userId with
    | none => rw [bookFloater_noUser db userId targetDate now hw hu] at h; cases h
    | some user =>
      by_cases hb : some user.batch = getBatchForDate targetDate
      · rw [bookFloater_fixed db userId user targetDate now hw hu hb] at h; cases h
      by_cases hg : (10 : Int) + releasedCount db.bookings targetDate
            - floaterCount db.bookings targetDate ≤ 0
      · rw [bookFloater_gate db userId user targetDate now hw hu hb hg] at h; cases h
      cases hm : firstFreeDedicated (occupiedSeats db.bookings targetDate) with
      | some m =>
        rw [bookFloater_dedicated db userId user targetDate now hw hu hb hg m hm] at h ⊢
        obtain ⟨h1, h2, h3, h4⟩ := firstFreeDedicated_some _ m hm
        cases hi : insertBooking db.bookings
            { userId := userId, date := targetDate, status := .booked, type := .floater,
              seatNumber := some m } with
        | none => rw [hi] at h; cases h
        | some bs =>
          rw [hi] at h
          dsimp only at h ⊢
          have e : m = n := by injection h
          subst e
          rw [insertBooking_some _ _ _ hi]
          refine ⟨rfl, Or.inl ⟨h1, h2, ?_, ?_⟩⟩
          · rw [← occupied_contains_iff, h3]; simp
          · intro j hj1 hj2
            rw [← occupied_contains_iff]
            exact h4 j hj1 hj2
      | none =>
        rw [bookFloater_fallback db userId user targetDate now hw hu hb hg hm] at h ⊢
        cases hs : scanReleased db.users (occupiedSeats db.bookings targetDate)
            (db.bookings.filter (fun b => decide (b.date = targetDate)
              && decide (b.status = .released) && decide (b.type = .fixed))) with
        | none => rw [hs] at h; cases h
        | some o =>
          cases o with
          | none => rw [hs] at h; cases h
          | some s =>
            rw [hs] at h
            dsimp only at h ⊢
            by_cases hs0 : s = 0
            · rw [if_pos hs0] at h; cases h
            rw [if_neg hs0] at h ⊢
            cases hi : insertBooking db.bookings
                { userId := userId, date := targetDate, status := .booked, type := .floater,
                  seatNumber := some s } with
            | none => rw [hi] at h; cases h
            | some bs =>
              rw [hi] at h
              dsimp only at h ⊢
              have e : s = n := by injection h
              subst e
              rw [insertBooking_some _ _ _ hi]
              obtain ⟨hfree, r, hr, holder, hh, hseat⟩ := scanReleased_some _ _ _ _ hs
              rw [mem_releasedFixed] at hr
              refine ⟨rfl, Or.inr ⟨?_, ?_, r, hr.1, hr.2.1, hr.2.2.1, hr.2.2.2, holder, hh, hseat⟩⟩
              · intro j hj1 hj2
                rw [← occupied_contains_iff]
                exact firstFreeDedicated_none _ hm j hj1 hj2
              · rw [← occupied_contains_iff, hfree]; simp

/-! ## Claims on release and book-floater -/

/-- C6: for an existing caller, release succeeds exactly when the caller's batch
is the batch of the date and the release deadline has not passed.  A different
batch gives NotAssignedToday (checked first), a passed deadline DeadlinePassed,
and both leave the database unchanged.  On success the users and the Bookings
of every other user or date are unchanged, and (the Bookings being unique per
user and date) the collection holds exactly one Booking of the caller for the
date, the one returned, with status `released`; it has type `fixed` and no
seatNumber when it was newly created. -/
theorem C6_release_contract (db : Db) (userId : Nat) (user : User) (targetDate now : JsDate)
    (hu : findById db.users userId = some user) :
    ((release db userId targetDate now).2.isReleased = true ↔
      (some user.batch = getBatchForDate targetDate ∧ canReleaseSeat targetDate now = true)) ∧
    (some user.batch ≠ getBatchForDate targetDate →
      release db userId targetDate now = (db, .notAssignedToday)) ∧
    (some user.batch = getBatchForDate targetDate → canReleaseSeat targetDate now = false →
      release db userId targetDate now = (db, .deadlinePassed)) ∧
    (some user.batch = getBatchForDate targetDate → canReleaseSeat targetDate now = true →
      (release db userId targetDate now).1.users = db.users ∧
      (release db userId targetDate now).1.otps = db.otps ∧
      (release db userId targetDate now).1.bookings.filter (fun b => !sameKey userId targetDate b)
        = db.bookings.filter (fun b => !sameKey userId targetDate b) ∧
      (UniqueKey db.bookings →
        ∃ b : Booking,
          (release db userId targetDate now).1.bookings.filter (sameKey userId targetDate) = [b] ∧
          (release db userId targetDate now).2 = .released b ∧
          b.userId = userId ∧ b.date = targetDate ∧ b.status = .released ∧
          (db.bookings.filter (sameKey userId targetDate) = [] →
            b.type = .fixed ∧ b.seatNumber = none) ∧
          UniqueKey (release db userId targetDate now).1.bookings)) :=
  ⟨release_isReleased_iff db userId user targetDate now hu,
   release_notAssigned db userId user targetDate now hu,
   release_deadline db userId user targetDate now hu,
   release_effect db userId user targetDate now hu⟩

/-- C7 (as the code has it): when the same user calls release twice for the same
date, both calls meeting the batch and deadline preconditions, the second call
succeeds like the first: it answers with the same Booking, never with
AlreadyActedToday, and leaves the database as the first call left it. -/
theorem C7_release_twice_idempotent (db : Db) (userId : Nat) (user : User)
    (targetDate now1 now2 : JsDate)
    (hu : findById db.users userId = some user)
    (hb : some user.batch = getBatchForDate targetDate)
    (hc1 : canReleaseSeat targetDate now1 = true)
    (hc2 : canReleaseSeat targetDate now2 = true) :
    (release db userId targetDate now1).2.isReleased = true ∧
    (release (release db userId targetDate now1).1 userId targetDate now2).2
      = (release db userId targetDate now1).2 ∧
    (release (release db userId targetDate now1).1 userId targetDate now2).2
      ≠ .alreadyActedToday ∧
    (release (release db userId targetDate now1).1 userId targetDate now2).1
      = (release db userId targetDate now1).1 := by
  have h1 := (release_isReleased_iff db userId user targetDate now1 hu).2 ⟨hb, hc1⟩
  have h2 := release_twice db userId user targetDate now1 now2 hu hb hc1 hc2
  refine ⟨h1, by rw [h2], ?_, by rw [h2]⟩
  rw [h2]
  intro hbad
  rw [hbad] at h1
  exact absurd h1 (by simp [Response.isReleased])

/-- C8: book-floater checks its preconditions in order and fails with the first
one violated, leaving the database unchanged: TooEarly when the window has not
opened; AlreadyHaveFixedSeat when the caller's batch is the batch of the date;
NoFloatersAvailable when 10 + (Bookings of the date with status `released`)
- (Bookings of the date with type `floater` and status `booked`) is at most 0. -/
theorem C8_bookFloater_preconditions (db : Db) (userId : Nat) (targetDate now : JsDate) :
    (canBookFloater targetDate now = false →
      bookFloater db userId targetDate now = (db, .tooEarly)) ∧
    (∀ user : User, canBookFloater targetDate now = true →
      findById db.users userId = some user →
      (some user.batch = getBatchForDate targetDate →
        bookFloater db userId targetDate now = (db, .alreadyHaveFixedSeat)) ∧
      (some user.batch ≠ getBatchForDate targetDate →
        (10 : Int)
          + db.bookings.countP (fun b => decide (b.date = targetDate ∧ b.status = .released))
          - db.bookings.countP
              (fun b => decide (b.date = targetDate ∧ b.type = .floater ∧ b.status = .booked))
          ≤ 0 →
        bookFloater db userId targetDate now = (db, .noFloatersAvailable))) := by
  refine ⟨bookFloater_tooEarly db userId targetDate now, ?_⟩
  intro user hw hu
  refine ⟨bookFloater_fixed db userId user targetDate now hw hu, ?_⟩
  intro hb hg
  rw [← releasedCount_eq, ← floaterCount_eq] at hg
  exact bookFloater_gate db userId user targetDate now hw hu hb hg

/-- C9: when book-floater passes its precondition checks and some desk of
41..50 is not the seatNumber of a `booked` Booking of the date, the seat chosen
is the smallest such desk `m`: a caller without a Booking for the date gets
exactly the Booking (caller, date, floater, booked, `m`) appended and `m`
returned, a caller with one gets AlreadyActedToday.  Whenever the call succeeds
with seat `n`, exactly that one Booking with seatNumber `n` was appended, and a
seat outside 41..50 is returned only when all ten desks are occupied, `n` then
being the seat of the holder of a released fixed Booking of the date. -/
theorem C9_bookFloater_seat (db : Db) (userId : Nat) (user : User) (targetDate now : JsDate)
    (hw : canBookFloater targetDate now = true)
    (hu : findById db.users userId = some user)
    (hb : some user.batch ≠ getBatchForDate targetDate)
    (hg : (0 : Int) < 10
      + db.bookings.countP (fun b => decide (b.date = targetDate ∧ b.status = .released))
      - db.bookings.countP
          (fun b => decide (b.date = targetDate ∧ b.type = .floater ∧ b.status = .booked))) :
    (∀ i : Int, 41 ≤ i → i ≤ 50 → ¬ SeatBooked db.bookings targetDate i →
      ∃ m : Int, 41 ≤ m ∧ m ≤ i ∧ ¬ SeatBooked db.bookings targetDate m ∧
        (∀ j : Int, 41 ≤ j → j < m → SeatBooked db.bookings targetDate j) ∧
        ((∀ b ∈ db.bookings, ¬ (b.userId = userId ∧ b.date = targetDate)) →
          bookFloater db userId targetDate now =
            ({ db with bookings := (db.bookings ++
                [{ userId := userId, date := targetDate, status := .booked, type := .floater,
                   seatNumber := some m }]) },
             .floaterBooked m)) ∧
        ((∃ b ∈ db.bookings, b.userId = userId ∧ b.date = targetDate) →
          bookFloater db userId targetDate now = (db, .alreadyActedToday))) ∧
    (∀ n : Int, (bookFloater db userId targetDate now).2 = .floaterBooked n →
      (bookFloater db userId targetDate now).1 =
        { db with bookings := (db.bookings ++
          [{ userId := userId, date := targetDate, status := .booked, type := .floater,
             seatNumber := some n }]) } ∧
      (¬ (41 ≤ n ∧ n ≤ 50) →
        (∀ j : Int, 41 ≤ j → j ≤ 50 → SeatBooked db.bookings targetDate j) ∧
        ∃ r ∈ db.bookings, r.date = targetDate ∧ r.status = .released ∧ r.type = .fixed ∧
          ∃ holder, findById db.users r.userId = some holder ∧ holder.seatNumber = n)) := by
  rw [← releasedCount_eq, ← floaterCount_eq] at hg
  have hg1 : ¬ (10 : Int) + releasedCount db.bookings targetDate
      - floaterCount db.bookings targetDate ≤ 0 := by omega
  constructor
  · intro i hi1 hi2 hfree
    have hfree1 : (occupiedSeats db.bookings targetDate).contains (some i) = false := by
      rw [← Bool.not_eq_true, occupied_contains_iff]
      exact hfree
    obtain ⟨m, hm, hmi⟩ := firstFreeDedicated_exists _ i hi1 hi2 hfree1
    obtain ⟨h1, _, h3, h4⟩ := firstFreeDedicated_some _ m hm
    have hsel := bookFloater_dedicated db userId user targetDate now hw hu hb hg1 m hm
    refine ⟨m, h1, hmi, ?_, ?_, ?_, ?_⟩
    · rw [← occupied_contains_iff, h3]; simp
    · intro j hj1 hj2
      rw [← occupied_contains_iff]
      exact h4 j hj1 hj2
    · intro hnone
      rw [hsel, insertBooking_new _ _ hnone]
    · intro hdup
      rw [hsel, insertBooking_dup _ _ hdup]
  · intro n hn
    obtain ⟨hdb, hcase⟩ := bookFloater_success db userId targetDate now n hn
    refine ⟨hdb, ?_⟩
    intro hout
    rcases hcase with ⟨h1, h2, _⟩ | ⟨hall, _, hrel⟩
    · exact absurd ⟨h1, h2⟩ hout
    · exact ⟨hall, hrel⟩

theorem firstFreeDedicated_full (bookings : List Booking) (date : JsDate)
    (h : ∀ i : Int, 41 ≤ i → i ≤ 50 → FloaterOn bookings date i) :
    firstFreeDedicated (occupiedSeats bookings date) = none := by
  cases hm : firstFreeDedicated (occupiedSeats bookings date) with
  | none => rfl
  | some m =>
    obtain ⟨h1, h2, h3, _⟩ := firstFreeDedicated_some _ m hm
    obtain ⟨b, hb, hd, hs, _, hn⟩ := h m h1 h2
    have : (occupiedSeats bookings date).contains (some m) = true :=
      (occupied_contains_iff bookings date m).2 ⟨b, hb, hd, hs, hn⟩
    rw [this] at h3
    exact absurd h3 (by simp)

/-- C10 (as the code has it): for a date whose ten desks 41..50 are all occupied
by booked floater Bookings and which has no released fixed Booking, the next
book-floater attempt (window open, caller not in the assigned batch) changes
nothing and fails with NoFloatersAvailable whenever the availability count
10 + released - floaters is at most 0, in particular whenever no Booking of
the date is released at all; NoSeatsAvailable is answered only when that count
is positive. -/
theorem C10_bookFloater_full (db : Db) (userId : Nat) (user : User) (targetDate now : JsDate)
    (hw : canBookFloater targetDate now = true)
    (hu : findById db.users userId = some user)
    (hb : some user.batch ≠ getBatchForDate targetDate)
    (hfull : ∀ i : Int, 41 ≤ i → i ≤ 50 → FloaterOn db.bookings targetDate i)
    (hnone : ∀ b ∈ db.bookings, b.date = targetDate → ¬ (b.status = .released ∧ b.type = .fixed)) :
    (bookFloater db userId targetDate now).1 = db ∧
    ((10 : Int) + releasedCount db.bookings targetDate - floaterCount db.bookings targetDate ≤ 0 →
      (bookFloater db userId targetDate now).2 = .noFloatersAvailable) ∧
    ((0 : Int) < 10 + releasedCount db.bookings targetDate - floaterCount db.bookings targetDate →
      (bookFloater db userId targetDate now).2 = .noSeatsAvailable) ∧
    ((∀ b ∈ db.bookings, b.date = targetDate → b.status ≠ .released) →
      (bookFloater db userId targetDate now).2 = .noFloatersAvailable) := by
  have hgate : (10 : Int) + releasedCount db.bookings targetDate
      - floaterCount db.bookings targetDate ≤ 0 →
      bookFloater db userId targetDate now = (db, .noFloatersAvailable) :=
    bookFloater_gate db userId user targetDate now hw hu hb
  have hpass : (0 : Int) < 10 + releasedCount db.bookings targetDate
      - floaterCount db.bookings targetDate →
      bookFloater db userId targetDate now = (db, .noSeatsAvailable) := by
    intro hg
    have hrec : db.bookings.filter (fun b => decide (b.date = targetDate)
        && decide (b.status = .released) && decide (b.type = .fixed)) = [] := by
      rw [List.filter_eq_nil_iff]
      intro b hbm
      have := hnone b hbm
      simp only [Bool.and_eq_true, decide_eq_true_eq, not_and]
      intro hd ht
      exact this hd.1 ⟨hd.2, ht⟩
    rw [bookFloater_fallback db userId user targetDate now hw hu hb (by omega)
      (firstFreeDedicated_full _ _ hfull), hrec]
    rfl
  refine ⟨?_, fun hg => by rw [hgate hg], fun hg => by rw [hpass hg], ?_⟩
  · by_cases hg : (10 : Int) + releasedCount db.bookings targetDate
        - floaterCount db.bookings targetDate ≤ 0
    · rw [hgate hg]
    · rw [hpass (by omega)]
  · intro hnorel
    have hR : releasedCount db.bookings targetDate = 0 := by
      unfold releasedCount bookingsOn
      rw [List.length_eq_zero, List.filter_filter, List.filter_eq_nil_iff]
      intro b hbm
      simp only [Bool.and_eq_true, decide_eq_true_eq, not_and]
      intro hs hd
      exact hnorel b hbm hd hs
    have hF := floaterCount_ge_ten db.bookings targetDate hfull
    rw [hgate (by omega)]

/-! ## Instances on the sample data -/

/-- C1 at concrete inputs: in the zone UTC+5:30, Tuesday 24 Feb 2026 at 10:30 is
in week 0 and has Batch 1; in UTC, the first Monday of the range of `Date`
(day -99999994) is in an odd week and has Batch 2, its week start being itself,
whereas the Monday before the first `Date` (day -100000000, a Tuesday) is not
a valid `Date`. -/
theorem C1_getBatchForDate_rotation_witness :
    (ValidDate 19800000 REFERENCE_DATE ∧
      ValidDate 19800000 (atTime (referenceDay + 1) 10 30) ∧
      ValidDate 19800000 (startOfWeek (atTime (referenceDay + 1) 10 30) 1)) ∧
    getBatchForDate (atTime (referenceDay + 1) 10 30) = some 1 ∧
    (ValidDate 0 REFERENCE_DATE ∧ ValidDate 0 (midnight (-99999994)) ∧
      startOfWeek (midnight (-99999994)) 1 = midnight (-99999994)) ∧
    weekOffset (midnight (-99999994)) = -14288643 ∧
    getBatchForDate (midnight (-99999994)) = some 2 ∧
    ValidDate 0 (midnight (-100000000)) ∧
    getDay (midnight (-100000000)) = 2 ∧
    ¬ ValidDate 0 (startOfWeek (midnight (-100000000)) 1) := by
  have h1 := (C1_getBatchForDate_rotation.1 19800000 (atTime (referenceDay + 1) 10 30)
    (by decide) (by decide) (by decide)).2
  have h2 := (C1_getBatchForDate_rotation.1 0 (midnight (-99999994))
    (by decide) (by decide) (by decide)).2
  refine ⟨by decide, ?_, by decide, by decide, ?_, by decide, by decide, by decide⟩
  · rw [h1]; decide
  · rw [h2]; decide

/-- C4 at concrete inputs: a registered email (in another letter case) is
refused, a fifth member of Squad 3, Batch 1 is refused, and a second member of
Squad 3, Batch 1 gets seat 10. -/
theorem C4_register_seat_witness :
    register specSchema officeDb "again" "A@X.io" "pw" 3 1 = (officeDb, .alreadyExists) ∧
    register specSchema squad3Db "member" "e@x.io" "pw" 3 1 = (squad3Db, .squadFull 3 1) ∧
    (register specSchema officeDb "second" "b@x.io" "pw" 3 1).2
      = .registered 3 "second" "b@x.io" 3 1 10 :=
  ⟨(C4_register_seat specSchema officeDb "again" "A@X.io" "pw" 3 1).1 (by decide),
   (((C4_register_seat specSchema squad3Db "member" "e@x.io" "pw" 3 1).2 (by decide)).1
      (by decide)).1,
   ((((C4_register_seat specSchema officeDb "second" "b@x.io" "pw" 3 1).2 (by decide)).2
      (by decide)) _ rfl (by decide)).2.2⟩

theorem squad3Db_reachable : RegReachable specSchema squad3Db :=
  RegReachable.step _ _ _ _ _ _ (RegReachable.step _ _ _ _ _ _ (RegReachable.step _ _ _ _ _ _
    (RegReachable.step _ _ _ _ _ _ (RegReachable.init emptyDb rfl))))

/-- C5 at a concrete input: four registrations into Squad 3, Batch 1 get seats
9, 10, 11, 12 in that order, the fifth fails with SquadFull, and the reached
state satisfies the invariant. -/
theorem C5_register_contiguous_witness :
    squad3Db.users.map (fun u => u.seatNumber) = [9, 10, 11, 12] ∧
    register specSchema squad3Db "member" "e@x.io" "pw" 3 1 = (squad3Db, .squadFull 3 1) ∧
    (squadUsers squad3Db.users 3 1).length ≤ 4 ∧
    (squadUsers squad3Db.users 3 1).map (fun u => u.seatNumber)
      = (List.range (squadUsers squad3Db.users 3 1).length).map
          (fun i : Nat => (3 - 1) * 4 + (i : Int) + 1) ∧
    (∀ u ∈ squadUsers squad3Db.users 3 1, 1 ≤ u.seatNumber ∧ u.seatNumber ≤ 40) :=
  ⟨by decide, by decide,
   C5_register_contiguous specSchema squad3Db squad3Db_reachable 3 1 (by decide) (by decide)⟩

/-- C6 at a concrete input: the Batch-1 member releases Monday 23 Feb 2026 on
the Sunday before at 16:00; the Batch-2 member is refused; at 20:00 the
deadline has passed. -/
theorem C6_release_contract_witness :
    findById officeDb.users 1 = some memberA ∧
    release officeDb 1 sampleMonday sundayAfternoon =
      ({ officeDb with bookings :=
          [{ userId := 1, date := sampleMonday, status := .released, type := .fixed,
             seatNumber := none }] },
       .released { userId := 1, date := sampleMonday, status := .released, type := .fixed,
                   seatNumber := none }) ∧
    release officeDb 2 sampleMonday sundayAfternoon = (officeDb, .notAssignedToday) ∧
    release officeDb 1 sampleMonday (atTime (referenceDay - 1) 20 0)
      = (officeDb, .deadlinePassed) ∧
    ((release officeDb 1 sampleMonday sundayAfternoon).2.isReleased = true ↔
      (some memberA.batch = getBatchForDate sampleMonday ∧
        canReleaseSeat sampleMonday sundayAfternoon = true)) :=
  ⟨by decide, by decide,
   (C6_release_contract officeDb 2 visitorZ sampleMonday sundayAfternoon (by decide)).2.1
     (by decide),
   (C6_release_contract officeDb 1 memberA sampleMonday (atTime (referenceDay - 1) 20 0)
     (by decide)).2.2.1 (by decide) (by decide),
   (C6_release_contract officeDb 1 memberA sampleMonday sundayAfternoon (by decide)).1⟩

/-- C7 fails as stated: the second of two release calls that both meet the batch
and deadline preconditions does not always answer AlreadyActedToday. -/
theorem C7_second_release_not_rejected :
    ¬ (∀ (db : Db) (userId : Nat) (user : User) (targetDate now1 now2 : JsDate),
        findById db.users userId = some user →
        some user.batch = getBatchForDate targetDate →
        canReleaseSeat targetDate now1 = true →
        canReleaseSeat targetDate now2 = true →
        (release (release db userId targetDate now1).1 userId targetDate now2).2
          = .alreadyActedToday) := by
  intro h
  have h1 := h officeDb 1 memberA sampleMonday sundayAfternoon sundayAfternoon
    (by decide) (by decide) (by decide) (by decide)
  revert h1
  decide

/-- C7 (amended) at a concrete input: the Batch-1 member releases Monday
23 Feb 2026 twice on the Sunday before, at 16:00 and at 19:59. -/
theorem C7_release_twice_idempotent_witness :
    (release officeDb 1 sampleMonday sundayAfternoon).2.isReleased = true ∧
    (release (release officeDb 1 sampleMonday sundayAfternoon).1 1 sampleMonday
        (atTime (referenceDay - 1) 19 59)).2
      = (release officeDb 1 sampleMonday sundayAfternoon).2 ∧
    (release (release officeDb 1 sampleMonday sundayAfternoon).1 1 sampleMonday
        (atTime (referenceDay - 1) 19 59)).2 ≠ .alreadyActedToday ∧
    (release (release officeDb 1 sampleMonday sundayAfternoon).1 1 sampleMonday
        (atTime (referenceDay - 1) 19 59)).1
      = (release officeDb 1 sampleMonday sundayAfternoon).1 :=
  C7_release_twice_idempotent officeDb 1 memberA sampleMonday sundayAfternoon
    (atTime (referenceDay - 1) 19 59) (by decide) (by decide) (by decide) (by decide)

/-- C8 at concrete inputs: at 14:59 the call is too early even for a member of
the assigned batch; at 16:00 the member of the assigned batch is told of the
fixed seat even with no desk left; the other member finds no floater left. -/
theorem C8_bookFloater_preconditions_witness :
    bookFloater fullDb 1 sampleMonday (atTime (referenceDay - 1) 14 59) = (fullDb, .tooEarly) ∧
    bookFloater fullDb 1 sampleMonday sundayAfternoon = (fullDb, .alreadyHaveFixedSeat) ∧
    bookFloater fullDb 2 sampleMonday sundayAfternoon = (fullDb, .noFloatersAvailable) :=
  ⟨(C8_bookFloater_preconditions fullDb 1 sampleMonday (atTime (referenceDay - 1) 14 59)).1
     (by decide),
   ((C8_bookFloater_preconditions fullDb 1 sampleMonday sundayAfternoon).2 memberA
     (by decide) (by decide)).1 (by decide),
   ((C8_bookFloater_preconditions fullDb 2 sampleMonday sundayAfternoon).2 visitorZ
     (by decide) (by decide)).2 (by decide) (by decide)⟩

/-- C9 at a concrete input: with desks 41 and 42 taken, the Batch-2 member books
Monday 23 Feb 2026 and gets desk 43, stored in the one Booking appended. -/
theorem C9_bookFloater_seat_witness :
    bookFloater busyDb 2 sampleMonday sundayAfternoon =
      ({ busyDb with bookings := busyDb.bookings ++ [floaterAt 2 43] }, .floaterBooked 43) ∧
    (∀ n : Int, (bookFloater busyDb 2 sampleMonday sundayAfternoon).2 = .floaterBooked n →
      (bookFloater busyDb 2 sampleMonday sundayAfternoon).1 =
        { busyDb with bookings := (busyDb.bookings ++
          [{ userId := 2, date := sampleMonday, status := .booked, type := .floater,
             seatNumber := some n }]) } ∧
      (¬ (41 ≤ n ∧ n ≤ 50) →
        (∀ j : Int, 41 ≤ j → j ≤ 50 → SeatBooked busyDb.bookings sampleMonday j) ∧
        ∃ r ∈ busyDb.bookings, r.date = sampleMonday ∧ r.status = .released ∧ r.type = .fixed ∧
          ∃ holder, findById busyDb.users r.userId = some holder ∧ holder.seatNumber = n)) :=
  ⟨by decide,
   (C9_bookFloater_seat busyDb 2 visitorZ sampleMonday sundayAfternoon
     (by decide) (by decide) (by decide) (by decide)).2⟩

theorem fullDb_full (i : Int) (h1 : 41 ≤ i) (h2 : i ≤ 50) :
    FloaterOn fullDb.bookings sampleMonday i := by
  have h : ∀ j ∈ dedicatedDesks, FloaterOn fullDb.bookings sampleMonday j := by decide
  exact h i ((mem_dedicatedDesks i).2 ⟨h1, h2⟩)

/-- C10 fails as stated: with the ten desks 41..50 occupied by booked floater
Bookings, no released fixed seat, the window open and the caller outside the
assigned batch, the answer is not always NoSeatsAvailable. -/
theorem C10_full_not_noSeatsAvailable :
    ¬ (∀ (db : Db) (userId : Nat) (user : User) (targetDate now : JsDate),
        canBookFloater targetDate now = true →
        findById db.users userId = some user →
        some user.batch ≠ getBatchForDate targetDate →
        (∀ i : Int, 41 ≤ i → i ≤ 50 → FloaterOn db.bookings targetDate i) →
        (∀ b ∈ db.bookings, b.date = targetDate → ¬ (b.status = .released ∧ b.type = .fixed)) →
        (bookFloater db userId targetDate now).2 = .noSeatsAvailable) := by
  intro h
  have h1 := h fullDb 2 visitorZ sampleMonday sundayAfternoon (by decide) (by decide)
    (by decide) fullDb_full (by decide)
  revert h1
  decide

/-- C10 (amended) at a concrete input: all ten desks taken on Monday 23 Feb
2026, nothing released; the Batch-2 member is answered NoFloatersAvailable. -/
theorem C10_bookFloater_full_witness :
    bookFloater fullDb 2 sampleMonday sundayAfternoon = (fullDb, .noFloatersAvailable) ∧
    (bookFloater fullDb 2 sampleMonday sundayAfternoon).1 = fullDb ∧
    (bookFloater fullDb 2 sampleMonday sundayAfternoon).2 = .noFloatersAvailable :=
  ⟨by decide,
   (C10_bookFloater_full fullDb 2 visitorZ sampleMonday sundayAfternoon (by decide) (by decide)
     (by decide) fullDb_full (by decide)).1,
   (C10_bookFloater_full fullDb 2 visitorZ sampleMonday sundayAfternoon (by decide) (by decide)
     (by decide) fullDb_full (by decide)).2.2.2 (by decide)⟩

/-! ## Claim-back theorems -/

theorem floaterAtSeat_iff (date : JsDate) (seat : Int) (b : Booking) :
    floaterAtSeat date seat b = true ↔
      b.date = date ∧ b.status = .booked ∧ b.type = .floater ∧ b.seatNumber = some seat := by
  simp only [floaterAtSeat, Bool.and_eq_true, decide_eq_true_eq]
  tauto

theorem ownRelease_iff (userId : Nat) (date : JsDate) (b : Booking) :
    ownRelease userId date b = true ↔
      b.userId = userId ∧ b.date = date ∧ b.type = .fixed ∧ b.status = .released := by
  simp only [ownRelease, Bool.and_eq_true, decide_eq_true_eq]
  tauto

theorem find?_floaterAtSeat_isSome (bookings : List Booking) (date : JsDate) (seat : Int) :
    (bookings.find? (floaterAtSeat date seat)).isSome = true ↔ FloaterOn bookings date seat := by
  rw [List.find?_isSome]
  unfold FloaterOn
  constructor
  · rintro ⟨b, hb, hp⟩
    exact ⟨b, hb, (floaterAtSeat_iff _ _ _).1 hp⟩
  · rintro ⟨b, hb, hp⟩
    exact ⟨b, hb, (floaterAtSeat_iff _ _ _).2 hp⟩

theorem find?_ownRelease_isSome (bookings : List Booking) (userId : Nat) (date : JsDate) :
    (bookings.find? (ownRelease userId date)).isSome = true ↔
      HasOwnRelease bookings userId date := by
  rw [List.find?_isSome]
  unfold HasOwnRelease
  constructor
  · rintro ⟨b, hb, hp⟩
    exact ⟨b, hb, (ownRelease_iff _ _ _).1 hp⟩
  · rintro ⟨b, hb, hp⟩
    exact ⟨b, hb, (ownRelease_iff _ _ _).2 hp⟩

theorem claimBack_notYourSeat (db : Db) (userId : Nat) (user : User) (targetDate : JsDate)
    (hu : findById db.users userId = some user)
    (hb : some user.batch ≠ getBatchForDate targetDate) :
    claimBack db userId targetDate = (db, .notYourSeat) := by
  unfold claimBack
  rw [hu]
  dsimp only
  rw [if_pos hb]

theorem claimBack_seatTaken (db : Db) (userId : Nat) (user : User) (targetDate : JsDate)
    (hu : findById db.users userId = some user)
    (hb : some user.batch = getBatchForDate targetDate)
    (ht : FloaterOn db.bookings targetDate user.seatNumber) :
    claimBack db userId targetDate = (db, .seatTaken) := by
  have h := (find?_floaterAtSeat_isSome _ _ _).2 ht
  obtain ⟨f, hf⟩ := Option.isSome_iff_exists.1 h
  unfold claimBack
  rw [hu]
  dsimp only
  rw [if_neg (by simpa using hb), hf]

theorem claimBack_noRelease (db : Db) (userId : Nat) (user : User) (targetDate : JsDate)
    (hu : findById db.users userId = some user)
    (hb : some user.batch = getBatchForDate targetDate)
    (ht : ¬ FloaterOn db.bookings targetDate user.seatNumber)
    (hr : ¬ HasOwnRelease db.bookings userId targetDate) :
    claimBack db userId targetDate = (db, .noReleaseFound) := by
  have h1 : db.bookings.find? (floaterAtSeat targetDate user.seatNumber) = none := by
    rw [← Option.not_isSome_iff_eq_none, find?_floaterAtSeat_isSome]
    exact ht
  have h2 : db.bookings.find? (ownRelease userId targetDate) = none := by
    rw [← Option.not_isSome_iff_eq_none, find?_ownRelease_isSome]
    exact hr
  unfold claimBack
  rw [hu]
  dsimp only
  rw [if_neg (by simpa using hb), h1, h2]

theorem claimBack_reclaimed (db : Db) (userId : Nat) (user : User) (targetDate : JsDate)
    (hu : findById db.users userId = some user)
    (hb : some user.batch = getBatchForDate targetDate)
    (ht : ¬ FloaterOn db.bookings targetDate user.seatNumber)
    (hr : HasOwnRelease db.bookings userId targetDate) :
    claimBack db userId targetDate =
      ({ db with bookings := db.bookings.eraseP (ownRelease userId targetDate) },
       .reclaimed) := by
  have h1 : db.bookings.find? (floaterAtSeat targetDate user.seatNumber) = none := by
    rw [← Option.not_isSome_iff_eq_none, find?_floaterAtSeat_isSome]
    exact ht
  obtain ⟨r, h2⟩ := Option.isSome_iff_exists.1 ((find?_ownRelease_isSome _ _ _).2 hr)
  unfold claimBack
  rw [hu]
  dsimp only
  rw [if_neg (by simpa using hb), h1, h2]

theorem eraseP_ownRelease_unique (bookings : List Booking) (userId : Nat) (date : JsDate)
    (huniq : UniqueKey bookings) (hr : HasOwnRelease bookings userId date) :
    bookings.eraseP (ownRelease userId date)
      = bookings.filter (fun b => !sameKey userId date b) := by
  induction bookings with
  | nil => rfl
  | cons a t ih =>
    unfold UniqueKey at huniq
    rw [List.map_cons, List.nodup_cons] at huniq
    by_cases ha : ownRelease userId date a = true
    · have hk := (ownRelease_iff _ _ _).1 ha
      have hka : sameKey userId date a = true := (sameKey_iff _ _ _).2 ⟨hk.1, hk.2.1⟩
      rw [List.eraseP_cons_of_pos ha, List.filter_cons_of_neg (by simp [hka])]
      symm
      rw [List.filter_eq_self]
      intro b hbm
      have : sameKey userId date b ≠ true := by
        intro hkb
        have hkb1 := (sameKey_iff _ _ _).1 hkb
        apply huniq.1
        rw [List.mem_map]
        exact ⟨b, hbm, by rw [hkb1.1, hkb1.2, hk.1, hk.2.1]⟩
      simpa using this
    · obtain ⟨r, hrm, hrp⟩ := hr
      have hrt : r ∈ t := by
        rcases List.mem_cons.1 hrm with e | e
        · subst e
          exact absurd ((ownRelease_iff _ _ _).2 hrp) ha
        · exact e
      have hka : sameKey userId date a ≠ true := by
        intro hk
        have hk1 := (sameKey_iff _ _ _).1 hk
        apply huniq.1
        rw [List.mem_map]
        exact ⟨r, hrt, by rw [hk1.1, hk1.2, hrp.1, hrp.2.1]⟩
      rw [List.eraseP_cons_of_neg ha, List.filter_cons_of_pos (by simpa using hka),
        ih huniq.2 ⟨r, hrt, hrp⟩]

theorem claimBack_isReclaimed_iff (db : Db) (userId : Nat) (user : User) (targetDate : JsDate)
    (hu : findById db.users userId = some user) :
    (claimBack db userId targetDate).2.isReclaimed = true ↔
      (some user.batch = getBatchForDate targetDate ∧
        ¬ FloaterOn db.bookings targetDate user.seatNumber ∧
        HasOwnRelease db.bookings userId targetDate) := by
  by_cases hb : some user.batch = getBatchForDate targetDate
  · by_cases ht : FloaterOn db.bookings targetDate user.seatNumber
    · rw [claimBack_seatTaken db userId user targetDate hu hb ht]
      simp [Response.isReclaimed, ht]
    · by_cases hr : HasOwnRelease db.bookings userId targetDate
      · rw [claimBack_reclaimed db userId user targetDate hu hb ht hr]
        simp [Response.isReclaimed, hb, ht, hr]
      · rw [claimBack_noRelease db userId user targetDate hu hb ht hr]
        simp [Response.isReclaimed, hr]
  · rw [claimBack_notYourSeat db userId user targetDate hu hb]
    simp [Response.isReclaimed, hb]

/-- C13: when the caller is in the assigned batch and some Booking of the date
has type `floater`, status `booked` and the caller's seatNumber, claim-back
fails with SeatTaken (HTTP 400) and the database, with the caller's release
record and the floater's Booking, is unchanged. -/
theorem C13_claimBack_seatTaken (db : Db) (userId : Nat) (user : User) (targetDate : JsDate)
    (hu : findById db.users userId = some user)
    (hb : some user.batch = getBatchForDate targetDate)
    (ht : ∃ f ∈ db.bookings, f.date = targetDate ∧ f.type = .floater ∧ f.status = .booked ∧
      f.seatNumber = some user.seatNumber) :
    claimBack db userId targetDate = (db, .seatTaken) ∧
    (claimBack db userId targetDate).2.status = 400 ∧
    (claimBack db userId targetDate).1.bookings = db.bookings := by
  have h : claimBack db userId targetDate = (db, .seatTaken) := by
    apply claimBack_seatTaken db userId user targetDate hu hb
    obtain ⟨f, hf, h1, h2, h3, h4⟩ := ht
    exact ⟨f, hf, h1, h3, h2, h4⟩
  rw [h]
  exact ⟨rfl, rfl, rfl⟩

/-- C14: for an existing caller, claim-back succeeds exactly when the caller's
batch is the batch of the date, no booked floater Booking of the date has the
caller's seatNumber, and the caller holds a fixed released Booking for the
date.  Otherwise it answers NotYourSeat, SeatTaken or NoReleaseFound (HTTP
404), in that order of precedence, and the database is unchanged.  On success
the first such record is removed and every other Booking stays, in order; the
Bookings being unique per user and date, what remains is the collection with
the caller's Booking for the date taken out. -/
theorem C14_claimBack_contract (db : Db) (userId : Nat) (user : User) (targetDate : JsDate)
    (hu : findById db.users userId = some user) :
    ((claimBack db userId targetDate).2.isReclaimed = true ↔
      (some user.batch = getBatchForDate targetDate ∧
        ¬ FloaterOn db.bookings targetDate user.seatNumber ∧
        HasOwnRelease db.bookings userId targetDate)) ∧
    (some user.batch ≠ getBatchForDate targetDate →
      claimBack db userId targetDate = (db, .notYourSeat)) ∧
    (some user.batch = getBatchForDate targetDate →
      FloaterOn db.bookings targetDate user.seatNumber →
      claimBack db userId targetDate = (db, .seatTaken)) ∧
    (some user.batch = getBatchForDate targetDate →
      ¬ FloaterOn db.bookings targetDate user.seatNumber →
      ¬ HasOwnRelease db.bookings userId targetDate →
      claimBack db userId targetDate = (db, .noReleaseFound) ∧
      Response.noReleaseFound.status = 404) ∧
    (some user.batch = getBatchForDate targetDate →
      ¬ FloaterOn db.bookings targetDate user.seatNumber →
      HasOwnRelease db.bookings userId targetDate →
      (claimBack db userId targetDate).2 = .reclaimed ∧
      (claimBack db userId targetDate).1.users = db.users ∧
      (claimBack db userId targetDate).1.otps = db.otps ∧
      (∃ (r : Booking) (l₁ l₂ : List Booking),
        r.userId = userId ∧ r.date = targetDate ∧ r.type = .fixed ∧ r.status = .released ∧
        db.bookings = l₁ ++ r :: l₂ ∧
        (claimBack db userId targetDate).1.bookings = l₁ ++ l₂) ∧
      (UniqueKey db.bookings →
        (claimBack db userId targetDate).1.bookings
          = db.bookings.filter (fun b => !sameKey userId targetDate b))) := by
  refine ⟨claimBack_isReclaimed_iff db userId user targetDate hu,
    claimBack_notYourSeat db userId user targetDate hu,
    claimBack_seatTaken db userId user targetDate hu, ?_, ?_⟩
  · intro hb ht hr
    exact ⟨claimBack_noRelease db userId user targetDate hu hb ht hr, rfl⟩
  · intro hb ht hr
    rw [claimBack_reclaimed db userId user targetDate hu hb ht hr]
    refine ⟨rfl, rfl, rfl, ?_, ?_⟩
    · obtain ⟨b, hbm, hbp⟩ := hr
      obtain ⟨r, l₁, l₂, _, hp, hsplit, herase⟩ :=
        List.exists_of_eraseP hbm ((ownRelease_iff userId targetDate b).2 hbp)
      have hp1 := (ownRelease_iff _ _ _).1 hp
      exact ⟨r, l₁, l₂, hp1.1, hp1.2.1, hp1.2.2.1, hp1.2.2.2, hsplit, herase⟩
    · intro huniq
      exact eraseP_ownRelease_unique _ _ _ huniq hr

/-! ## Status, schedule, rotation period and login -/

/-- C15: Get-Status answers, with the database unchanged, a snapshot whose
`availableFloaters` is 10 + R - F, with R the number of Bookings of the date
with status `released` and F the number of Bookings of the date with type
`floater` and status `booked`; two released fixed seats and three active
floater Bookings give 9. -/
theorem C15_getStatus_availableFloaters :
    (∀ (db : Db) (targetDate now : JsDate),
      ∃ (bookings : List PopulatedBooking) (assignedUsers : List AssignedUser),
        getStatus db targetDate now =
          (db, .statusSnapshot (getBatchForDate targetDate) bookings
            ((10 : Int)
              + db.bookings.countP (fun b => decide (b.date = targetDate ∧ b.status = .released))
              - db.bookings.countP
                  (fun b => decide (b.date = targetDate ∧ b.type = .floater ∧ b.status = .booked)))
            assignedUsers now)) ∧
    (∃ (bookings : List PopulatedBooking) (assignedUsers : List AssignedUser),
      getStatus statusDb sampleMonday sundayAfternoon =
        (statusDb, .statusSnapshot (some 1) bookings 9 assignedUsers sundayAfternoon)) := by
  constructor
  · intro db targetDate now
    refine ⟨(bookingsOn db.bookings targetDate).map (populate db.users),
      (db.users.filter (fun u => decide (some u.batch = getBatchForDate targetDate))).map
        (fun u => { id := u.id, name := u.name, seatNumber := u.seatNumber }), ?_⟩
    rw [← releasedCount_eq, ← floaterCount_eq]
    rfl
  · refine ⟨(bookingsOn statusDb.bookings sampleMonday).map (populate statusDb.users),
      (statusDb.users.filter (fun u => decide (some u.batch = getBatchForDate sampleMonday))).map
        (fun u => { id := u.id, name := u.name, seatNumber := u.seatNumber }), ?_⟩
    decide

theorem dayIndex_addDays (d : JsDate) (n : Int) : dayIndex (addDays d n) = dayIndex d + n := by
  unfold dayIndex addDays msPerDay
  exact Int.add_mul_ediv_right d n (by decide)

theorem dayIndex_startOfDay (d : JsDate) : dayIndex (startOfDay d) = dayIndex d := by
  unfold startOfDay dayIndex msPerDay
  exact Int.mul_ediv_cancel _ (by decide)

theorem scheduleEntry_date (user : User) (bookings : List Booking) (now : JsDate) (i : Nat) :
    (scheduleEntry user bookings now i).date = midnight (dayIndex now + i) := by
  show startOfDay (addDays now i) = midnight (dayIndex now + i)
  unfold startOfDay midnight
  rw [dayIndex_addDays]

theorem find?_ownBookings (bookings : List Booking) (userId : Nat) (date : JsDate) :
    (bookings.filter (fun b => decide (b.userId = userId))).find? (fun b => decide (b.date = date))
      = bookings.find? (sameKey userId date) := by
  rw [List.find?_filter]
  congr 1
  funext b
  simp [sameKey]

theorem mySchedule_eq (db : Db) (userId : Nat) (user : User) (now : JsDate)
    (hu : findById db.users userId = some user) :
    mySchedule db userId now =
      (db, .schedule ((List.range 14).map
        (scheduleEntry user (db.bookings.filter (fun b => decide (b.userId = userId))) now))) := by
  unfold mySchedule
  rw [hu]

theorem scheduleEntry_notAssigned (user : User) (bookings : List Booking) (now : JsDate)
    (i : Nat)
    (h : some user.batch ≠ getBatchForDate (scheduleEntry user bookings now i).date) :
    (scheduleEntry user bookings now i).isAssigned = false ∧
    (scheduleEntry user bookings now i).canRelease = false := by
  have h1 : (scheduleEntry user bookings now i).isAssigned = false := by
    show decide (some user.batch = getBatchForDate (startOfDay (addDays now i))) = false
    exact decide_eq_false h
  refine ⟨h1, ?_⟩
  show (decide (some user.batch = getBatchForDate (startOfDay (addDays now i))) &&
    canReleaseSeat (startOfDay (addDays now i)) now && _) = false
  have h2 : decide (some user.batch = getBatchForDate (startOfDay (addDays now i))) = false :=
    decide_eq_false h
  rw [h2]
  rfl

/-- C17: for an existing caller My-Schedule answers, with the database
unchanged, exactly 14 entries; entry `i` (0..13) is dated local midnight of
today + `i`, its `isAssigned` says whether the caller's batch is the batch of
that date, its `status` is the status of the caller's Booking for that date
when there is one, else `assigned` when assigned, else `none`, and its
`canRelease` is true exactly when the caller is assigned, the release deadline
of that date has not passed at `now`, and the caller's Booking for that date,
if any, is not `released`. -/
theorem C17_mySchedule_entries (db : Db) (userId : Nat) (user : User) (now : JsDate)
    (hu : findById db.users userId = some user) :
    ∃ entries : List ScheduleEntry,
      mySchedule db userId now = (db, .schedule entries) ∧
      entries.length = 14 ∧
      ∀ i : Nat, i < 14 → ∃ e : ScheduleEntry,
        entries[i]? = some e ∧
        e.date = midnight (dayIndex now + i) ∧
        e.isAssigned = decide (some user.batch = getBatchForDate e.date) ∧
        e.status =
          (match db.bookings.find? (sameKey userId e.date) with
           | some b => DayStatus.ofBooking b.status
           | none => if some user.batch = getBatchForDate e.date then .assigned else .none) ∧
        (e.canRelease = true ↔
          (some user.batch = getBatchForDate e.date ∧
            canReleaseSeat e.date now = true ∧
            ∀ b, db.bookings.find? (sameKey userId e.date) = some b → b.status ≠ .released)) := by
  refine ⟨_, mySchedule_eq db userId user now hu, by simp, ?_⟩
  intro i hi
  refine ⟨scheduleEntry user (db.bookings.filter (fun b => decide (b.userId = userId))) now i,
    ?_, scheduleEntry_date _ _ _ _, rfl, ?_, ?_⟩
  · rw [List.getElem?_map, List.getElem?_range hi]
    rfl
  · show (match (db.bookings.filter (fun b => decide (b.userId = userId))).find?
        (fun b => decide (b.date = startOfDay (addDays now i))) with
      | some b => DayStatus.ofBooking b.status
      | none => if decide (some user.batch = getBatchForDate (startOfDay (addDays now i))) = true
          then DayStatus.assigned else DayStatus.none) = _
    rw [find?_ownBookings]
    show _ = (match db.bookings.find? (sameKey userId (startOfDay (addDays now i))) with
      | some b => DayStatus.ofBooking b.status
      | none => if some user.batch = getBatchForDate (startOfDay (addDays now i))
          then DayStatus.assigned else DayStatus.none)
    cases db.bookings.find? (sameKey userId (startOfDay (addDays now i))) with
    | none => simp
    | some b => rfl
  · show ((decide (some user.batch = getBatchForDate (startOfDay (addDays now i))) &&
        canReleaseSeat (startOfDay (addDays now i)) now &&
        (match (db.bookings.filter (fun b => decide (b.userId = userId))).find?
            (fun b => decide (b.date = startOfDay (addDays now i))) with
         | some b => decide (b.status ≠ .released)
         | none => true)) = true) ↔
      (some user.batch = getBatchForDate (startOfDay (addDays now i)) ∧
        canReleaseSeat (startOfDay (addDays now i)) now = true ∧
        ∀ b, db.bookings.find? (sameKey userId (startOfDay (addDays now i))) = some b →
          b.status ≠ .released)
    rw [find?_ownBookings]
    cases db.bookings.find? (sameKey userId (startOfDay (addDays now i))) with
    | none => simp
    | some b => simp [and_assoc]

/-- C18: for an existing caller, every entry of My-Schedule whose date is not a
day of the caller's batch, and so every Saturday and Sunday, has `isAssigned`
and `canRelease` false, whatever the Bookings and the current time. -/
theorem C18_mySchedule_unassigned (db : Db) (userId : Nat) (user : User) (now : JsDate)
    (hu : findById db.users userId = some user) :
    ∃ entries : List ScheduleEntry,
      mySchedule db userId now = (db, .schedule entries) ∧
      entries.length = 14 ∧
      ∀ e ∈ entries,
        (some user.batch ≠ getBatchForDate e.date →
          e.isAssigned = false ∧ e.canRelease = false) ∧
        (getDay e.date = 0 ∨ getDay e.date = 6 →
          e.isAssigned = false ∧ e.canRelease = false) := by
  refine ⟨_, mySchedule_eq db userId user now hu, by simp, ?_⟩
  intro e he
  rw [List.mem_map] at he
  obtain ⟨i, _, rfl⟩ := he
  refine ⟨scheduleEntry_notAssigned _ _ _ _, ?_⟩
  intro hwe
  apply scheduleEntry_notAssigned
  have : getBatchForDate (scheduleEntry user
      (db.bookings.filter (fun b => decide (b.userId = userId))) now i).date = none := by
    unfold getBatchForDate
    simp only []
    rw [if_pos hwe]
  rw [this]
  simp

theorem weekdayFromMonday_addDays7 (d : JsDate) :
    weekdayFromMonday (addDays d 7) = weekdayFromMonday d := by
  unfold weekdayFromMonday
  rw [dayIndex_addDays]
  omega

theorem weekOffset_addDays7 (d : JsDate) : weekOffset (addDays d 7) = weekOffset d + 1 := by
  unfold weekOffset
  rw [dayIndex_addDays]
  omega

theorem getBatchForDate_values (d : JsDate) :
    getBatchForDate d = none ∨ getBatchForDate d = some 1 ∨ getBatchForDate d = some 2 := by
  rw [getBatchForDate_eq]
  split_ifs <;> simp

theorem getBatchForDate_addDays7 (d : JsDate) :
    getBatchForDate (addDays d 7) = (getBatchForDate d).map (fun b => 3 - b) := by
  rw [getBatchForDate_eq, getBatchForDate_eq, weekdayFromMonday_addDays7, weekOffset_addDays7]
  generalize weekOffset d = k
  split_ifs <;> first | rfl | omega

theorem startOfWeek_le (d : JsDate) : startOfWeek d 1 ≤ d := by
  unfold startOfWeek getDay dayIndex msPerDay
  simp only []
  show @LE.le Int _ _ _
  split <;> omega

theorem startOfWeek_addDays7 (d : JsDate) :
    startOfWeek (addDays d 7) 1 = addDays (startOfWeek d 1) 7 := by
  rw [startOfWeek_monday, startOfWeek_monday, weekOffset_addDays7]
  unfold addDays
  show @Eq Int _ _
  ring

theorem validDate_between (offset : Int) (a b c : JsDate) (ha : ValidDate offset a)
    (hc : ValidDate offset c) (hab : a ≤ b) (hbc : b ≤ c) : ValidDate offset b := by
  have h1 : @LE.le Int _ a b := hab
  have h2 : @LE.le Int _ b c := hbc
  have h3 : @LE.le Int _ (-maxTimeValue) (a - offset) := ha.1
  have h4 : @LE.le Int _ (c - offset) maxTimeValue := hc.2
  constructor
  · show @LE.le Int _ _ _
    omega
  · show @LE.le Int _ _ _
    omega

theorem le_addDays (d : JsDate) (n : Int) (hn : 0 ≤ n) : d ≤ addDays d n := by
  unfold addDays msPerDay
  show @LE.le Int _ _ _
  nlinarith

/-- C19: the rotation has period two weeks.  For every date `d` such that `d`,
the Monday that starts its week and the reference date are valid `Date`
values (in a zone at `offset` ms from UTC), `getBatchForDate d` is absent, 1
or 2; when the date seven days later is a valid `Date`, so is the Monday of
its week, and the batch there is absent when it was absent, 2 when it was 1
and 1 when it was 2; fourteen days later, and fourteen days earlier, the
dates being valid, it is the same. -/
theorem C19_rotation_period (offset : Int) (d : JsDate)
    (href : ValidDate offset REFERENCE_DATE) (hd : ValidDate offset d)
    (hweek : ValidDate offset (startOfWeek d 1)) :
    ValidDate offset (startOfWeek REFERENCE_DATE 1) ∧
    (getBatchForDate d = none ∨ getBatchForDate d = some 1 ∨ getBatchForDate d = some 2) ∧
    (ValidDate offset (addDays d 7) →
      ValidDate offset (startOfWeek (addDays d 7) 1) ∧
      (getBatchForDate d = none → getBatchForDate (addDays d 7) = none) ∧
      (getBatchForDate d = some 1 → getBatchForDate (addDays d 7) = some 2) ∧
      (getBatchForDate d = some 2 → getBatchForDate (addDays d 7) = some 1)) ∧
    (ValidDate offset (addDays d 14) →
      ValidDate offset (startOfWeek (addDays d 14) 1) ∧
      getBatchForDate (addDays d 14) = getBatchForDate d) ∧
    (ValidDate offset (startOfWeek (subDays d 14) 1) →
      ValidDate offset (subDays d 14) ∧
      getBatchForDate (subDays d 14) = getBatchForDate d) := by
  have h7 := getBatchForDate_addDays7 d
  have key : ∀ x : JsDate, getBatchForDate (addDays (addDays x 7) 7) = getBatchForDate x := by
    intro x
    rw [getBatchForDate_addDays7, getBatchForDate_addDays7]
    rcases getBatchForDate_values x with h | h | h <;> rw [h] <;> rfl
  have e1 : addDays d 14 = addDays (addDays d 7) 7 := by
    unfold addDays
    show @Eq Int _ _
    omega
  have e2 : d = addDays (addDays (subDays d 14) 7) 7 := by
    unfold addDays subDays
    show @Eq Int _ _
    omega
  have hsub : subDays d 14 ≤ d := by
    unfold subDays msPerDay
    show @LE.le Int _ _ _
    omega
  have hrefw : startOfWeek REFERENCE_DATE 1 = REFERENCE_DATE := by decide
  refine ⟨by rw [hrefw]; exact href, getBatchForDate_values d, ?_, ?_, ?_⟩
  · intro hv
    refine ⟨validDate_between offset _ _ _ hweek hv ?_ (startOfWeek_le _), ?_, ?_, ?_⟩
    · rw [startOfWeek_addDays7]
      exact le_addDays _ 7 (by decide)
    · intro h; rw [h7, h]; rfl
    · intro h; rw [h7, h]; rfl
    · intro h; rw [h7, h]; rfl
  · intro hv
    refine ⟨validDate_between offset _ _ _ hweek hv ?_ (startOfWeek_le _), ?_⟩
    · rw [e1, startOfWeek_addDays7, startOfWeek_addDays7]
      exact le_trans (le_addDays _ 7 (by decide)) (le_addDays _ 7 (by decide))
    · rw [e1, key]
  · intro hv
    refine ⟨validDate_between offset _ _ _ hv hd (startOfWeek_le _) hsub, ?_⟩
    conv_rhs => rw [e2]
    rw [key]

/-- C20: login answers the same response, HTTP 400 with the one message
"Invalid credentials", when no user has the given email and when the user
exists but the password comparison fails; the database is unchanged. -/
theorem C20_login_failures_indistinguishable (schema : UserSchema)
    (comparePassword : User → String → Bool) (db₁ db₂ : Db)
    (email₁ password₁ email₂ password₂ : String) (user : User)
    (habsent : ∀ u ∈ db₁.users, u.email ≠ schema.normEmail email₁)
    (hfound : db₂.users.find? (fun u => decide (u.email = schema.normEmail email₂)) = some user)
    (hwrong : comparePassword user password₂ = false) :
    login schema comparePassword db₁ email₁ password₁ = (db₁, .badRequest "Invalid credentials") ∧
    login schema comparePassword db₂ email₂ password₂ = (db₂, .badRequest "Invalid credentials") ∧
    (login schema comparePassword db₁ email₁ password₁).2
      = (login schema comparePassword db₂ email₂ password₂).2 ∧
    (login schema comparePassword db₁ email₁ password₁).2.status = 400 ∧
    (login schema comparePassword db₂ email₂ password₂).2.status = 400 := by
  have h1 : login schema comparePassword db₁ email₁ password₁
      = (db₁, .badRequest "Invalid credentials") := by
    have hnone : db₁.users.find? (fun u => decide (u.email = schema.normEmail email₁)) = none := by
      rw [List.find?_eq_none]
      intro u hu
      simpa using habsent u hu
    unfold login
    rw [hnone]
  have h2 : login schema comparePassword db₂ email₂ password₂
      = (db₂, .badRequest "Invalid credentials") := by
    unfold login
    rw [hfound]
    dsimp only
    rw [hwrong]
    rfl
  rw [h1, h2]
  exact ⟨rfl, rfl, rfl, rfl, rfl⟩

/-! ## Instances on the sample data: claim-back, schedule, login -/

/-- C19 at a concrete input: in the zone UTC+5:30, Monday 23 Feb 2026 at 10:30
has Batch 1, the Monday after it Batch 2, and the Mondays two weeks later and
two weeks earlier Batch 1 again. -/
theorem C19_rotation_period_witness :
    (ValidDate 19800000 REFERENCE_DATE ∧ ValidDate 19800000 (atTime referenceDay 10 30) ∧
      ValidDate 19800000 (startOfWeek (atTime referenceDay 10 30) 1)) ∧
    getBatchForDate (atTime referenceDay 10 30) = some 1 ∧
    getBatchForDate (addDays (atTime referenceDay 10 30) 7) = some 2 ∧
    getBatchForDate (addDays (atTime referenceDay 10 30) 14)
      = getBatchForDate (atTime referenceDay 10 30) ∧
    getBatchForDate (subDays (atTime referenceDay 10 30) 14)
      = getBatchForDate (atTime referenceDay 10 30) :=
  have h := C19_rotation_period 19800000 (atTime referenceDay 10 30)
    (by decide) (by decide) (by decide)
  ⟨by decide, by decide, (h.2.2.1 (by decide)).2.2.1 (by decide),
    (h.2.2.2.1 (by decide)).2, (h.2.2.2.2 (by decide)).2⟩

/-- C13 at a concrete input: the Batch-1 member released Monday 23 Feb 2026 and
the Batch-2 member booked the released seat 9; the claim-back is refused. -/
theorem C13_claimBack_seatTaken_witness :
    claimBack takenDb 1 sampleMonday = (takenDb, .seatTaken) ∧
    (claimBack takenDb 1 sampleMonday).2.status = 400 ∧
    (claimBack takenDb 1 sampleMonday).1.bookings = [releaseOf 1, floaterAt 2 9] :=
  C13_claimBack_seatTaken takenDb 1 memberA sampleMonday (by decide) (by decide) (by decide)

/-- C14 at concrete inputs: the Batch-2 member is told NotYourSeat, the Batch-1
member without a release record NoReleaseFound, the Batch-1 member whose seat
was taken SeatTaken, and the Batch-1 member of `statusDb` reclaims the seat,
the release record being the one Booking removed. -/
theorem C14_claimBack_contract_witness :
    claimBack statusDb 2 sampleMonday = (statusDb, .notYourSeat) ∧
    claimBack officeDb 1 sampleMonday = (officeDb, .noReleaseFound) ∧
    claimBack takenDb 1 sampleMonday = (takenDb, .seatTaken) ∧
    (claimBack statusDb 1 sampleMonday).2 = .reclaimed ∧
    (claimBack statusDb 1 sampleMonday).1.bookings
      = [releaseOf 3, floaterAt 101 41, floaterAt 102 42, floaterAt 103 43] :=
  ⟨(C14_claimBack_contract statusDb 2 visitorZ sampleMonday (by decide)).2.1 (by decide),
   ((C14_claimBack_contract officeDb 1 memberA sampleMonday (by decide)).2.2.2.1
      (by decide) (by decide) (by decide)).1,
   (C14_claimBack_contract takenDb 1 memberA sampleMonday (by decide)).2.2.1
      (by decide) (by decide),
   ((C14_claimBack_contract statusDb 1 memberA sampleMonday (by decide)).2.2.2.2
      (by decide) (by decide) (by decide)).1,
   by decide⟩

/-- C17 at a concrete input: the schedule of the Batch-1 member asked on
Saturday 21 Feb 2026 at 10:00, Monday 23 Feb being released; each entry is
shown as (days from 23 Feb, isAssigned, status, type, canRelease). -/
theorem C17_mySchedule_entries_witness :
    (mySchedule takenDb 1 (atTime (referenceDay - 2) 10 0)).2.entries.map
        (fun e => (dayIndex e.date - referenceDay, e.isAssigned, e.status, e.type, e.canRelease))
      = [(-2, false, .none, none, false), (-1, false, .none, none, false),
         (0, true, .released, some .fixed, false), (1, true, .assigned, some .fixed, true),
         (2, true, .assigned, some .fixed, true), (3, false, .none, none, false),
         (4, false, .none, none, false), (5, false, .none, none, false),
         (6, false, .none, none, false), (7, false, .none, none, false),
         (8, false, .none, none, false), (9, false, .none, none, false),
         (10, true, .assigned, some .fixed, true), (11, true, .assigned, some .fixed, true)] ∧
    (∃ entries : List ScheduleEntry,
      mySchedule takenDb 1 (atTime (referenceDay - 2) 10 0) = (takenDb, .schedule entries) ∧
      entries.length = 14 ∧
      ∀ i : Nat, i < 14 → ∃ e : ScheduleEntry,
        entries[i]? = some e ∧
        e.date = midnight (dayIndex (atTime (referenceDay - 2) 10 0) + i) ∧
        e.isAssigned = decide (some memberA.batch = getBatchForDate e.date) ∧
        e.status =
          (match takenDb.bookings.find? (sameKey 1 e.date) with
           | some b => DayStatus.ofBooking b.status
           | none => if some memberA.batch = getBatchForDate e.date then .assigned else .none) ∧
        (e.canRelease = true ↔
          (some memberA.batch = getBatchForDate e.date ∧
            canReleaseSeat e.date (atTime (referenceDay - 2) 10 0) = true ∧
            ∀ b, takenDb.bookings.find? (sameKey 1 e.date) = some b → b.status ≠ .released))) :=
  ⟨by decide,
   C17_mySchedule_entries takenDb 1 memberA (atTime (referenceDay - 2) 10 0) (by decide)⟩

/-- C18 at a concrete input: the Batch-1 member asks on Sunday 1 Mar 2026; in
the week of Monday 2 Mar, in which Batch 2 attends Mon-Wed, the entries of
Sunday, Monday, Tuesday and Wednesday have isAssigned and canRelease false;
each entry is shown as (days from 23 Feb, isAssigned, canRelease). -/
theorem C18_mySchedule_unassigned_witness :
    [7, 8, 9].map (fun day => getBatchForDate (midnight (referenceDay + day)))
      = [some 2, some 2, some 2] ∧
    (mySchedule officeDb 1 sundayMorning).2.entries.map
        (fun e => (dayIndex e.date - referenceDay, e.isAssigned, e.canRelease))
      = [(6, false, false), (7, false, false), (8, false, false), (9, false, false),
         (10, true, true), (11, true, true), (12, false, false), (13, false, false),
         (14, true, true), (15, true, true), (16, true, true), (17, false, false),
         (18, false, false), (19, false, false)] ∧
    (∃ entries : List ScheduleEntry,
      mySchedule officeDb 1 sundayMorning = (officeDb, .schedule entries) ∧
      entries.length = 14 ∧
      ∀ e ∈ entries,
        (some memberA.batch ≠ getBatchForDate e.date →
          e.isAssigned = false ∧ e.canRelease = false) ∧
        (getDay e.date = 0 ∨ getDay e.date = 6 →
          e.isAssigned = false ∧ e.canRelease = false)) :=
  ⟨by decide, by decide,
   C18_mySchedule_unassigned officeDb 1 memberA sundayMorning (by decide)⟩

/-- C20 at a concrete input, the password comparison being equality with the
stored password: an unknown email and a wrong password get the same answer. -/
theorem C20_login_failures_indistinguishable_witness :
    login specSchema (fun u p => decide (u.password = p)) officeDb "nobody@x.io" "pw"
      = (officeDb, .badRequest "Invalid credentials") ∧
    login specSchema (fun u p => decide (u.password = p)) officeDb "A@x.io" "guess"
      = (officeDb, .badRequest "Invalid credentials") ∧
    (login specSchema (fun u p => decide (u.password = p)) officeDb "nobody@x.io" "pw").2
      = (login specSchema (fun u p => decide (u.password = p)) officeDb "A@x.io" "guess").2 ∧
    (login specSchema (fun u p => decide (u.password = p)) officeDb "nobody@x.io" "pw").2.status
      = 400 ∧
    (login specSchema (fun u p => decide (u.password = p)) officeDb "A@x.io" "guess").2.status
      = 400 ∧
    login specSchema (fun u p => decide (u.password = p)) officeDb "A@x.io" "pw"
      = (officeDb, .loggedIn 1 "member" "a@x.io" 3 1 9) :=
  ⟨(C20_login_failures_indistinguishable specSchema (fun u p => decide (u.password = p))
      officeDb officeDb "nobody@x.io" "pw" "A@x.io" "guess" memberA
      (by decide) (by decide) (by decide)).1,
   (C20_login_failures_indistinguishable specSchema (fun u p => decide (u.password = p))
      officeDb officeDb "nobody@x.io" "pw" "A@x.io" "guess" memberA
      (by decide) (by decide) (by decide)).2.1,
   (C20_login_failures_indistinguishable specSchema (fun u p => decide (u.password = p))
      officeDb officeDb "nobody@x.io" "pw" "A@x.io" "guess" memberA
      (by decide) (by decide) (by decide)).2.2.1,
   (C20_login_failures_indistinguishable specSchema (fun u p => decide (u.password = p))
      officeDb officeDb "nobody@x.io" "pw" "A@x.io" "guess" memberA
      (by decide) (by decide) (by decide)).2.2.2.1,
   (C20_login_failures_indistinguishable specSchema (fun u p => decide (u.password = p))
      officeDb officeDb "nobody@x.io" "pw" "A@x.io" "guess" memberA
      (by decide) (by decide) (by decide)).2.2.2.2,
   by decide⟩

/-! ## The invariant of sequential executions: users -/

theorem findById_some (users : List User) (id : Nat) (u : User)
    (h : findById users id = some u) : u ∈ users ∧ u.id = id := by
  unfold findById at h
  exact ⟨List.mem_of_find?_eq_some h, by simpa using List.find?_some h⟩

theorem findById_append (users : List User) (u : User) (id : Nat) (h : User)
    (hf : findById users id = some h) : findById (users ++ [u]) id = some h := by
  unfold findById at hf ⊢
  rw [List.find?_append, hf]
  rfl

theorem squadSeats_nodup (s : Int) (n : Nat) : (squadSeats s n).Nodup := by
  unfold squadSeats
  apply List.Nodup.map_on _ (List.nodup_range n)
  intro x _ y _ hxy
  omega

theorem usersOk_seat_range (users : List User) (h : UsersOk users) (u : User) (hu : u ∈ users) :
    (u.squadId - 1) * 4 + 1 ≤ u.seatNumber ∧ u.seatNumber ≤ (u.squadId - 1) * 4 + 4 ∧
    1 ≤ u.seatNumber ∧ u.seatNumber ≤ 40 := by
  obtain ⟨hr, hs⟩ := h
  obtain ⟨hlen, hmap⟩ := hs u.squadId u.batch
  have hmem : u ∈ squadUsers users u.squadId u.batch := by
    unfold squadUsers
    rw [List.mem_filter]
    exact ⟨hu, by simp⟩
  have hx : u.seatNumber ∈ squadSeats u.squadId (squadUsers users u.squadId u.batch).length := by
    rw [← hmap]
    exact List.mem_map_of_mem (fun u => u.seatNumber) hmem
  have := mem_squadSeats _ _ _ hx
  have := hr u hu
  omega

theorem usersOk_seat_inj (users : List User) (h : UsersOk users) (u v : User)
    (hu : u ∈ users) (hv : v ∈ users) (hb : u.batch = v.batch)
    (hs : u.seatNumber = v.seatNumber) : u = v := by
  have ru := usersOk_seat_range users h u hu
  have rv := usersOk_seat_range users h v hv
  have hsq : u.squadId = v.squadId := by omega
  obtain ⟨_, hmap⟩ := h.2 u.squadId u.batch
  have hnd : ((squadUsers users u.squadId u.batch).map (fun u => u.seatNumber)).Nodup := by
    rw [hmap]
    exact squadSeats_nodup _ _
  have hmu : u ∈ squadUsers users u.squadId u.batch := by
    unfold squadUsers
    rw [List.mem_filter]
    exact ⟨hu, by simp⟩
  have hmv : v ∈ squadUsers users u.squadId u.batch := by
    unfold squadUsers
    rw [List.mem_filter]
    exact ⟨hv, by simp [hsq, hb]⟩
  exact List.inj_on_of_nodup_map hnd hmu hmv hs

theorem register_effect (schema : UserSchema) (db : Db) (name email password : String)
    (squadId batch : Int) :
    (register schema db name email password squadId batch).1.bookings = db.bookings ∧
    ((register schema db name email password squadId batch).1.users = db.users ∨
      ((squadUsers db.users squadId batch).length < 4 ∧
        ∃ u : User, schema.valid u = true ∧ u.squadId = squadId ∧ u.batch = batch ∧
          u.seatNumber
            = (squadId - 1) * 4 + ((squadUsers db.users squadId batch).length : Int) + 1 ∧
          (register schema db name email password squadId batch).1.users = db.users ++ [u])) := by
  unfold register
  split
  · exact ⟨rfl, Or.inl rfl⟩
  · dsimp only
    split_ifs with h1 h2
    · exact ⟨rfl, Or.inl rfl⟩
    · exact ⟨rfl, Or.inr ⟨by omega, _, h2, rfl, rfl, rfl, rfl⟩⟩
    · exact ⟨rfl, Or.inl rfl⟩

theorem usersOk_append (schema : UserSchema) (hrange : SquadRange schema) (users : List User)
    (h : UsersOk users) (u : User) (hv : schema.valid u = true)
    (hlt : (squadUsers users u.squadId u.batch).length < 4)
    (hseat : u.seatNumber
      = (u.squadId - 1) * 4 + ((squadUsers users u.squadId u.batch).length : Int) + 1) :
    UsersOk (users ++ [u]) := by
  obtain ⟨hr, hs⟩ := h
  constructor
  · intro w hw
    rcases List.mem_append.1 hw with hw | hw
    · exact hr w hw
    · rw [List.mem_singleton] at hw
      subst hw
      exact hrange w hv
  · intro s b
    rw [squadUsers_append]
    by_cases hk : u.squadId = s ∧ u.batch = b
    · rw [if_pos hk]
      obtain ⟨hs1, hb1⟩ := hk
      subst hs1 hb1
      refine ⟨by simp; omega, ?_⟩
      rw [List.map_append, (hs _ _).2, List.length_append, List.length_singleton,
        squadSeats_succ]
      simp [hseat]
    · rw [if_neg hk]
      exact hs s b

theorem usersOk_register (schema : UserSchema) (hrange : SquadRange schema) (db : Db)
    (name email password : String) (squadId batch : Int) (h : UsersOk db.users) :
    UsersOk (register schema db name email password squadId batch).1.users := by
  rcases (register_effect schema db name email password squadId batch).2 with
    h1 | ⟨hlt, u, hv, hs, hb, hseat, h1⟩
  · rw [h1]; exact h
  · rw [h1]
    subst hs hb
    exact usersOk_append schema hrange db.users h u hv hlt hseat

/-! ## The invariant of sequential executions: outcomes of the routes -/

theorem release_noUser (db : Db) (userId : Nat) (targetDate now : JsDate)
    (hu : findById db.users userId = none) :
    release db userId targetDate now = (db, .serverError) := by
  unfold release
  rw [hu]

theorem claimBack_noUser (db : Db) (userId : Nat) (targetDate : JsDate)
    (hu : findById db.users userId = none) :
    claimBack db userId targetDate = (db, .serverError) := by
  unfold claimBack
  rw [hu]

theorem insertBooking_some_fresh (bookings : List Booking) (b : Booking) (bs : List Booking)
    (h : insertBooking bookings b = some bs) :
    ∀ x ∈ bookings, ¬ (x.userId = b.userId ∧ x.date = b.date) := by
  unfold insertBooking at h
  split at h
  · exact absurd h (by simp)
  · rename_i hany
    intro x hx hk
    apply hany
    rw [List.any_eq_true]
    exact ⟨x, hx, (sameKey_iff _ _ _).2 hk⟩

theorem uniqueKey_append (bookings : List Booking) (b : Booking) (h : UniqueKey bookings)
    (hfresh : ∀ x ∈ bookings, ¬ (x.userId = b.userId ∧ x.date = b.date)) :
    UniqueKey (bookings ++ [b]) := by
  unfold UniqueKey at h ⊢
  rw [List.map_append, List.map_cons, List.map_nil, List.nodup_append]
  refine ⟨h, List.nodup_singleton _, ?_⟩
  intro k hk hk2
  rw [List.mem_singleton] at hk2
  rw [List.mem_map] at hk
  obtain ⟨x, hx, hxk⟩ := hk
  rw [hk2] at hxk
  exact hfresh x hx ⟨congrArg Prod.fst hxk, congrArg Prod.snd hxk⟩

theorem uniqueKey_eraseP (bookings : List Booking) (p : Booking → Bool)
    (h : UniqueKey bookings) : UniqueKey (bookings.eraseP p) := by
  unfold UniqueKey at h ⊢
  exact List.Nodup.sublist ((List.eraseP_sublist bookings).map _) h

theorem uniqueKey_eq (bookings : List Booking) (h : UniqueKey bookings) (a b : Booking)
    (ha : a ∈ bookings) (hb : b ∈ bookings) (hu : a.userId = b.userId) (hd : a.date = b.date) :
    a = b := by
  unfold UniqueKey at h
  apply List.inj_on_of_nodup_map h ha hb
  show (a.userId, a.date) = (b.userId, b.date)
  rw [hu, hd]

theorem filter_eraseP_of_disjoint (l : List Booking) (p q : Booking → Bool)
    (h : ∀ x, p x = true → q x = false) : (l.eraseP p).filter q = l.filter q := by
  induction l with
  | nil => rfl
  | cons a t ih =>
    by_cases ha : p a = true
    · rw [List.eraseP_cons_of_pos ha, List.filter_cons_of_neg (by simp [h a ha])]
    · rw [List.eraseP_cons_of_neg ha]
      by_cases hq : q a = true
      · rw [List.filter_cons_of_pos hq, List.filter_cons_of_pos hq, ih]
      · rw [List.filter_cons_of_neg hq, List.filter_cons_of_neg hq, ih]

theorem occupiedSeats_eraseP_ownRelease (bookings : List Booking) (userId : Nat)
    (date d : JsDate) :
    occupiedSeats (bookings.eraseP (ownRelease userId date)) d = occupiedSeats bookings d := by
  unfold occupiedSeats
  rw [filter_eraseP_of_disjoint]
  intro x hx
  have := (ownRelease_iff _ _ _).1 hx
  simp [this.2.2.2]

theorem occupiedSeats_append (bookings : List Booking) (b : Booking) (d : JsDate) :
    occupiedSeats (bookings ++ [b]) d =
      if b.date = d ∧ b.status = .booked then occupiedSeats bookings d ++ [b.seatNumber]
      else occupiedSeats bookings d := by
  unfold occupiedSeats
  rw [List.filter_append]
  by_cases h : b.date = d ∧ b.status = .booked
  · rw [if_pos h]
    simp [List.filter_cons, h.1, h.2]
  · rw [if_neg h]
    have : (decide (b.date = d) && decide (b.status = .booked)) = false := by
      simpa using h
    simp [List.filter_cons, this]

/-- What release does to a store in which a caller of the assigned batch can
only hold a released fixed Booking: nothing, or one release record appended. -/
theorem release_outcome (db : Db) (userId : Nat) (targetDate now : JsDate)
    (hshape : ∀ b ∈ db.bookings,
      (b.type = .fixed ∧ b.status = .released) ∨
      (b.type = .floater ∧ b.status = .booked ∧ ∃ s : Int, b.seatNumber = some s))
    (hbooked : ∀ b ∈ db.bookings, b.status = .booked →
      ∃ c : User, findById db.users b.userId = some c ∧
        some c.batch ≠ getBatchForDate b.date) :
    (release db userId targetDate now).1 = db ∨
    ∃ user : User, findById db.users userId = some user ∧
      some user.batch = getBatchForDate targetDate ∧
      canReleaseSeat targetDate now = true ∧
      (∀ x ∈ db.bookings, ¬ (x.userId = userId ∧ x.date = targetDate)) ∧
      release db userId targetDate now =
        ({ db with bookings := (db.bookings ++
            [{ userId := userId, date := targetDate, status := .released, type := .fixed,
               seatNumber := none }]) },
         .released { userId := userId, date := targetDate, status := .released, type := .fixed,
                     seatNumber := none }) := by
  cases hu : findById db.users userId with
  | none => rw [release_noUser db userId targetDate now hu]; exact Or.inl rfl
  | some user =>
    by_cases hb : some user.batch = getBatchForDate targetDate
    · cases hc : canReleaseSeat targetDate now with
      | false => rw [release_deadline db userId user targetDate now hu hb hc]; exact Or.inl rfl
      | true =>
        cases hf : db.bookings.find? (sameKey userId targetDate) with
        | none =>
          refine Or.inr ⟨user, rfl, hb, rfl, ?_, release_fresh db userId user targetDate now hu hb hc hf⟩
          intro x hx hk
          rw [List.find?_eq_none] at hf
          exact hf x hx ((sameKey_iff _ _ _).2 hk)
        | some e =>
          left
          have hem := List.mem_of_find?_eq_some hf
          have hek := (sameKey_iff _ _ _).1 (List.find?_some hf)
          rcases hshape e hem with ⟨_, hst⟩ | ⟨_, hst, _⟩
          · rw [release_again db userId user targetDate now hu hb hc e hf hst]
          · obtain ⟨c, hc1, hc2⟩ := hbooked e hem hst
            rw [hek.1, hu] at hc1
            rw [hek.2] at hc2
            have : user = c := Option.some.inj hc1
            subst this
            exact absurd hb hc2
    · rw [release_notAssigned db userId user targetDate now hu hb]; exact Or.inl rfl

/-- What claim-back does: nothing, or the removal of the caller's release record. -/
theorem claimBack_outcome (db : Db) (userId : Nat) (targetDate : JsDate) :
    (claimBack db userId targetDate).1 = db ∨
    ∃ user : User, findById db.users userId = some user ∧
      some user.batch = getBatchForDate targetDate ∧
      ¬ FloaterOn db.bookings targetDate user.seatNumber ∧
      HasOwnRelease db.bookings userId targetDate ∧
      claimBack db userId targetDate =
        ({ db with bookings := db.bookings.eraseP (ownRelease userId targetDate) },
         .reclaimed) := by
  cases hu : findById db.users userId with
  | none => rw [claimBack_noUser db userId targetDate hu]; exact Or.inl rfl
  | some user =>
    by_cases hb : some user.batch = getBatchForDate targetDate
    · by_cases ht : FloaterOn db.bookings targetDate user.seatNumber
      · rw [claimBack_seatTaken db userId user targetDate hu hb ht]; exact Or.inl rfl
      · by_cases hr : HasOwnRelease db.bookings userId targetDate
        · exact Or.inr ⟨user, rfl, hb, ht, hr,
            claimBack_reclaimed db userId user targetDate hu hb ht hr⟩
        · rw [claimBack_noRelease db userId user targetDate hu hb ht hr]; exact Or.inl rfl
    · rw [claimBack_notYourSeat db userId user targetDate hu hb]; exact Or.inl rfl

/-- What book-floater does: nothing, or one floater Booking appended for a
caller outside the assigned batch who held no Booking for the date. -/
theorem bookFloater_outcome (db : Db) (userId : Nat) (targetDate now : JsDate) :
    (bookFloater db userId targetDate now).1 = db ∨
    ∃ (n : Int) (user : User),
      (bookFloater db userId targetDate now).2 = .floaterBooked n ∧
      n ≠ 0 ∧
      findById db.users userId = some user ∧
      some user.batch ≠ getBatchForDate targetDate ∧
      (∀ x ∈ db.bookings, ¬ (x.userId = userId ∧ x.date = targetDate)) := by
  cases hw : canBookFloater targetDate now with
  | false => rw [bookFloater_tooEarly db userId targetDate now hw]; exact Or.inl rfl
  | true =>
    cases hu : findById db.users userId with
    | none => rw [bookFloater_noUser db userId targetDate now hw hu]; exact Or.inl rfl
    | some user =>
      by_cases hb : some user.batch = getBatchForDate targetDate
      · rw [bookFloater_fixed db userId user targetDate now hw hu hb]; exact Or.inl rfl
      by_cases hg : (10 : Int) + releasedCount db.bookings targetDate
            - floaterCount db.bookings targetDate ≤ 0
      · rw [bookFloater_gate db userId user targetDate now hw hu hb hg]; exact Or.inl rfl
      cases hm : firstFreeDedicated (occupiedSeats db.bookings targetDate) with
      | some m =>
        rw [bookFloater_dedicated db userId user targetDate now hw hu hb hg m hm]
        have hm1 := (firstFreeDedicated_some _ m hm).1
        cases hi : insertBooking db.bookings
            { userId := userId, date := targetDate, status := .booked, type := .floater,
              seatNumber := some m } with
        | none => exact Or.inl rfl
        | some bs =>
          exact Or.inr ⟨m, user, rfl, by omega, rfl, hb, insertBooking_some_fresh _ _ _ hi⟩
      | none =>
        rw [bookFloater_fallback db userId user targetDate now hw hu hb hg hm]
        cases hs : scanReleased db.users (occupiedSeats db.bookings targetDate)
            (db.bookings.filter (fun b => decide (b.date = targetDate)
              && decide (b.status = .released) && decide (b.type = .fixed))) with
        | none => exact Or.inl rfl
        | some o =>
          cases o with
          | none => exact Or.inl rfl
          | some s =>
            dsimp only
            by_cases hs0 : s = 0
            · rw [if_pos hs0]; exact Or.inl rfl
            rw [if_neg hs0]
            cases hi : insertBooking db.bookings
                { userId := userId, date := targetDate, status := .booked, type := .floater,
                  seatNumber := some s } with
            | none => exact Or.inl rfl
            | some bs =>
              exact Or.inr ⟨s, user, rfl, hs0, rfl, hb, insertBooking_some_fresh _ _ _ hi⟩

/-! ## The invariant of sequential executions: preservation -/

theorem bookingsOk_users (db db1 : Db) (h : BookingsOk db) (hb : db1.bookings = db.bookings)
    (hu : ∀ (id : Nat) (u : User), findById db.users id = some u →
      findById db1.users id = some u) :
    BookingsOk db1 := by
  constructor
  · rw [hb]; exact h.unique
  · rw [hb]; exact h.shape
  · rw [hb]
    intro r hr hs
    obtain ⟨u, h1, h2⟩ := h.releasedHolder r hr hs
    exact ⟨u, hu _ _ h1, h2⟩
  · rw [hb]
    intro b hbm hs
    obtain ⟨c, h1, h2⟩ := h.bookedHolder b hbm hs
    exact ⟨c, hu _ _ h1, h2⟩
  · rw [hb]
    intro b hbm hs s hseat
    rcases h.bookedSeat b hbm hs s hseat with hd | ⟨r, hr, h1, h2, u, h3, h4⟩
    · exact Or.inl hd
    · exact Or.inr ⟨r, hr, h1, h2, u, hu _ _ h3, h4⟩
  · rw [hb]; exact h.distinctSeats

theorem bookingsOk_register (schema : UserSchema) (db : Db) (name email password : String)
    (squadId batch : Int) (h : BookingsOk db) :
    BookingsOk (register schema db name email password squadId batch).1 := by
  obtain ⟨hbk, hus⟩ := register_effect schema db name email password squadId batch
  apply bookingsOk_users db _ h hbk
  intro id u hf
  rcases hus with h1 | ⟨_, w, _, _, _, _, h1⟩
  · rw [h1]; exact hf
  · rw [h1]; exact findById_append _ _ _ _ hf

theorem bookingsOk_release (db : Db) (userId : Nat) (targetDate now : JsDate)
    (h : BookingsOk db) : BookingsOk (release db userId targetDate now).1 := by
  rcases release_outcome db userId targetDate now h.shape h.bookedHolder with
    h1 | ⟨user, hu, hb, _, hfresh, h1⟩
  · rw [h1]; exact h
  · rw [h1]
    constructor
    · exact uniqueKey_append _ _ h.unique hfresh
    · intro b hbm
      rcases List.mem_append.1 hbm with hb1 | hb1
      · exact h.shape b hb1
      · rw [List.mem_singleton] at hb1
        subst hb1
        exact Or.inl ⟨rfl, rfl⟩
    · intro r hr hs
      rcases List.mem_append.1 hr with hr1 | hr1
      · exact h.releasedHolder r hr1 hs
      · rw [List.mem_singleton] at hr1
        subst hr1
        exact ⟨user, hu, hb⟩
    · intro b hbm hs
      rcases List.mem_append.1 hbm with hb1 | hb1
      · exact h.bookedHolder b hb1 hs
      · rw [List.mem_singleton] at hb1
        subst hb1
        exact absurd hs (by simp)
    · intro b hbm hs s hseat
      rcases List.mem_append.1 hbm with hb1 | hb1
      · rcases h.bookedSeat b hb1 hs s hseat with hd | ⟨r, hr, h2, h3, u, h4, h5⟩
        · exact Or.inl hd
        · exact Or.inr ⟨r, List.mem_append_left _ hr, h2, h3, u, h4, h5⟩
      · rw [List.mem_singleton] at hb1
        subst hb1
        exact absurd hs (by simp)
    · intro d
      show (occupiedSeats (db.bookings ++ _) d).Nodup
      rw [occupiedSeats_append, if_neg (by simp)]
      exact h.distinctSeats d

theorem bookingsOk_claimBack (db : Db) (userId : Nat) (targetDate : JsDate)
    (h : BookingsOk db) : BookingsOk (claimBack db userId targetDate).1 := by
  rcases claimBack_outcome db userId targetDate with h1 | ⟨user, hu, _, hfree, _, h1⟩
  · rw [h1]; exact h
  · rw [h1]
    have hsub : ∀ b, b ∈ db.bookings.eraseP (ownRelease userId targetDate) → b ∈ db.bookings :=
      fun b hb => List.eraseP_subset _ hb
    constructor
    · exact uniqueKey_eraseP _ _ h.unique
    · intro b hbm
      exact h.shape b (hsub b hbm)
    · intro r hr hs
      exact h.releasedHolder r (hsub r hr) hs
    · intro b hbm hs
      exact h.bookedHolder b (hsub b hbm) hs
    · intro b hbm hs s hseat
      rcases h.bookedSeat b (hsub b hbm) hs s hseat with hd | ⟨r, hr, h2, h3, u, h4, h5⟩
      · exact Or.inl hd
      · right
        by_cases hp : ownRelease userId targetDate r = true
        · exfalso
          have hp1 := (ownRelease_iff _ _ _).1 hp
          rw [hp1.1, hu] at h4
          have : user = u := Option.some.inj h4
          subst this
          apply hfree
          refine ⟨b, hsub b hbm, ?_, hs, ?_, ?_⟩
          · rw [← h2, hp1.2.1]
          · rcases h.shape b (hsub b hbm) with ⟨_, hst⟩ | ⟨ht, _, _⟩
            · rw [hst] at hs
              exact absurd hs (by decide)
            · exact ht
          · rw [hseat, h5]
        · exact ⟨r, (List.mem_eraseP_of_neg hp).2 hr, h2, h3, u, h4, h5⟩
    · intro d
      show (occupiedSeats (db.bookings.eraseP _) d).Nodup
      rw [occupiedSeats_eraseP_ownRelease]
      exact h.distinctSeats d

theorem bookingsOk_bookFloater (db : Db) (userId : Nat) (targetDate now : JsDate)
    (h : BookingsOk db) : BookingsOk (bookFloater db userId targetDate now).1 := by
  rcases bookFloater_outcome db userId targetDate now with
    h1 | ⟨n, user, hn, _, hu, hb, hfresh⟩
  · rw [h1]; exact h
  · obtain ⟨hdb, hseat⟩ := bookFloater_success db userId targetDate now n hn
    rw [hdb]
    have hfree : ¬ SeatBooked db.bookings targetDate n := by
      rcases hseat with ⟨_, _, hf, _⟩ | ⟨_, hf, _⟩
      · exact hf
      · exact hf
    constructor
    · exact uniqueKey_append _ _ h.unique hfresh
    · intro b hbm
      rcases List.mem_append.1 hbm with hb1 | hb1
      · exact h.shape b hb1
      · rw [List.mem_singleton] at hb1
        subst hb1
        exact Or.inr ⟨rfl, rfl, n, rfl⟩
    · intro r hr hs
      rcases List.mem_append.1 hr with hr1 | hr1
      · exact h.releasedHolder r hr1 hs
      · rw [List.mem_singleton] at hr1
        subst hr1
        exact absurd hs (by simp)
    · intro b hbm hs
      rcases List.mem_append.1 hbm with hb1 | hb1
      · exact h.bookedHolder b hb1 hs
      · rw [List.mem_singleton] at hb1
        subst hb1
        exact ⟨user, hu, hb⟩
    · intro b hbm hs s hs1
      rcases List.mem_append.1 hbm with hb1 | hb1
      · rcases h.bookedSeat b hb1 hs s hs1 with hd | ⟨r, hr, h2, h3, u, h4, h5⟩
        · exact Or.inl hd
        · exact Or.inr ⟨r, List.mem_append_left _ hr, h2, h3, u, h4, h5⟩
      · rw [List.mem_singleton] at hb1
        subst hb1
        have e : n = s := Option.some.inj hs1
        subst e
        rcases hseat with ⟨h41, h50, _, _⟩ | ⟨_, _, r, hr, h2, h3, _, u, h4, h5⟩
        · exact Or.inl ⟨h41, h50⟩
        · exact Or.inr ⟨r, List.mem_append_left _ hr, h2, h3, u, h4, h5⟩
    · intro d
      show (occupiedSeats (db.bookings ++ _) d).Nodup
      rw [occupiedSeats_append]
      by_cases hd : targetDate = d
      · subst hd
        rw [if_pos ⟨rfl, rfl⟩, List.nodup_append]
        refine ⟨h.distinctSeats _, List.nodup_singleton _, ?_⟩
        intro x hx hx2
        rw [List.mem_singleton] at hx2
        subst hx2
        apply hfree
        rw [← occupied_contains_iff]
        simpa using hx
      · rw [if_neg (fun hc => hd hc.1)]
        exact h.distinctSeats d

theorem inv_of_reachableFrom (schema : UserSchema) (hrange : SquadRange schema) (db0 db : Db)
    (h0 : Inv db0) (h : ReachableFrom schema db0 db) : Inv db := by
  induction h with
  | start => exact h0
  | byRegister db name email password squadId batch _ ih =>
    exact ⟨usersOk_register schema hrange db name email password squadId batch ih.1,
      bookingsOk_register schema db name email password squadId batch ih.2⟩
  | byRelease db userId targetDate now _ ih =>
    refine ⟨?_, bookingsOk_release db userId targetDate now ih.2⟩
    rcases release_outcome db userId targetDate now ih.2.shape ih.2.bookedHolder with
      h1 | ⟨_, _, _, _, _, h1⟩ <;> rw [h1] <;> exact ih.1
  | byClaimBack db userId targetDate _ ih =>
    refine ⟨?_, bookingsOk_claimBack db userId targetDate ih.2⟩
    rcases claimBack_outcome db userId targetDate with h1 | ⟨_, _, _, _, _, h1⟩ <;>
      rw [h1] <;> exact ih.1
  | byBookFloater db userId targetDate now _ ih =>
    refine ⟨?_, bookingsOk_bookFloater db userId targetDate now ih.2⟩
    rcases bookFloater_outcome db userId targetDate now with h1 | ⟨n, _, hn, _, _, _, _⟩
    · rw [h1]; exact ih.1
    · rw [(bookFloater_success db userId targetDate now n hn).1]; exact ih.1

theorem inv_of_empty (db0 : Db) (hu : db0.users = []) (hb : db0.bookings = []) : Inv db0 := by
  refine ⟨⟨?_, ?_⟩, ?_⟩
  · rw [hu]; intro u hu1; cases hu1
  · intro s b
    rw [hu]
    simp [squadUsers, squadSeats]
  · constructor
    · rw [hb]; exact List.nodup_nil
    · rw [hb]; intro b hb1; cases hb1
    · rw [hb]; intro b hb1; cases hb1
    · rw [hb]; intro b hb1; cases hb1
    · rw [hb]; intro b hb1; cases hb1
    · intro d; rw [hb]; exact List.nodup_nil

theorem inv_of_reachable (schema : UserSchema) (hrange : SquadRange schema) (db : Db)
    (h : Reachable schema db) : Inv db := by
  obtain ⟨db0, hu, hb, hr⟩ := h
  exact inv_of_reachableFrom schema hrange db0 db (inv_of_empty db0 hu hb) hr

/-! ## Consequences of the invariant: the seat scan -/

theorem occupiedSeats_length (bookings : List Booking) (date : JsDate) :
    (occupiedSeats bookings date).length
      = bookings.countP (fun b => decide (b.date = date) && decide (b.status = .booked)) := by
  unfold occupiedSeats
  rw [List.length_map, List.countP_eq_length_filter]

theorem floaterCount_eq_occupied (db : Db) (h : BookingsOk db) (date : JsDate) :
    floaterCount db.bookings date = (occupiedSeats db.bookings date).length := by
  rw [floaterCount_eq, occupiedSeats_length]
  apply List.countP_congr
  intro b hb
  simp only [Bool.and_eq_true, decide_eq_true_eq]
  constructor
  · rintro ⟨h1, _, h3⟩
    exact ⟨h1, h3⟩
  · rintro ⟨h1, h3⟩
    rcases h.shape b hb with ⟨_, hst⟩ | ⟨ht, _, _⟩
    · rw [hst] at h3
      exact absurd h3 (by decide)
    · exact ⟨h1, ht, h3⟩

theorem releasedCount_eq_releasedFixed (db : Db) (h : BookingsOk db) (date : JsDate) :
    releasedCount db.bookings date = (releasedFixed db.bookings date).length := by
  rw [releasedCount_eq]
  unfold releasedFixed
  rw [← List.countP_eq_length_filter]
  apply List.countP_congr
  intro b hb
  simp only [Bool.and_eq_true, decide_eq_true_eq]
  constructor
  · rintro ⟨h1, h2⟩
    rcases h.shape b hb with ⟨ht, _⟩ | ⟨_, hst, _⟩
    · exact ⟨⟨h1, h2⟩, ht⟩
    · rw [hst] at h2
      exact absurd h2 (by decide)
  · rintro ⟨⟨h1, h2⟩, _⟩
    exact ⟨h1, h2⟩

theorem mem_releasedFixed_iff (bookings : List Booking) (date : JsDate) (r : Booking) :
    r ∈ releasedFixed bookings date ↔
      r ∈ bookings ∧ r.date = date ∧ r.status = .released ∧ r.type = .fixed :=
  mem_releasedFixed bookings date r

theorem releasedFixed_holder (db : Db) (h : Inv db) (date : JsDate) (r : Booking)
    (hr : r ∈ releasedFixed db.bookings date) :
    ∃ u : User, findById db.users r.userId = some u ∧ u ∈ db.users ∧
      some u.batch = getBatchForDate date ∧ 1 ≤ u.seatNumber ∧ u.seatNumber ≤ 40 := by
  rw [mem_releasedFixed_iff] at hr
  obtain ⟨u, h1, h2⟩ := h.2.releasedHolder r hr.1 hr.2.2.1
  have hm := (findById_some _ _ _ h1).1
  have hrange := usersOk_seat_range _ h.1 u hm
  rw [hr.2.1] at h2
  exact ⟨u, h1, hm, h2, hrange.2.2.1, hrange.2.2.2⟩

theorem releasedFixed_holderSeat_nodup (db : Db) (h : Inv db) (date : JsDate) :
    ((releasedFixed db.bookings date).map (holderSeat db.users)).Nodup := by
  have hnd : (releasedFixed db.bookings date).Nodup := by
    unfold releasedFixed
    exact List.Nodup.filter _ (List.Nodup.of_map _ h.2.unique)
  apply List.Nodup.map_on _ hnd
  intro r1 hr1 r2 hr2 heq
  obtain ⟨u1, hf1, hm1, hb1, _, _⟩ := releasedFixed_holder db h date r1 hr1
  obtain ⟨u2, hf2, hm2, hb2, _, _⟩ := releasedFixed_holder db h date r2 hr2
  unfold holderSeat at heq
  rw [hf1, hf2] at heq
  have hseat : u1.seatNumber = u2.seatNumber := Option.some.inj heq
  have hbatch : u1.batch = u2.batch := Option.some.inj (hb1.trans hb2.symm)
  have hu : u1 = u2 := usersOk_seat_inj _ h.1 u1 u2 hm1 hm2 hbatch hseat
  have hid : r1.userId = r2.userId := by
    rw [← (findById_some _ _ _ hf1).2, ← (findById_some _ _ _ hf2).2, hu]
  rw [mem_releasedFixed_iff] at hr1 hr2
  exact uniqueKey_eq _ h.2.unique r1 r2 hr1.1 hr2.1 hid (hr1.2.1.trans hr2.2.1.symm)

theorem scanReleased_finds (users : List User) (occ : List (Option Int))
    (records : List Booking)
    (hall : ∀ r ∈ records, ∃ u : User, findById users r.userId = some u ∧ 1 ≤ u.seatNumber)
    (hex : ∃ r ∈ records, ∃ u : User, findById users r.userId = some u ∧
      occ.contains (some u.seatNumber) = false) :
    ∃ s : Int, scanReleased users occ records = some (some s) ∧ 1 ≤ s ∧
      occ.contains (some s) = false := by
  induction records with
  | nil =>
    obtain ⟨r, hr, _⟩ := hex
    cases hr
  | cons r rest ih =>
    obtain ⟨u, hf, hpos⟩ := hall r (List.mem_cons_self _ _)
    unfold scanReleased
    rw [hf]
    dsimp only
    by_cases hfree : occ.contains (some u.seatNumber) = false
    · rw [if_pos (by rw [hfree]; rfl)]
      exact ⟨u.seatNumber, rfl, hpos, hfree⟩
    · rw [if_neg (by simpa using hfree)]
      apply ih (fun x hx => hall x (List.mem_cons_of_mem _ hx))
      obtain ⟨r1, hr1, u1, hf1, hfree1⟩ := hex
      rcases List.mem_cons.1 hr1 with e | e
      · subst e
        rw [hf] at hf1
        have : u = u1 := Option.some.inj hf1
        subst this
        exact absurd hfree1 hfree
      · exact ⟨r1, e, u1, hf1, hfree1⟩

/-- In a state of a sequential execution, once the availability check passes
and the ten dedicated desks are all occupied, some released fixed seat is free
and the scan of priority 2 selects one. -/
theorem scan_finds_released (db : Db) (h : Inv db) (date : JsDate)
    (hg : (0 : Int) < 10 + releasedCount db.bookings date - floaterCount db.bookings date)
    (hfull : firstFreeDedicated (occupiedSeats db.bookings date) = none) :
    ∃ s : Int, scanReleased db.users (occupiedSeats db.bookings date)
        (releasedFixed db.bookings date) = some (some s) ∧ 1 ≤ s ∧
      (occupiedSeats db.bookings date).contains (some s) = false := by
  apply scanReleased_finds
  · intro r hr
    obtain ⟨u, hf, _, _, hpos, _⟩ := releasedFixed_holder db h date r hr
    exact ⟨u, hf, hpos⟩
  · by_contra hno
    have hocc : ∀ r ∈ releasedFixed db.bookings date,
        holderSeat db.users r ∈ occupiedSeats db.bookings date := by
      intro r hr
      obtain ⟨u, hf, _, _, _, _⟩ := releasedFixed_holder db h date r hr
      by_contra hnot
      apply hno
      refine ⟨r, hr, u, hf, ?_⟩
      unfold holderSeat at hnot
      rw [hf] at hnot
      simpa using hnot
    have hsub : dedicatedDesks.map some ++ (releasedFixed db.bookings date).map
        (holderSeat db.users) ⊆ occupiedSeats db.bookings date := by
      intro x hx
      rcases List.mem_append.1 hx with hx | hx
      · rw [List.mem_map] at hx
        obtain ⟨i, hi, rfl⟩ := hx
        obtain ⟨h1, h2⟩ := (mem_dedicatedDesks i).1 hi
        simpa using firstFreeDedicated_none _ hfull i h1 h2
      · rw [List.mem_map] at hx
        obtain ⟨r, hr, rfl⟩ := hx
        exact hocc r hr
    have hnd : (dedicatedDesks.map some ++ (releasedFixed db.bookings date).map
        (holderSeat db.users)).Nodup := by
      rw [List.nodup_append]
      refine ⟨by unfold dedicatedDesks; decide, releasedFixed_holderSeat_nodup db h date, ?_⟩
      intro x hx1 hx2
      rw [List.mem_map] at hx1 hx2
      obtain ⟨i, hi, rfl⟩ := hx1
      obtain ⟨r, hr, hrx⟩ := hx2
      obtain ⟨u, hf, _, _, _, hle⟩ := releasedFixed_holder db h date r hr
      unfold holderSeat at hrx
      rw [hf] at hrx
      have : u.seatNumber = i := Option.some.inj hrx
      have := (mem_dedicatedDesks i).1 hi
      omega
    have hlen := (List.subperm_of_subset hnd hsub).length_le
    rw [List.length_append, List.length_map, List.length_map,
      ← floaterCount_eq_occupied db h.2 date, ← releasedCount_eq_releasedFixed db h.2 date] at hlen
    have : dedicatedDesks.length = 10 := rfl
    omega

/-! ## Claims on sequential executions -/

theorem uniqueKey_release (db : Db) (userId : Nat) (targetDate now : JsDate)
    (h : UniqueKey db.bookings) : UniqueKey (release db userId targetDate now).1.bookings := by
  cases hu : findById db.users userId with
  | none => rw [release_noUser db userId targetDate now hu]; exact h
  | some user =>
    by_cases hb : some user.batch = getBatchForDate targetDate
    · cases hc : canReleaseSeat targetDate now with
      | false => rw [release_deadline db userId user targetDate now hu hb hc]; exact h
      | true =>
        obtain ⟨_, _, _, _, _, _, _, hk⟩ :=
          (release_effect db userId user targetDate now hu hb hc).2.2.2 h
        exact hk
    · rw [release_notAssigned db userId user targetDate now hu hb]; exact h

theorem uniqueKey_claimBack (db : Db) (userId : Nat) (targetDate : JsDate)
    (h : UniqueKey db.bookings) : UniqueKey (claimBack db userId targetDate).1.bookings := by
  rcases claimBack_outcome db userId targetDate with h1 | ⟨_, _, _, _, _, h1⟩
  · rw [h1]; exact h
  · rw [h1]; exact uniqueKey_eraseP _ _ h

theorem uniqueKey_bookFloater (db : Db) (userId : Nat) (targetDate now : JsDate)
    (h : UniqueKey db.bookings) :
    UniqueKey (bookFloater db userId targetDate now).1.bookings := by
  rcases bookFloater_outcome db userId targetDate now with h1 | ⟨n, _, hn, _, _, _, hfresh⟩
  · rw [h1]; exact h
  · rw [(bookFloater_success db userId targetDate now n hn).1]
    exact uniqueKey_append _ _ h hfresh

theorem uniqueKey_of_reachableFrom (schema : UserSchema) (db0 db : Db)
    (h0 : UniqueKey db0.bookings) (h : ReachableFrom schema db0 db) : UniqueKey db.bookings := by
  induction h with
  | start => exact h0
  | byRegister db name email password squadId batch _ ih =>
    rw [(register_effect schema db name email password squadId batch).1]; exact ih
  | byRelease db userId targetDate now _ ih => exact uniqueKey_release db userId targetDate now ih
  | byClaimBack db userId targetDate _ ih => exact uniqueKey_claimBack db userId targetDate ih
  | byBookFloater db userId targetDate now _ ih =>
    exact uniqueKey_bookFloater db userId targetDate now ih

theorem bookFloater_holder_unchanged (db : Db) (userId : Nat) (targetDate now : JsDate)
    (hmine : ∃ x ∈ db.bookings, x.userId = userId ∧ x.date = targetDate) :
    (bookFloater db userId targetDate now).1 = db := by
  rcases bookFloater_outcome db userId targetDate now with h1 | ⟨_, _, _, _, _, _, hfresh⟩
  · exact h1
  · obtain ⟨x, hx, hk⟩ := hmine
    exact absurd hk (hfresh x hx)

theorem bookFloater_holder_rejected (db : Db) (hinv : Inv db) (userId : Nat) (user : User)
    (targetDate now : JsDate)
    (hw : canBookFloater targetDate now = true)
    (hu : findById db.users userId = some user)
    (hb : some user.batch ≠ getBatchForDate targetDate)
    (hg : (0 : Int) < 10 + releasedCount db.bookings targetDate
      - floaterCount db.bookings targetDate)
    (hmine : ∃ x ∈ db.bookings, x.userId = userId ∧ x.date = targetDate) :
    bookFloater db userId targetDate now = (db, .alreadyActedToday) := by
  have hg1 : ¬ (10 : Int) + releasedCount db.bookings targetDate
      - floaterCount db.bookings targetDate ≤ 0 := by omega
  cases hm : firstFreeDedicated (occupiedSeats db.bookings targetDate) with
  | some m =>
    rw [bookFloater_dedicated db userId user targetDate now hw hu hb hg1 m hm,
      insertBooking_dup _ _ hmine]
  | none =>
    obtain ⟨s, hs, hpos, _⟩ := scan_finds_released db hinv targetDate hg hm
    unfold releasedFixed at hs
    rw [bookFloater_fallback db userId user targetDate now hw hu hb hg1 hm, hs]
    dsimp only
    rw [if_neg (by omega), insertBooking_dup _ _ hmine]

/-- C16: in every state reached from an empty Booking collection by register,
release, claim-back and book-floater calls there is at most one Booking per
(userId, date).  A book-floater call by a user who already holds a Booking for
the date inserts nothing; when the users come from registration under
validators that keep squadId in 1..10 and the call passes the window, batch
and availability checks, it answers AlreadyActedToday. -/
theorem C16_one_booking_per_user_day (schema : UserSchema) (db0 db : Db)
    (h0 : db0.bookings = []) (hreach : ReachableFrom schema db0 db) :
    UniqueKey db.bookings ∧
    (∀ (userId : Nat) (date : JsDate), (db.bookings.filter (sameKey userId date)).length ≤ 1) ∧
    (∀ (userId : Nat) (date now : JsDate),
      (∃ x ∈ db.bookings, x.userId = userId ∧ x.date = date) →
      (bookFloater db userId date now).1 = db ∧
      (SquadRange schema → db0.users = [] → ∀ user : User,
        canBookFloater date now = true →
        findById db.users userId = some user →
        some user.batch ≠ getBatchForDate date →
        (0 : Int) < 10
          + db.bookings.countP (fun b => decide (b.date = date ∧ b.status = .released))
          - db.bookings.countP
              (fun b => decide (b.date = date ∧ b.type = .floater ∧ b.status = .booked)) →
        bookFloater db userId date now = (db, .alreadyActedToday))) := by
  have hk : UniqueKey db.bookings :=
    uniqueKey_of_reachableFrom schema db0 db (by rw [h0]; exact List.nodup_nil) hreach
  refine ⟨hk, fun userId date => uniqueKey_filter_le _ hk userId date, ?_⟩
  intro userId date now hmine
  refine ⟨bookFloater_holder_unchanged db userId date now hmine, ?_⟩
  intro hrange hu0 user hw hu hb hg
  rw [← releasedCount_eq, ← floaterCount_eq] at hg
  exact bookFloater_holder_rejected db
    (inv_of_reachable schema hrange db ⟨db0, hu0, h0, hreach⟩) userId user date now hw hu hb hg
    hmine

/-- C11: in a state of a sequential execution, the validators keeping squadId in
1..10: when the ten desks 41..50 are all occupied by booked floater Bookings
of the date, the date has exactly one fixed Booking with status `released`,
held by `holder`, whose seat no floater occupies, the window is open and the
caller is outside the assigned batch and has no Booking for the date, then
book-floater succeeds, appends the caller's floater Booking and assigns
exactly the seatNumber of `holder`. -/
theorem C11_released_seat_assigned (schema : UserSchema) (hrange : SquadRange schema)
    (db : Db) (hreach : Reachable schema db) (userId : Nat) (user holder : User)
    (r : Booking) (targetDate now : JsDate)
    (hw : canBookFloater targetDate now = true)
    (hu : findById db.users userId = some user)
    (hb : some user.batch ≠ getBatchForDate targetDate)
    (hmine : ∀ x ∈ db.bookings, ¬ (x.userId = userId ∧ x.date = targetDate))
    (hfull : ∀ i : Int, 41 ≤ i → i ≤ 50 → FloaterOn db.bookings targetDate i)
    (hrel : db.bookings.filter (fun b => decide (b.date = targetDate)
      && decide (b.status = .released) && decide (b.type = .fixed)) = [r])
    (hholder : findById db.users r.userId = some holder)
    (hfree : ¬ FloaterOn db.bookings targetDate holder.seatNumber) :
    bookFloater db userId targetDate now =
      ({ db with bookings := (db.bookings ++
          [{ userId := userId, date := targetDate, status := .booked, type := .floater,
             seatNumber := some holder.seatNumber }]) },
       .floaterBooked holder.seatNumber) := by
  have hinv := inv_of_reachable schema hrange db hreach
  have hrm : r ∈ releasedFixed db.bookings targetDate := by
    unfold releasedFixed
    rw [hrel]
    exact List.mem_singleton.2 rfl
  have hr := (mem_releasedFixed_iff _ _ _).1 hrm
  -- every occupied seat of the date is one of the ten desks
  have hocc : occupiedSeats db.bookings targetDate ⊆ dedicatedDesks.map some := by
    intro x hx
    unfold occupiedSeats at hx
    rw [List.mem_map] at hx
    obtain ⟨b, hbm, rfl⟩ := hx
    rw [List.mem_filter] at hbm
    simp only [Bool.and_eq_true, decide_eq_true_eq] at hbm
    obtain ⟨hbm, hbd, hbs⟩ := hbm
    rcases hinv.2.shape b hbm with ⟨_, hst⟩ | ⟨hty, _, s, hseat⟩
    · rw [hst] at hbs
      exact absurd hbs (by decide)
    · rw [hseat, List.mem_map]
      refine ⟨s, ?_, rfl⟩
      rcases hinv.2.bookedSeat b hbm hbs s hseat with hd | ⟨r1, hr1, h1, h2, u1, h3, h4⟩
      · exact (mem_dedicatedDesks s).2 hd
      · exfalso
        have hr1m : r1 ∈ releasedFixed db.bookings targetDate := by
          rw [mem_releasedFixed_iff]
          refine ⟨hr1, by rw [h1, hbd], h2, ?_⟩
          rcases hinv.2.shape r1 hr1 with ⟨ht, _⟩ | ⟨_, hst, _⟩
          · exact ht
          · rw [hst] at h2
            exact absurd h2 (by decide)
        unfold releasedFixed at hr1m
        rw [hrel, List.mem_singleton] at hr1m
        subst hr1m
        rw [hholder] at h3
        have : holder = u1 := Option.some.inj h3
        subst this
        exact hfree ⟨b, hbm, hbd, hbs, hty, by rw [hseat, h4]⟩
  have hF : floaterCount db.bookings targetDate ≤ 10 := by
    rw [floaterCount_eq_occupied db hinv.2 targetDate]
    have := (List.subperm_of_subset (hinv.2.distinctSeats targetDate) hocc).length_le
    simpa [dedicatedDesks] using this
  have hR : 1 ≤ releasedCount db.bookings targetDate := by
    rw [releasedCount_eq_releasedFixed db hinv.2 targetDate]
    unfold releasedFixed
    rw [hrel]
    rfl
  have hg : ¬ (10 : Int) + releasedCount db.bookings targetDate
      - floaterCount db.bookings targetDate ≤ 0 := by omega
  have hseat := usersOk_seat_range _ hinv.1 holder (findById_some _ _ _ hholder).1
  have hnotocc : (occupiedSeats db.bookings targetDate).contains (some holder.seatNumber)
      = false := by
    rw [← Bool.not_eq_true]
    intro hc
    have hmem : some holder.seatNumber ∈ dedicatedDesks.map some := hocc (by simpa using hc)
    rw [List.mem_map] at hmem
    obtain ⟨i, hi, hie⟩ := hmem
    have := (mem_dedicatedDesks i).1 hi
    have : i = holder.seatNumber := Option.some.inj hie
    omega
  rw [bookFloater_fallback db userId user targetDate now hw hu hb hg
    (firstFreeDedicated_full _ _ hfull), hrel]
  unfold scanReleased
  rw [hholder]
  dsimp only
  rw [if_pos (by rw [hnotocc]; rfl)]
  dsimp only
  rw [if_neg (by omega), insertBooking_new _ _ hmine]

/-- C12: in a state of a sequential execution, the validators keeping squadId in
1..10: for a user of the assigned batch without a Booking for the date, a
release before the deadline succeeds, and the claim-back that follows it
succeeds and gives back the database as it was before the release; no Booking
of the user for the date is left. -/
theorem C12_release_then_claimBack (schema : UserSchema) (hrange : SquadRange schema)
    (db : Db) (hreach : Reachable schema db) (userId : Nat) (user : User)
    (targetDate now : JsDate)
    (hu : findById db.users userId = some user)
    (hb : some user.batch = getBatchForDate targetDate)
    (hc : canReleaseSeat targetDate now = true)
    (hnone : ∀ x ∈ db.bookings, ¬ (x.userId = userId ∧ x.date = targetDate)) :
    (release db userId targetDate now).2.isReleased = true ∧
    claimBack (release db userId targetDate now).1 userId targetDate = (db, .reclaimed) ∧
    (∀ x ∈ (claimBack (release db userId targetDate now).1 userId targetDate).1.bookings,
      ¬ (x.userId = userId ∧ x.date = targetDate)) := by
  have hinv := inv_of_reachable schema hrange db hreach
  have hf : db.bookings.find? (sameKey userId targetDate) = none := by
    rw [List.find?_eq_none]
    intro x hx hk
    exact hnone x hx ((sameKey_iff _ _ _).1 hk)
  have hrelease := release_fresh db userId user targetDate now hu hb hc hf
  have hnofloater : ¬ FloaterOn db.bookings targetDate user.seatNumber := by
    rintro ⟨b, hbm, hbd, hbs, _, hseat⟩
    have hrange1 := usersOk_seat_range _ hinv.1 user (findById_some _ _ _ hu).1
    rcases hinv.2.bookedSeat b hbm hbs _ hseat with hd | ⟨r1, hr1, h1, h2, u1, h3, h4⟩
    · omega
    · obtain ⟨u2, h5, h6⟩ := hinv.2.releasedHolder r1 hr1 h2
      rw [h3] at h5
      have : u1 = u2 := Option.some.inj h5
      subst this
      rw [h1, hbd, ← hb] at h6
      have hsame : u1 = user :=
        usersOk_seat_inj _ hinv.1 u1 user (findById_some _ _ _ h3).1 (findById_some _ _ _ hu).1
          (Option.some.inj h6) h4
      apply hnone r1 hr1
      refine ⟨?_, by rw [h1, hbd]⟩
      rw [← (findById_some _ _ _ h3).2, hsame, (findById_some _ _ _ hu).2]
  have hclaim : claimBack (release db userId targetDate now).1 userId targetDate
      = (db, .reclaimed) := by
    rw [hrelease]
    have hfl : ¬ FloaterOn (db.bookings ++
        [{ userId := userId, date := targetDate, status := .released, type := .fixed,
           seatNumber := none }]) targetDate user.seatNumber := by
      rintro ⟨b, hbm, hbd, hbs, hbt, hseat⟩
      rcases List.mem_append.1 hbm with hb1 | hb1
      · exact hnofloater ⟨b, hb1, hbd, hbs, hbt, hseat⟩
      · rw [List.mem_singleton] at hb1
        subst hb1
        exact absurd hbs (by simp)
    have hown : HasOwnRelease (db.bookings ++
        [{ userId := userId, date := targetDate, status := .released, type := .fixed,
           seatNumber := none }]) userId targetDate :=
      ⟨_, List.mem_append_right _ (List.mem_singleton.2 rfl), rfl, rfl, rfl, rfl⟩
    rw [claimBack_reclaimed ⟨db.users, db.bookings ++ [_], db.otps⟩ userId user targetDate hu hb
      hfl hown]
    dsimp only
    rw [List.eraseP_append_right]
    · have hnew : ownRelease userId targetDate
          { userId := userId, date := targetDate, status := .released, type := .fixed,
            seatNumber := none } = true := by simp [ownRelease]
      rw [List.eraseP_cons_of_pos hnew, List.append_nil]
    · intro x hx hp
      have := (ownRelease_iff _ _ _).1 hp
      exact hnone x hx ⟨this.1, this.2.1⟩
  refine ⟨(release_isReleased_iff db userId user targetDate now hu).2 ⟨hb, hc⟩, hclaim, ?_⟩
  rw [hclaim]
  exact hnone

/-! ## Instances on the sample data: sequential executions -/

theorem specSchema_squadRange : SquadRange specSchema := by
  intro u hu
  simp only [specSchema, decide_eq_true_eq] at hu
  exact ⟨hu.1, hu.2.1⟩

theorem officeDb_from_empty : ReachableFrom specSchema emptyDb officeDb :=
  ReachableFrom.byRegister _ _ _ _ _ _ (ReachableFrom.byRegister _ _ _ _ _ _ ReachableFrom.start)

theorem crowdDb_from_empty : ReachableFrom specSchema emptyDb crowdDb :=
  ReachableFrom.byRegister _ _ _ _ _ _ (ReachableFrom.byRegister _ _ _ _ _ _
    (ReachableFrom.byRegister _ _ _ _ _ _ (ReachableFrom.byRegister _ _ _ _ _ _
    (ReachableFrom.byRegister _ _ _ _ _ _ (ReachableFrom.byRegister _ _ _ _ _ _
    (ReachableFrom.byRegister _ _ _ _ _ _ (ReachableFrom.byRegister _ _ _ _ _ _
    (ReachableFrom.byRegister _ _ _ _ _ _ (ReachableFrom.byRegister _ _ _ _ _ _
    (ReachableFrom.byRegister _ _ _ _ _ _ (ReachableFrom.byRegister _ _ _ _ _ _
      ReachableFrom.start)))))))))))

theorem crowdFullDb_from_empty : ReachableFrom specSchema emptyDb crowdFullDb :=
  ReachableFrom.byBookFloater _ _ _ _ (ReachableFrom.byBookFloater _ _ _ _
    (ReachableFrom.byBookFloater _ _ _ _ (ReachableFrom.byBookFloater _ _ _ _
    (ReachableFrom.byBookFloater _ _ _ _ (ReachableFrom.byBookFloater _ _ _ _
    (ReachableFrom.byBookFloater _ _ _ _ (ReachableFrom.byBookFloater _ _ _ _
    (ReachableFrom.byBookFloater _ _ _ _ (ReachableFrom.byBookFloater _ _ _ _
    (ReachableFrom.byRelease _ _ _ _ crowdDb_from_empty))))))))))

theorem crowdFullDb_full (i : Int) (h1 : 41 ≤ i) (h2 : i ≤ 50) :
    FloaterOn crowdFullDb.bookings sampleMonday i := by
  have h : ∀ j ∈ dedicatedDesks, FloaterOn crowdFullDb.bookings sampleMonday j := by decide
  exact h i ((mem_dedicatedDesks i).2 ⟨h1, h2⟩)

/-- C11 at a concrete input: twelve members register, the Batch-1 member (seat 9)
releases Monday 23 Feb 2026, ten Batch-2 members book the desks 41..50, and
the eleventh Batch-2 member is assigned seat 9. -/
theorem C11_released_seat_assigned_witness :
    crowdFullDb.bookings.map (fun b => (b.userId, b.status, b.seatNumber))
      = [(1, .released, none), (2, .booked, some 41), (3, .booked, some 42),
         (4, .booked, some 43), (5, .booked, some 44), (6, .booked, some 45),
         (7, .booked, some 46), (8, .booked, some 47), (9, .booked, some 48),
         (10, .booked, some 49), (11, .booked, some 50)] ∧
    bookFloater crowdFullDb 12 sampleMonday sundayAfternoon =
      ({ crowdFullDb with bookings := crowdFullDb.bookings ++ [floaterAt 12 9] },
       .floaterBooked 9) :=
  ⟨by decide,
   C11_released_seat_assigned specSchema specSchema_squadRange crowdFullDb
     ⟨emptyDb, rfl, rfl, crowdFullDb_from_empty⟩ 12
     { id := 12, name := "visitor", email := "v12@x.io", password := "pw", squadId := 4,
       batch := 2, seatNumber := 15 }
     memberA (releaseOf 1) sampleMonday sundayAfternoon
     (by decide) (by decide) (by decide) (by decide) crowdFullDb_full (by decide) (by decide)
     (by decide)⟩

/-- C12 at a concrete input: the Batch-1 member releases Monday 23 Feb 2026 on
the Sunday before at 16:00 and claims the seat back. -/
theorem C12_release_then_claimBack_witness :
    (release officeDb 1 sampleMonday sundayAfternoon).1.bookings = [releaseOf 1] ∧
    (release officeDb 1 sampleMonday sundayAfternoon).2.isReleased = true ∧
    claimBack (release officeDb 1 sampleMonday sundayAfternoon).1 1 sampleMonday
      = (officeDb, .reclaimed) ∧
    (∀ x ∈ (claimBack (release officeDb 1 sampleMonday sundayAfternoon).1 1
        sampleMonday).1.bookings, ¬ (x.userId = 1 ∧ x.date = sampleMonday)) :=
  ⟨by decide,
   C12_release_then_claimBack specSchema specSchema_squadRange officeDb
     ⟨emptyDb, rfl, rfl, officeDb_from_empty⟩ 1 memberA sampleMonday sundayAfternoon
     (by decide) (by decide) (by decide) (by decide)⟩

/-- C16 at a concrete input: the Batch-2 member books a floater for Monday
23 Feb 2026 and asks again; the second call answers AlreadyActedToday and the
one Booking stays. -/
theorem C16_one_booking_per_user_day_witness :
    bookedDb.bookings = [floaterAt 2 41] ∧
    UniqueKey bookedDb.bookings ∧
    bookFloater bookedDb 2 sampleMonday sundayAfternoon = (bookedDb, .alreadyActedToday) :=
  ⟨by decide,
   (C16_one_booking_per_user_day specSchema emptyDb bookedDb rfl
     (ReachableFrom.byBookFloater _ _ _ _ officeDb_from_empty)).1,
   ((C16_one_booking_per_user_day specSchema emptyDb bookedDb rfl
     (ReachableFrom.byBookFloater _ _ _ _ officeDb_from_empty)).2.2 2 sampleMonday
     sundayAfternoon (by decide)).2 specSchema_squadRange rfl visitorZ
     (by decide) (by decide) (by decide) (by decide)⟩

/-! ## Window overlap, status frame and weekends -/

/-- C21: for a local-midnight date `D = midnight day`, `canReleaseSeat D now` and
`canBookFloater D now` are both true exactly when `now` is at or after 15:00
and before 20:00 on the preceding day. -/
theorem C21_windows_overlap (day : Int) (now : JsDate) :
    (canReleaseSeat (midnight day) now = true ∧ canBookFloater (midnight day) now = true) ↔
      (atTime (day - 1) 15 0 ≤ now ∧ now < atTime (day - 1) 20 0) := by
  rw [canReleaseSeat_iff, canBookFloater_iff]
  exact And.comm

theorem getBatchForDate_weekend (d : JsDate) (h : getDay d = 0 ∨ getDay d = 6) :
    getBatchForDate d = none := by
  unfold getBatchForDate
  simp only []
  rw [if_pos h]

theorem getStatus_fields (db : Db) (targetDate now : JsDate) :
    (getStatus db targetDate now).1 = db ∧
    (getStatus db targetDate now).2.assignedBatch? = some (getBatchForDate targetDate) ∧
    (getStatus db targetDate now).2.availableFloaters? =
      some ((10 : Int)
        + db.bookings.countP (fun b => decide (b.date = targetDate ∧ b.status = .released))
        - db.bookings.countP
            (fun b => decide (b.date = targetDate ∧ b.type = .floater ∧ b.status = .booked))) := by
  refine ⟨rfl, rfl, ?_⟩
  rw [← releasedCount_eq, ← floaterCount_eq]
  rfl

/-- C22: Get-Status returns the database unchanged; its `assignedBatch` is
`getBatchForDate` of the date and its `availableFloaters` is computed from the
Bookings of the date alone, so that a second call for the same date, at any
later time, and a call on any database with the same Bookings, return the
same two values; on a Saturday or Sunday `assignedBatch` is absent. -/
theorem C22_getStatus_frame (db db2 : Db) (targetDate now1 now2 now3 : JsDate)
    (hsame : db2.bookings = db.bookings) :
    (getStatus db targetDate now1).1 = db ∧
    (getStatus db targetDate now1).2.assignedBatch? = some (getBatchForDate targetDate) ∧
    (∃ v : Int, (getStatus db targetDate now1).2.availableFloaters? = some v) ∧
    (getStatus (getStatus db targetDate now1).1 targetDate now2).2.assignedBatch?
      = (getStatus db targetDate now1).2.assignedBatch? ∧
    (getStatus (getStatus db targetDate now1).1 targetDate now2).2.availableFloaters?
      = (getStatus db targetDate now1).2.availableFloaters? ∧
    (getStatus db2 targetDate now3).2.assignedBatch?
      = (getStatus db targetDate now1).2.assignedBatch? ∧
    (getStatus db2 targetDate now3).2.availableFloaters?
      = (getStatus db targetDate now1).2.availableFloaters? ∧
    (getDay targetDate = 0 ∨ getDay targetDate = 6 →
      (getStatus db targetDate now1).2.assignedBatch? = some none) := by
  have h1 := getStatus_fields db targetDate now1
  have h2 := getStatus_fields db targetDate now2
  have h3 := getStatus_fields db2 targetDate now3
  rw [hsame] at h3
  refine ⟨h1.1, h1.2.1, ⟨_, h1.2.2⟩, ?_, ?_, ?_, ?_, ?_⟩
  · rw [h1.1, h2.2.1, h1.2.1]
  · rw [h1.1, h2.2.2, h1.2.2]
  · rw [h3.2.1, h1.2.1]
  · rw [h3.2.2, h1.2.2]
  · intro hwe
    rw [h1.2.1, getBatchForDate_weekend targetDate hwe]

theorem bookFloater_fixed_inv (db : Db) (userId : Nat) (targetDate now : JsDate)
    (h : (bookFloater db userId targetDate now).2 = .alreadyHaveFixedSeat) :
    ∃ user : User, findById db.users userId = some user ∧
      some user.batch = getBatchForDate targetDate := by
  cases hw : canBookFloater targetDate now with
  | false => rw [bookFloater_tooEarly db userId targetDate now hw] at h; cases h
  | true =>
    cases hu : findById db.users userId with
    | none => rw [bookFloater_noUser db userId targetDate now hw hu] at h; cases h
    | some user =>
      by_cases hb : some user.batch = getBatchForDate targetDate
      · exact ⟨user, rfl, hb⟩
      exfalso
      by_cases hg : (10 : Int) + releasedCount db.bookings targetDate
            - floaterCount db.bookings targetDate ≤ 0
      · rw [bookFloater_gate db userId user targetDate now hw hu hb hg] at h; cases h
      cases hm : firstFreeDedicated (occupiedSeats db.bookings targetDate) with
      | some m =>
        rw [bookFloater_dedicated db userId user targetDate now hw hu hb hg m hm] at h
        cases hi : insertBooking db.bookings
            { userId := userId, date := targetDate, status := .booked, type := .floater,
              seatNumber := some m } with
        | none => rw [hi] at h; cases h
        | some bs => rw [hi] at h; cases h
      | none =>
        rw [bookFloater_fallback db userId user targetDate now hw hu hb hg hm] at h
        cases hs : scanReleased db.users (occupiedSeats db.bookings targetDate)
            (db.bookings.filter (fun b => decide (b.date = targetDate)
              && decide (b.status = .released) && decide (b.type = .fixed))) with
        | none => rw [hs] at h; cases h
        | some o =>
          cases o with
          | none => rw [hs] at h; cases h
          | some s =>
            rw [hs] at h
            dsimp only at h
            by_cases hs0 : s = 0
            · rw [if_pos hs0] at h; cases h
            rw [if_neg hs0] at h
            cases hi : insertBooking db.bookings
                { userId := userId, date := targetDate, status := .booked, type := .floater,
                  seatNumber := some s } with
            | none => rw [hi] at h; cases h
            | some bs => rw [hi] at h; cases h

theorem occupiedSeats_of_no_booking (bookings : List Booking) (date : JsDate)
    (h : ∀ b ∈ bookings, b.date ≠ date) : occupiedSeats bookings date = [] := by
  unfold occupiedSeats
  rw [List.map_eq_nil_iff, List.filter_eq_nil_iff]
  intro b hb
  simp [h b hb]

theorem counts_of_no_booking (bookings : List Booking) (date : JsDate)
    (h : ∀ b ∈ bookings, b.date ≠ date) :
    releasedCount bookings date = 0 ∧ floaterCount bookings date = 0 := by
  have hnil : bookingsOn bookings date = [] := by
    unfold bookingsOn
    rw [List.filter_eq_nil_iff]
    intro b hb
    simp [h b hb]
  unfold releasedCount floaterCount
  rw [hnil]
  exact ⟨rfl, rfl⟩

/-- C27: on a Saturday or Sunday an existing user, of whatever batch, is not
assigned: release answers NotAssignedToday, claim-back answers NotYourSeat,
book-floater never answers AlreadyHaveFixedSeat, and with the window open and
no Booking for that date in the collection it succeeds with seat 41, the one
Booking appended. -/
theorem C27_weekend_unassigned (db : Db) (userId : Nat) (user : User) (targetDate now : JsDate)
    (hu : findById db.users userId = some user)
    (hwe : getDay targetDate = 0 ∨ getDay targetDate = 6) :
    getBatchForDate targetDate = none ∧
    release db userId targetDate now = (db, .notAssignedToday) ∧
    claimBack db userId targetDate = (db, .notYourSeat) ∧
    (bookFloater db userId targetDate now).2 ≠ .alreadyHaveFixedSeat ∧
    (canBookFloater targetDate now = true → (∀ b ∈ db.bookings, b.date ≠ targetDate) →
      bookFloater db userId targetDate now =
        ({ db with bookings := (db.bookings ++
            [{ userId := userId, date := targetDate, status := .booked, type := .floater,
               seatNumber := some 41 }]) },
         .floaterBooked 41)) := by
  have hnone := getBatchForDate_weekend targetDate hwe
  have hb : some user.batch ≠ getBatchForDate targetDate := by
    rw [hnone]
    exact fun hc => Option.noConfusion hc
  refine ⟨hnone, release_notAssigned db userId user targetDate now hu hb,
    claimBack_notYourSeat db userId user targetDate hu hb, ?_, ?_⟩
  · intro hc
    obtain ⟨u, hu1, hb1⟩ := bookFloater_fixed_inv db userId targetDate now hc
    rw [hu] at hu1
    have : user = u := Option.some.inj hu1
    subst this
    exact hb hb1
  · intro hw hempty
    obtain ⟨hR, hF⟩ := counts_of_no_booking db.bookings targetDate hempty
    have hg : ¬ (10 : Int) + releasedCount db.bookings targetDate
        - floaterCount db.bookings targetDate ≤ 0 := by
      rw [hR, hF]
      decide
    have hm : firstFreeDedicated (occupiedSeats db.bookings targetDate) = some 41 := by
      rw [occupiedSeats_of_no_booking db.bookings targetDate hempty]
      rfl
    rw [bookFloater_dedicated db userId user targetDate now hw hu hb hg 41 hm,
      insertBooking_new _ _ (fun x hx hk => hempty x hx hk.2)]

/-- C22 at concrete inputs: the snapshot of Monday 23 Feb 2026 with two released
seats and three floaters has batch 1 and 9 available floaters at both calls,
and the snapshot of Saturday 28 Feb 2026 has no batch. -/
theorem C22_getStatus_frame_witness :
    (getStatus statusDb sampleMonday sundayAfternoon).1 = statusDb ∧
    (getStatus statusDb sampleMonday sundayAfternoon).2.assignedBatch? = some (some 1) ∧
    (getStatus statusDb sampleMonday sundayAfternoon).2.availableFloaters? = some 9 ∧
    (getStatus (getStatus statusDb sampleMonday sundayAfternoon).1 sampleMonday
        (atTime (referenceDay - 1) 17 0)).2.availableFloaters?
      = (getStatus statusDb sampleMonday sundayAfternoon).2.availableFloaters? ∧
    (getStatus statusDb sampleSaturday fridayAfternoon).2.assignedBatch? = some none :=
  ⟨(C22_getStatus_frame statusDb statusDb sampleMonday sundayAfternoon
      (atTime (referenceDay - 1) 17 0) sundayAfternoon rfl).1,
   by decide, by decide,
   (C22_getStatus_frame statusDb statusDb sampleMonday sundayAfternoon
      (atTime (referenceDay - 1) 17 0) sundayAfternoon rfl).2.2.2.2.1,
   (C22_getStatus_frame statusDb statusDb sampleSaturday fridayAfternoon fridayAfternoon
      fridayAfternoon rfl).2.2.2.2.2.2.2 (by decide)⟩

/-- C27 at a concrete input: on Saturday 28 Feb 2026 the Batch-1 member can
neither release nor claim back, and on the Friday before at 16:00 books the
floater desk 41. -/
theorem C27_weekend_unassigned_witness :
    getDay sampleSaturday = 6 ∧
    getBatchForDate sampleSaturday = none ∧
    release officeDb 1 sampleSaturday fridayAfternoon = (officeDb, .notAssignedToday) ∧
    claimBack officeDb 1 sampleSaturday = (officeDb, .notYourSeat) ∧
    (bookFloater officeDb 1 sampleSaturday fridayAfternoon).2 ≠ .alreadyHaveFixedSeat ∧
    bookFloater officeDb 1 sampleSaturday fridayAfternoon =
      ({ officeDb with bookings :=
          [{ userId := 1, date := sampleSaturday, status := .booked, type := .floater,
             seatNumber := some 41 }] },
       .floaterBooked 41) :=
  ⟨by decide,
   (C27_weekend_unassigned officeDb 1 memberA sampleSaturday fridayAfternoon (by decide)
     (by decide)).1,
   (C27_weekend_unassigned officeDb 1 memberA sampleSaturday fridayAfternoon (by decide)
     (by decide)).2.1,
   (C27_weekend_unassigned officeDb 1 memberA sampleSaturday fridayAfternoon (by decide)
     (by decide)).2.2.1,
   (C27_weekend_unassigned officeDb 1 memberA sampleSaturday fridayAfternoon (by decide)
     (by decide)).2.2.2.1,
   (C27_weekend_unassigned officeDb 1 memberA sampleSaturday fridayAfternoon (by decide)
     (by decide)).2.2.2.2 (by decide) (by decide)⟩

/-! ## Registration and the OTP collection -/

theorem register_users_only (schema : UserSchema) (db₁ db₂ : Db)
    (name email password : String) (squadId batch : Int) (h : db₁.users = db₂.users) :
    (register schema db₁ name email password squadId batch).2
      = (register schema db₂ name email password squadId batch).2 ∧
    (register schema db₁ name email password squadId batch).1.users
      = (register schema db₂ name email password squadId batch).1.users := by
  unfold register
  rw [h]
  split
  · exact ⟨rfl, h⟩
  · dsimp only
    split_ifs
    · exact ⟨rfl, h⟩
    · exact ⟨rfl, rfl⟩
    · exact ⟨rfl, h⟩

theorem register_otps (schema : UserSchema) (db : Db) (name email password : String)
    (squadId batch : Int) :
    (register schema db name email password squadId batch).1.otps =
      if (register schema db name email password squadId batch).2.isRegistered = true
      then db.otps.eraseP (fun o => decide (o.email = email)) else db.otps := by
  unfold register
  split
  · rfl
  · dsimp only
    split_ifs <;> first | rfl | simp_all [Response.isRegistered]

theorem eraseP_none_left (otps : List OTP) (p : OTP → Bool)
    (h : (otps.filter p).length ≤ 1) : ∀ o ∈ otps.eraseP p, p o = false := by
  induction otps with
  | nil => intro o ho; cases ho
  | cons a t ih =>
    by_cases ha : p a = true
    · rw [List.eraseP_cons_of_pos ha]
      rw [List.filter_cons_of_pos ha, List.length_cons] at h
      have ht : t.filter p = [] := List.length_eq_zero.1 (by omega)
      rw [List.filter_eq_nil_iff] at ht
      intro o ho
      simpa using ht o ho
    · rw [List.eraseP_cons_of_neg ha]
      rw [List.filter_cons_of_neg ha] at h
      intro o ho
      rcases List.mem_cons.1 ho with e | e
      · subst e; simpa using ha
      · exact ih h o e

/-- C23: two register runs on databases with the same users, with requests that
agree on name, email, password, squadId and batch, give the same response and
the same user collection, whatever the OTP collections and the `otp` fields
are; the Bookings are untouched; a failed run keeps the OTP collection, a
successful run removes the first OTP record of the email, so that none is left
when at most one existed. -/
theorem C23_register_ignores_otp (schema : UserSchema) (db₁ db₂ : Db)
    (req₁ req₂ : RegisterRequest)
    (husers : db₁.users = db₂.users)
    (hname : req₁.name = req₂.name) (hemail : req₁.email = req₂.email)
    (hpassword : req₁.password = req₂.password) (hsquad : req₁.squadId = req₂.squadId)
    (hbatch : req₁.batch = req₂.batch) :
    (registerRoute schema db₁ req₁).2 = (registerRoute schema db₂ req₂).2 ∧
    (registerRoute schema db₁ req₁).1.users = (registerRoute schema db₂ req₂).1.users ∧
    (registerRoute schema db₁ req₁).1.bookings = db₁.bookings ∧
    ((registerRoute schema db₁ req₁).2.isRegistered = false →
      (registerRoute schema db₁ req₁).1.otps = db₁.otps) ∧
    ((registerRoute schema db₁ req₁).2.isRegistered = true →
      (registerRoute schema db₁ req₁).1.otps
        = db₁.otps.eraseP (fun o => decide (o.email = req₁.email)) ∧
      ((db₁.otps.filter (fun o => decide (o.email = req₁.email))).length ≤ 1 →
        ∀ o ∈ (registerRoute schema db₁ req₁).1.otps, o.email ≠ req₁.email)) := by
  unfold registerRoute
  rw [← hname, ← hemail, ← hpassword, ← hsquad, ← hbatch]
  have h1 := register_users_only schema db₁ db₂ req₁.name req₁.email req₁.password
    req₁.squadId req₁.batch husers
  have h2 := register_otps schema db₁ req₁.name req₁.email req₁.password req₁.squadId
    req₁.batch
  refine ⟨h1.1, h1.2,
    (register_effect schema db₁ req₁.name req₁.email req₁.password req₁.squadId req₁.batch).1,
    ?_, ?_⟩
  · intro hf
    rw [h2, hf]
    rfl
  · intro hs
    rw [h2, if_pos hs]
    refine ⟨rfl, ?_⟩
    intro hone o ho
    have := eraseP_none_left db₁.otps _ hone o ho
    simpa using this

/-- C23 at a concrete input: the same registration with a pending OTP record and
the code submitted, and without any OTP record and a wrong code, creates the
same user with seat 10; the pending record is gone afterwards. -/
theorem C23_register_ignores_otp_witness :
    (registerRoute specSchema pendingDb
        { name := "new", email := "n@x.io", password := "pw", squadId := 3, batch := 1,
          otp := "123456" }).2 = .registered 3 "new" "n@x.io" 3 1 10 ∧
    (registerRoute specSchema pendingDb
        { name := "new", email := "n@x.io", password := "pw", squadId := 3, batch := 1,
          otp := "123456" }).1.otps = [] ∧
    (registerRoute specSchema pendingDb
        { name := "new", email := "n@x.io", password := "pw", squadId := 3, batch := 1,
          otp := "123456" }).2
      = (registerRoute specSchema officeDb
        { name := "new", email := "n@x.io", password := "pw", squadId := 3, batch := 1,
          otp := "000000" }).2 ∧
    (registerRoute specSchema pendingDb
        { name := "new", email := "n@x.io", password := "pw", squadId := 3, batch := 1,
          otp := "123456" }).1.users
      = (registerRoute specSchema officeDb
        { name := "new", email := "n@x.io", password := "pw", squadId := 3, batch := 1,
          otp := "000000" }).1.users :=
  ⟨by decide, by decide,
   (C23_register_ignores_otp specSchema pendingDb officeDb
      { name := "new", email := "n@x.io", password := "pw", squadId := 3, batch := 1,
        otp := "123456" }
      { name := "new", email := "n@x.io", password := "pw", squadId := 3, batch := 1,
        otp := "000000" } rfl rfl rfl rfl rfl rfl).1,
   (C23_register_ignores_otp specSchema pendingDb officeDb
      { name := "new", email := "n@x.io", password := "pw", squadId := 3, batch := 1,
        otp := "123456" }
      { name := "new", email := "n@x.io", password := "pw", squadId := 3, batch := 1,
        otp := "000000" } rfl rfl rfl rfl rfl rfl).2.1⟩

/-! ## The Seat component -/

theorem isYours_iff (seatNum : Int) (data : StatusData) (user : SessionUser) :
    isYours seatNum (some data) user = true ↔
      ((user.seatNumber = seatNum ∧ data.assignedBatch = some user.batch ∧
          ∀ y, yourRecord (some data) user = some y → y.status ≠ .released) ∨
        (∃ y, yourRecord (some data) user = some y ∧ y.type = .floater ∧
          y.status = .booked ∧ y.seatNumber = some seatNum)) := by
  unfold isYours
  cases yourRecord (some data) user with
  | none => simp
  | some y =>
    simp only [Option.bind, Bool.or_eq_true, Bool.and_eq_true, decide_eq_true_eq,
      Option.some.injEq, forall_eq', exists_eq_left']
    tauto

theorem isReleased_iff (seatNum : Int) (data : Option StatusData) :
    isReleased seatNum data = true ↔
      ∃ r, seatRecord seatNum data = some r ∧ r.status = .released := by
  unfold isReleased
  cases seatRecord seatNum data with
  | none => simp
  | some r => simp

theorem isBooked_iff (seatNum : Int) (data : StatusData)
    (hr : isReleased seatNum (some data) = false) :
    isBooked seatNum (some data) = true ↔
      ((seatNum ≤ 40 ∧ batchTruthy data.assignedBatch = true) ∨
        (40 < seatNum ∧ ∃ r, seatRecord seatNum (some data) = some r ∧ r.status = .booked)) := by
  unfold isBooked
  by_cases h40 : seatNum ≤ 40
  · rw [if_pos h40, hr]
    have : ¬ 40 < seatNum := by omega
    simp [h40, this]
  · rw [if_neg h40]
    have : 40 < seatNum := by omega
    cases seatRecord seatNum (some data) with
    | none => simp [h40]
    | some r => simp [h40, this]

/-- C24: for every seat number, status snapshot and session user, the status of
the Seat component is `yours` exactly when (a) the seat is the user's, the
snapshot's batch is the user's batch and the user's Booking in the snapshot,
if any, is not `released`, or (b) the user's Booking is a floater, booked, at
that seat; otherwise `released` when the seat's matching record is released;
otherwise `booked` when the seat is at most 40 and the snapshot has a batch,
or the seat is above 40 and its matching record is booked; otherwise
`available`.  The snapshot has a batch when `assignedBatch` is 1 or 2, not
when it is null.  The value assigned before the block "Refine" has no
influence. -/
theorem C24_seat_status (seatNum : Int) (data : StatusData) (user : SessionUser) :
    (seatStatus seatNum (some data) user = .yours ↔
      ((user.seatNumber = seatNum ∧ data.assignedBatch = some user.batch ∧
          ∀ y, yourRecord (some data) user = some y → y.status ≠ .released) ∨
        (∃ y, yourRecord (some data) user = some y ∧ y.type = .floater ∧
          y.status = .booked ∧ y.seatNumber = some seatNum))) ∧
    (seatStatus seatNum (some data) user ≠ .yours →
      ((∃ r, seatRecord seatNum (some data) = some r ∧ r.status = .released) →
        seatStatus seatNum (some data) user = .released) ∧
      (¬ (∃ r, seatRecord seatNum (some data) = some r ∧ r.status = .released) →
        (((seatNum ≤ 40 ∧ batchTruthy data.assignedBatch = true) ∨
            (40 < seatNum ∧
              ∃ r, seatRecord seatNum (some data) = some r ∧ r.status = .booked)) →
          seatStatus seatNum (some data) user = .booked) ∧
        (¬ ((seatNum ≤ 40 ∧ batchTruthy data.assignedBatch = true) ∨
            (40 < seatNum ∧
              ∃ r, seatRecord seatNum (some data) = some r ∧ r.status = .booked)) →
          seatStatus seatNum (some data) user = .available))) ∧
    batchTruthy none = false ∧ batchTruthy (some 1) = true ∧ batchTruthy (some 2) = true ∧
    (∀ provisional : SeatStatus,
      refineStatus seatNum (some data) user provisional
        = seatStatus seatNum (some data) user) := by
  have hy := isYours_iff seatNum data user
  have hrel := isReleased_iff seatNum (some data)
  refine ⟨?_, ?_, rfl, rfl, rfl, fun _ => rfl⟩
  · rw [← hy]
    unfold seatStatus refineStatus
    split_ifs <;> simp_all
  · intro hny
    have hyf : isYours seatNum (some data) user = false := by
      rw [← Bool.not_eq_true]
      intro hc
      apply hny
      unfold seatStatus refineStatus
      rw [if_pos hc]
    constructor
    · intro hr
      unfold seatStatus refineStatus
      rw [hyf, hrel.2 hr]
      rfl
    · intro hnr
      have hrf : isReleased seatNum (some data) = false := by
        rw [← Bool.not_eq_true]
        exact fun hc => hnr (hrel.1 hc)
      have hbk := isBooked_iff seatNum data hrf
      constructor
      · intro hk
        unfold seatStatus refineStatus
        rw [hyf, hrf, hbk.2 hk]
        rfl
      · intro hnk
        have hbf : isBooked seatNum (some data) = false := by
          rw [← Bool.not_eq_true]
          exact fun hc => hnk (hbk.1 hc)
        unfold seatStatus refineStatus
        rw [hyf, hrf, hbf]
        rfl

/-- C24 at concrete inputs: seats 1, 9, 10, 41 and 44 of Monday 23 Feb 2026 as
the Batch-1 member who released seat 9 sees them, as the Batch-2 member who
booked the released seat 9 sees them, and on a Saturday. -/
theorem C24_seat_status_witness :
    [1, 9, 10, 41, 44].map (fun s =>
        seatStatus s (getStatus statusDb sampleMonday sundayAfternoon).2.data? sessionA)
      = [.booked, .released, .booked, .booked, .available] ∧
    [1, 9, 10, 41, 44].map (fun s =>
        seatStatus s (getStatus takenDb sampleMonday sundayAfternoon).2.data? sessionZ)
      = [.booked, .yours, .booked, .available, .available] ∧
    [1, 9, 10, 41, 44].map (fun s =>
        seatStatus s (getStatus officeDb sampleSaturday fridayAfternoon).2.data? sessionA)
      = [.available, .available, .available, .available, .available] ∧
    (seatStatus 9 (some
        { assignedBatch := some 1, bookings := [], availableFloaters := 10,
          assignedUsers := [], currentTime := sundayAfternoon }) sessionA = .yours ↔
      ((sessionA.seatNumber = 9 ∧ (some 1 : Option Int) = some sessionA.batch ∧
          ∀ y, yourRecord (some
            { assignedBatch := some 1, bookings := [], availableFloaters := 10,
              assignedUsers := [], currentTime := sundayAfternoon }) sessionA = some y →
            y.status ≠ .released) ∨
        (∃ y, yourRecord (some
            { assignedBatch := some 1, bookings := [], availableFloaters := 10,
              assignedUsers := [], currentTime := sundayAfternoon }) sessionA = some y ∧
          y.type = .floater ∧ y.status = .booked ∧ y.seatNumber = some 9))) :=
  ⟨by decide, by decide, by decide,
   (C24_seat_status 9
     { assignedBatch := some 1, bookings := [], availableFloaters := 10,
       assignedUsers := [], currentTime := sundayAfternoon } sessionA).1⟩

/-! ## Safety of the seat scan and distinct floater seats -/

theorem bookingsOk_of_empty (db0 : Db) (hb : db0.bookings = []) : BookingsOk db0 := by
  constructor
  · rw [hb]; exact List.nodup_nil
  · rw [hb]; intro b hb1; cases hb1
  · rw [hb]; intro b hb1; cases hb1
  · rw [hb]; intro b hb1; cases hb1
  · rw [hb]; intro b hb1; cases hb1
  · intro d; rw [hb]; exact List.nodup_nil

theorem bookingsOk_of_reachableFrom (schema : UserSchema) (db0 db : Db)
    (h0 : BookingsOk db0) (h : ReachableFrom schema db0 db) : BookingsOk db := by
  induction h with
  | start => exact h0
  | byRegister db name email password squadId batch _ ih =>
    exact bookingsOk_register schema db name email password squadId batch ih
  | byRelease db userId targetDate now _ ih => exact bookingsOk_release db userId targetDate now ih
  | byClaimBack db userId targetDate _ ih => exact bookingsOk_claimBack db userId targetDate ih
  | byBookFloater db userId targetDate now _ ih =>
    exact bookingsOk_bookFloater db userId targetDate now ih

theorem floaterCount_le (db : Db) (h : BookingsOk db) (date : JsDate) :
    floaterCount db.bookings date ≤ 10 + releasedCount db.bookings date := by
  have hsub : occupiedSeats db.bookings date ⊆
      dedicatedDesks.map some ++ (releasedFixed db.bookings date).map (holderSeat db.users) := by
    intro x hx
    unfold occupiedSeats at hx
    rw [List.mem_map] at hx
    obtain ⟨b, hbm, rfl⟩ := hx
    rw [List.mem_filter] at hbm
    simp only [Bool.and_eq_true, decide_eq_true_eq] at hbm
    obtain ⟨hbm, hbd, hbs⟩ := hbm
    rcases h.shape b hbm with ⟨_, hst⟩ | ⟨_, _, s, hseat⟩
    · rw [hst] at hbs
      exact absurd hbs (by decide)
    · rw [hseat]
      rcases h.bookedSeat b hbm hbs s hseat with hd | ⟨r, hr, h1, h2, u, h3, h4⟩
      · exact List.mem_append_left _ (List.mem_map.2 ⟨s, (mem_dedicatedDesks s).2 hd, rfl⟩)
      · apply List.mem_append_right
        rw [List.mem_map]
        refine ⟨r, ?_, ?_⟩
        · rw [mem_releasedFixed_iff]
          refine ⟨hr, by rw [h1, hbd], h2, ?_⟩
          rcases h.shape r hr with ⟨ht, _⟩ | ⟨_, hst, _⟩
          · exact ht
          · rw [hst] at h2
            exact absurd h2 (by decide)
        · unfold holderSeat
          rw [h3, ← h4]
          rfl
  have hlen := (List.subperm_of_subset (h.distinctSeats date) hsub).length_le
  rw [List.length_append, List.length_map, List.length_map,
    ← floaterCount_eq_occupied db h date, ← releasedCount_eq_releasedFixed db h date] at hlen
  have : dedicatedDesks.length = 10 := rfl
  omega

theorem bookFloater_noSeats_inv (db : Db) (userId : Nat) (targetDate now : JsDate)
    (h : (bookFloater db userId targetDate now).2 = .noSeatsAvailable) :
    (0 : Int) < 10 + releasedCount db.bookings targetDate
      - floaterCount db.bookings targetDate ∧
    firstFreeDedicated (occupiedSeats db.bookings targetDate) = none ∧
    (scanReleased db.users (occupiedSeats db.bookings targetDate)
        (releasedFixed db.bookings targetDate) = some none ∨
      scanReleased db.users (occupiedSeats db.bookings targetDate)
        (releasedFixed db.bookings targetDate) = some (some 0)) := by
  cases hw : canBookFloater targetDate now with
  | false => rw [bookFloater_tooEarly db userId targetDate now hw] at h; cases h
  | true =>
    cases hu : findById db.users userId with
    | none => rw [bookFloater_noUser db userId targetDate now hw hu] at h; cases h
    | some user =>
      by_cases hb : some user.batch = getBatchForDate targetDate
      · rw [bookFloater_fixed db userId user targetDate now hw hu hb] at h; cases h
      by_cases hg : (10 : Int) + releasedCount db.bookings targetDate
            - floaterCount db.bookings targetDate ≤ 0
      · rw [bookFloater_gate db userId user targetDate now hw hu hb hg] at h; cases h
      cases hm : firstFreeDedicated (occupiedSeats db.bookings targetDate) with
      | some m =>
        rw [bookFloater_dedicated db userId user targetDate now hw hu hb hg m hm] at h
        cases hi : insertBooking db.bookings
            { userId := userId, date := targetDate, status := .booked, type := .floater,
              seatNumber := some m } with
        | none => rw [hi] at h; cases h
        | some bs => rw [hi] at h; cases h
      | none =>
        refine ⟨by omega, rfl, ?_⟩
        rw [bookFloater_fallback db userId user targetDate now hw hu hb hg hm] at h
        unfold releasedFixed
        cases hs : scanReleased db.users (occupiedSeats db.bookings targetDate)
            (db.bookings.filter (fun b => decide (b.date = targetDate)
              && decide (b.status = .released) && decide (b.type = .fixed))) with
        | none => rw [hs] at h; cases h
        | some o =>
          cases o with
          | none => exact Or.inl rfl
          | some s =>
            rw [hs] at h
            dsimp only at h
            by_cases hs0 : s = 0
            · subst hs0; exact Or.inr rfl
            rw [if_neg hs0] at h
            cases hi : insertBooking db.bookings
                { userId := userId, date := targetDate, status := .booked, type := .floater,
                  seatNumber := some s } with
            | none => rw [hi] at h; cases h
            | some bs => rw [hi] at h; cases h

theorem bookFloater_never_noSeats (db : Db) (hinv : Inv db) (userId : Nat)
    (targetDate now : JsDate) :
    (bookFloater db userId targetDate now).2 ≠ .noSeatsAvailable := by
  intro h
  obtain ⟨hg, hm, hscan⟩ := bookFloater_noSeats_inv db userId targetDate now h
  obtain ⟨s, hs, hpos, _⟩ := scan_finds_released db hinv targetDate hg hm
  rw [hs] at hscan
  rcases hscan with e | e
  · cases e
  · have : s = 0 := Option.some.inj (Option.some.inj e)
    omega

theorem bookFloater_selects (db : Db) (hinv : Inv db) (userId : Nat) (user : User)
    (targetDate now : JsDate)
    (hw : canBookFloater targetDate now = true)
    (hu : findById db.users userId = some user)
    (hb : some user.batch ≠ getBatchForDate targetDate)
    (hg : (0 : Int) < 10 + releasedCount db.bookings targetDate
      - floaterCount db.bookings targetDate) :
    ∃ n : Int, 1 ≤ n ∧ ¬ SeatBooked db.bookings targetDate n ∧
      bookFloater db userId targetDate now =
        match insertBooking db.bookings
            { userId := userId, date := targetDate, status := .booked, type := .floater,
              seatNumber := some n } with
        | none => (db, .alreadyActedToday)
        | some bs => ({ db with bookings := bs }, .floaterBooked n) := by
  have hg1 : ¬ (10 : Int) + releasedCount db.bookings targetDate
      - floaterCount db.bookings targetDate ≤ 0 := by omega
  cases hm : firstFreeDedicated (occupiedSeats db.bookings targetDate) with
  | some m =>
    obtain ⟨h1, _, h3, _⟩ := firstFreeDedicated_some _ m hm
    refine ⟨m, by omega, ?_, bookFloater_dedicated db userId user targetDate now hw hu hb hg1 m hm⟩
    rw [← occupied_contains_iff, h3]
    simp
  | none =>
    obtain ⟨s, hs, hpos, hfree⟩ := scan_finds_released db hinv targetDate hg hm
    refine ⟨s, hpos, ?_, ?_⟩
    · rw [← occupied_contains_iff, hfree]
      simp
    · unfold releasedFixed at hs
      rw [bookFloater_fallback db userId user targetDate now hw hu hb hg1 hm, hs]
      dsimp only
      rw [if_neg (by omega)]

/-- C25: in every state reached from an empty Booking collection by register,
release, claim-back and book-floater calls, the count 10 + released - floaters
of every date is not negative.  When moreover the users come from registration
under validators that keep squadId in 1..10, book-floater never answers
NoSeatsAvailable, and once the window, batch and availability checks pass the
scan selects a seat that no booked Booking of the date holds: a caller without
a Booking for the date gets it, a caller with one is answered
AlreadyActedToday. -/
theorem C25_scan_always_finds_seat (schema : UserSchema) (db0 db : Db)
    (h0 : db0.bookings = []) (hreach : ReachableFrom schema db0 db) (date : JsDate) :
    (0 : Int) ≤ 10
      + db.bookings.countP (fun b => decide (b.date = date ∧ b.status = .released))
      - db.bookings.countP
          (fun b => decide (b.date = date ∧ b.type = .floater ∧ b.status = .booked)) ∧
    (SquadRange schema → db0.users = [] →
      (∀ (userId : Nat) (now : JsDate),
        (bookFloater db userId date now).2 ≠ .noSeatsAvailable) ∧
      (∀ (userId : Nat) (user : User) (now : JsDate),
        canBookFloater date now = true →
        findById db.users userId = some user →
        some user.batch ≠ getBatchForDate date →
        (0 : Int) < 10
          + db.bookings.countP (fun b => decide (b.date = date ∧ b.status = .released))
          - db.bookings.countP
              (fun b => decide (b.date = date ∧ b.type = .floater ∧ b.status = .booked)) →
        ∃ n : Int, 1 ≤ n ∧ ¬ SeatBooked db.bookings date n ∧
          ((∀ x ∈ db.bookings, ¬ (x.userId = userId ∧ x.date = date)) →
            bookFloater db userId date now =
              ({ db with bookings := (db.bookings ++
                  [{ userId := userId, date := date, status := .booked, type := .floater,
                     seatNumber := some n }]) },
               .floaterBooked n)) ∧
          ((∃ x ∈ db.bookings, x.userId = userId ∧ x.date = date) →
            bookFloater db userId date now = (db, .alreadyActedToday)))) := by
  have hok : BookingsOk db :=
    bookingsOk_of_reachableFrom schema db0 db (bookingsOk_of_empty db0 h0) hreach
  rw [← releasedCount_eq, ← floaterCount_eq]
  constructor
  · have := floaterCount_le db hok date
    omega
  · intro hrange hu0
    have hinv : Inv db := inv_of_reachable schema hrange db ⟨db0, hu0, h0, hreach⟩
    refine ⟨fun userId now => bookFloater_never_noSeats db hinv userId date now, ?_⟩
    intro userId user now hw hu hb hg
    obtain ⟨n, hpos, hfree, hsel⟩ := bookFloater_selects db hinv userId user date now hw hu hb hg
    refine ⟨n, hpos, hfree, ?_, ?_⟩
    · intro hnone
      rw [hsel, insertBooking_new _ _ hnone]
    · intro hdup
      rw [hsel, insertBooking_dup _ _ hdup]

/-- C26: in every state reached from an empty Booking collection by register,
release, claim-back and book-floater calls, one after the other, two booked
floater Bookings of one date with the same seatNumber are the same Booking,
and the seatNumber of a booked floater Booking is in 41..50 or is the
seatNumber of a user of the batch assigned to that date who holds a fixed
released Booking for that date. -/
theorem C26_floater_seats_distinct (schema : UserSchema) (db0 db : Db)
    (h0 : db0.bookings = []) (hreach : ReachableFrom schema db0 db) :
    (∀ b₁ ∈ db.bookings, ∀ b₂ ∈ db.bookings,
      b₁.type = .floater → b₁.status = .booked → b₂.type = .floater → b₂.status = .booked →
      b₁.date = b₂.date → b₁.seatNumber = b₂.seatNumber → b₁ = b₂) ∧
    (∀ b ∈ db.bookings, b.type = .floater → b.status = .booked →
      ∃ s : Int, b.seatNumber = some s ∧
        ((41 ≤ s ∧ s ≤ 50) ∨
          ∃ r ∈ db.bookings, r.date = b.date ∧ r.type = .fixed ∧ r.status = .released ∧
            ∃ holder : User, findById db.users r.userId = some holder ∧
              some holder.batch = getBatchForDate b.date ∧ holder.seatNumber = s)) := by
  have hok : BookingsOk db :=
    bookingsOk_of_reachableFrom schema db0 db (bookingsOk_of_empty db0 h0) hreach
  constructor
  · intro b₁ hb₁ b₂ hb₂ _ hs₁ _ hs₂ hd hseat
    have hnd := hok.distinctSeats b₁.date
    unfold occupiedSeats at hnd
    apply List.inj_on_of_nodup_map hnd _ _ hseat
    · rw [List.mem_filter]
      exact ⟨hb₁, by simp [hs₁]⟩
    · rw [List.mem_filter]
      exact ⟨hb₂, by simp [hs₂, hd]⟩
  · intro b hb _ hs
    rcases hok.shape b hb with ⟨_, hst⟩ | ⟨_, _, s, hseat⟩
    · rw [hst] at hs
      exact absurd hs (by decide)
    · refine ⟨s, hseat, ?_⟩
      rcases hok.bookedSeat b hb hs s hseat with hd | ⟨r, hr, h1, h2, u, h3, h4⟩
      · exact Or.inl hd
      · right
        obtain ⟨u2, h5, h6⟩ := hok.releasedHolder r hr h2
        rw [h3] at h5
        have : u = u2 := Option.some.inj h5
        subst this
        refine ⟨r, hr, h1, ?_, h2, u, h3, by rw [← h1]; exact h6, h4⟩
        rcases hok.shape r hr with ⟨ht, _⟩ | ⟨_, hst, _⟩
        · exact ht
        · rw [hst] at h2
          exact absurd h2 (by decide)

/-! ## Instances on the sample data: the seat scan -/

/-- C25 at a concrete input: after twelve registrations, one release and ten
floater bookings the count of Monday 23 Feb 2026 is 1, and the next call finds
the released seat 9. -/
theorem C25_scan_always_finds_seat_witness :
    (10 : Int)
      + crowdFullDb.bookings.countP
          (fun b => decide (b.date = sampleMonday ∧ b.status = .released))
      - crowdFullDb.bookings.countP
          (fun b => decide (b.date = sampleMonday ∧ b.type = .floater ∧ b.status = .booked))
      = 1 ∧
    (0 : Int) ≤ 10
      + crowdFullDb.bookings.countP
          (fun b => decide (b.date = sampleMonday ∧ b.status = .released))
      - crowdFullDb.bookings.countP
          (fun b => decide (b.date = sampleMonday ∧ b.type = .floater ∧ b.status = .booked)) ∧
    (bookFloater crowdFullDb 12 sampleMonday sundayAfternoon).2 ≠ .noSeatsAvailable ∧
    (bookFloater crowdFullDb 12 sampleMonday sundayAfternoon).2 = .floaterBooked 9 :=
  ⟨by decide,
   (C25_scan_always_finds_seat specSchema emptyDb crowdFullDb rfl crowdFullDb_from_empty
     sampleMonday).1,
   ((C25_scan_always_finds_seat specSchema emptyDb crowdFullDb rfl crowdFullDb_from_empty
     sampleMonday).2 specSchema_squadRange rfl).1 12 sundayAfternoon,
   by decide⟩

/-- C26 at a concrete input: after the twelfth member booked the released seat 9,
the booked floater Bookings of Monday 23 Feb 2026 hold the seats 41..50 and 9,
all distinct, seat 9 being that of the Batch-1 member who released. -/
theorem C26_floater_seats_distinct_witness :
    crowdTakenDb.bookings.map (fun b => (b.userId, b.status, b.seatNumber))
      = [(1, .released, none), (2, .booked, some 41), (3, .booked, some 42),
         (4, .booked, some 43), (5, .booked, some 44), (6, .booked, some 45),
         (7, .booked, some 46), (8, .booked, some 47), (9, .booked, some 48),
         (10, .booked, some 49), (11, .booked, some 50), (12, .booked, some 9)] ∧
    findById crowdTakenDb.users 1 = some memberA ∧
    (∀ b₁ ∈ crowdTakenDb.bookings, ∀ b₂ ∈ crowdTakenDb.bookings,
      b₁.type = .floater → b₁.status = .booked → b₂.type = .floater → b₂.status = .booked →
      b₁.date = b₂.date → b₁.seatNumber = b₂.seatNumber → b₁ = b₂) :=
  ⟨by decide, by decide,
   (C26_floater_seats_distinct specSchema emptyDb crowdTakenDb rfl
     (ReachableFrom.byBookFloater _ _ _ _ crowdFullDb_from_empty)).1⟩

/-- The range of squadId is needed for the scan to find a seat: under a schema
without validators a member of squad 11 gets seat 41, and after that member's
release and ten floater bookings the availability check passes while no seat
is free. -/
theorem noSeats_without_squadRange :
    ReachableFrom openSchema emptyDb squad11FullDb ∧
    squad11FullDb.users.map (fun u => (u.id, u.squadId, u.batch, u.seatNumber))
      = [(1, 11, 1, 41), (2, 1, 2, 1), (3, 1, 2, 2), (4, 1, 2, 3), (5, 1, 2, 4), (6, 2, 2, 5),
         (7, 2, 2, 6), (8, 2, 2, 7), (9, 2, 2, 8), (10, 4, 2, 13), (11, 4, 2, 14),
         (12, 4, 2, 15)] ∧
    bookFloater squad11FullDb 12 sampleMonday sundayAfternoon
      = (squad11FullDb, .noSeatsAvailable) := by
  refine ⟨?_, by decide, by decide⟩
  exact ReachableFrom.byBookFloater _ _ _ _ (ReachableFrom.byBookFloater _ _ _ _
    (ReachableFrom.byBookFloater _ _ _ _ (ReachableFrom.byBookFloater _ _ _ _
    (ReachableFrom.byBookFloater _ _ _ _ (ReachableFrom.byBookFloater _ _ _ _
    (ReachableFrom.byBookFloater _ _ _ _ (ReachableFrom.byBookFloater _ _ _ _
    (ReachableFrom.byBookFloater _ _ _ _ (ReachableFrom.byBookFloater _ _ _ _
    (ReachableFrom.byRelease _ _ _ _
    (ReachableFrom.byRegister _ _ _ _ _ _ (ReachableFrom.byRegister _ _ _ _ _ _
    (ReachableFrom.byRegister _ _ _ _ _ _ (ReachableFrom.byRegister _ _ _ _ _ _
    (ReachableFrom.byRegister _ _ _ _ _ _ (ReachableFrom.byRegister _ _ _ _ _ _
    (ReachableFrom.byRegister _ _ _ _ _ _ (ReachableFrom.byRegister _ _ _ _ _ _
    (ReachableFrom.byRegister _ _ _ _ _ _ (ReachableFrom.byRegister _ _ _ _ _ _
    (ReachableFrom.byRegister _ _ _ _ _ _ (ReachableFrom.byRegister _ _ _ _ _ _
      ReachableFrom.start))))))))))))))))))))))

end SeatManagement
